import Mathlib

/-!
# Book catalog backend: status transitions, logical delete, the repository and the handlers

A shallow embedding of the Go packages `models`, `utils`, `database`,
`repositories`, `services` and `handlers` of the backend.  Every function that touches the
clock, the UUID generator or the storage engine is written in explicit
state-passing style over a `World`:

* the two tables `books` and `book_status_changes` (rows in insertion order);
* the list of calls made on the database handle and on transaction handles;
* the number of readings taken from the clock and from the UUID generator.

What the outside world answers is fixed by an `Env`: the value of every clock
reading, every generated UUID, the verdict of `uuid.Parse`, and for the n-th
storage call whether the engine reports an error.  The storage engine itself
is modelled as a sequential row store that enforces the schema of
`config/db.go` (primary key on `books.id`, foreign key on
`book_status_changes.book_id`).
-/

set_option autoImplicit false

/-! ## package utils -/

namespace utils

/-- Go error values: the two sentinels of package utils, the two sentinels of
database/sql the code tests for, any other error of the driver, and an error
wrapping another one. -/
inductive Error where
  | ErrBadRequest
  | ErrNotFound
  | ErrNoRows
  | ErrTxDone
  | driver (msg : String)
  | wrap (msg : String) (inner : Error)
  deriving DecidableEq, Repr

/-- The function errors.Is: the target is the error itself or is found down
its chain of wrapped errors. -/
def errorsIs : Error → Error → Bool
  | .wrap msg inner, target => decide (Error.wrap msg inner = target) || errorsIs inner target
  | err, target => decide (err = target)

/-- CheckRowsAffected: the receiver is the outcome of res.RowsAffected(). -/
def CheckRowsAffected (res : Except Error Nat) : Option Error :=
  match res with
  | .error err => some err
  | .ok count => if count = 0 then some Error.ErrNotFound else none

end utils

/-! ## package models -/

namespace models

/-- An instant of time.Time, counted from the zero time. -/
abbrev Time := Nat

/-- BookStatus is a Go string type. -/
abbrev BookStatus := String

def BookStatusAvailable : BookStatus := "available"

def BookStatusCheckedOut : BookStatus := "checked_out"

structure Book where
  ID : String
  ISBN : String
  Title : String
  Author : String
  Description : String
  Status : BookStatus
  CreatedAt : Time
  UpdatedAt : Time
  Deleted : Bool
  deriving DecidableEq, Repr

/-- The zero value of the Go struct Book. -/
def Book.zero : Book :=
  { ID := "", ISBN := "", Title := "", Author := "", Description := "", Status := "",
    CreatedAt := 0, UpdatedAt := 0, Deleted := false }

/-- The Go struct BookStatusChange, as scanned from a query. -/
structure BookStatusChange where
  ID : String
  BookID : String
  Status : BookStatus
  Timestamp : Time
  deriving DecidableEq, Repr

structure BookPayload where
  ISBN : String
  Title : String
  Author : String
  Description : String
  deriving DecidableEq, Repr

abbrev CreateBookRequest := BookPayload

abbrev UpdateBookRequest := BookPayload

structure ListBooksRequest where
  Page : Int
  PageSize : Int
  SortBy : String
  SortOrder : String
  ISBN : String
  Title : String
  Author : String
  Status : String
  Text : String
  deriving DecidableEq, Repr

structure BookResponse where
  ID : String
  ISBN : String
  Title : String
  Author : String
  Description : String
  Status : BookStatus
  CreatedAt : Time
  UpdatedAt : Time
  deriving DecidableEq, Repr

structure ListBooksResponse where
  Books : List BookResponse
  TotalItems : Int
  TotalPages : Int
  CurrentPage : Int
  PageSize : Int
  deriving DecidableEq, Repr

structure StatusChangeResponse where
  Status : BookStatus
  Timestamp : Time
  deriving DecidableEq, Repr

structure BookDetailResponse where
  Book : BookResponse
  History : List StatusChangeResponse
  deriving DecidableEq, Repr

def ToBookResponse (book : Book) : BookResponse :=
  { ID := book.ID, ISBN := book.ISBN, Title := book.Title, Author := book.Author,
    Description := book.Description, Status := book.Status,
    CreatedAt := book.CreatedAt, UpdatedAt := book.UpdatedAt }

def ToBookResponseList (books : List Book) : List BookResponse :=
  books.map ToBookResponse

def ToStatusChangeResponse (sc : BookStatusChange) : StatusChangeResponse :=
  { Status := sc.Status, Timestamp := sc.Timestamp }

def ToStatusChangeResponseList (changes : List BookStatusChange) : List StatusChangeResponse :=
  changes.map ToStatusChangeResponse

end models

/-! ## The storage engine and the outside world -/

namespace storage

open utils models

/-- A row of table book_status_changes (schema of config/db.go). -/
structure StatusChangeRow where
  id : Nat
  book_id : String
  status : String
  timestamp : Time
  deriving DecidableEq, Repr

/-- The two tables, rows in insertion order. -/
structure Tables where
  books : List Book
  book_status_changes : List StatusChangeRow
  deriving DecidableEq, Repr

/-- The conditions repository ListBooks can put in its WHERE clause. -/
inductive Cond where
  | isbnILike
  | titleILike
  | authorILike
  | statusEq
  | textILike
  | notDeleted
  deriving DecidableEq, Repr

/-- A call made on the database handle or on a transaction handle. -/
inductive Call where
  | BeginTxx
  | Commit
  | Rollback
  | InsertBook (book : Book)
  | CountBooks (whereClause : String) (args : List String)
  | SelectBooks (whereClause sortBy sortOrder : String) (limit offset : Int) (args : List String)
  | SelectBookByID (id : String)
  | UpdateBook (book : Book)
  | DeleteBook (id : String)
  | UpdateBookStatus (status : String) (timestamp : Time) (id : String)
  | InsertStatusChange (id : String) (status : String) (timestamp : Time)
  | SelectHistory (id : String)
  deriving DecidableEq, Repr

/-- What the outside world answers. -/
structure Env where
  /-- The value of the n-th reading of time.Now(). -/
  now : Nat → Time
  /-- The value of the n-th uuid.New().String(). -/
  newUUID : Nat → String
  /-- Whether uuid.Parse accepts the string. -/
  parseUUID : String → Bool
  /-- The error the engine reports for the n-th storage call, if any. -/
  fault : Nat → Option Error
  /-- The error of res.RowsAffected() after the n-th storage call, if any. -/
  rowsFault : Nat → Option Error

structure World where
  tables : Tables
  /-- Last value handed out by the SERIAL sequence of book_status_changes.id. -/
  serial : Nat
  /-- Calls made on storage handles so far, oldest first. -/
  calls : List Call
  /-- Number of readings of time.Now() so far. -/
  clockReads : Nat
  /-- Number of UUIDs generated so far. -/
  uuidReads : Nat
  /-- Rollback errors written to the log by the transactional wrapper. -/
  logged : List Error
  deriving DecidableEq, Repr

/-- The store before anything has happened. -/
def World.empty : World :=
  { tables := { books := [], book_status_changes := [] }, serial := 0, calls := [],
    clockReads := 0, uuidReads := 0, logged := [] }

/-- A reading of time.Now(). -/
def timeNow (env : Env) (w : World) : Time × World :=
  (env.now w.clockReads, { w with clockReads := w.clockReads + 1 })

/-- A call of uuid.New().String(). -/
def uuidNew (env : Env) (w : World) : String × World :=
  (env.newUUID w.uuidReads, { w with uuidReads := w.uuidReads + 1 })

/-- Record a storage call; the answer is the error the engine reports for it,
if any.  A call that reports an error has no effect on the tables. -/
def issue (env : Env) (c : Call) (w : World) : Option Error × World :=
  (env.fault w.calls.length, { w with calls := w.calls ++ [c] })

/-- The outcome of res.RowsAffected() for the statement just executed. -/
def rowsAffected (env : Env) (w : World) (count : Nat) : Except Error Nat :=
  match env.rowsFault (w.calls.length - 1) with
  | some err => .error err
  | none => .ok count

def duplicateKey : Error := .driver "duplicate key value violates unique constraint"

def foreignKeyViolation : Error := .driver "insert violates foreign key constraint"

def negativeLimit : Error := .driver "LIMIT must not be negative"

def negativeOffset : Error := .driver "OFFSET must not be negative"

/-- All suffixes of a string are tried, longest first. -/
def anySuffix (f : List Char → Bool) : List Char → Bool
  | [] => f []
  | c :: s => f (c :: s) || anySuffix f s

/-- LIKE of PostgreSQL: a percent sign matches any sequence of characters, an
underscore any one character, a backslash takes the next character literally. -/
def likeMatch : List Char → List Char → Bool
  | [], s => s.isEmpty
  | '%' :: p, s => anySuffix (likeMatch p) s
  | '_' :: p, s =>
    match s with
    | [] => false
    | _ :: s1 => likeMatch p s1
  | '\\' :: [], _ => false
  | '\\' :: c :: p, s =>
    match s with
    | [] => false
    | d :: s1 => decide (c = d) && likeMatch p s1
  | c :: p, s =>
    match s with
    | [] => false
    | d :: s1 => decide (c = d) && likeMatch p s1

/-- ILIKE: LIKE on the lower-cased pattern and text (ASCII case folding). -/
def ilike (text pattern : String) : Bool :=
  likeMatch (pattern.data.map Char.toLower) (text.data.map Char.toLower)

/-- The SQL text of a condition. -/
def Cond.sql : Cond → String
  | .isbnILike => "isbn ILIKE ?"
  | .titleILike => "title ILIKE ?"
  | .authorILike => "author ILIKE ?"
  | .statusEq => "status = ?"
  | .textILike => "(title ILIKE ? OR description ILIKE ?)"
  | .notDeleted => "deleted = false"

/-- The number of placeholders of a condition. -/
def Cond.arity : Cond → Nat
  | .textILike => 2
  | .notDeleted => 0
  | _ => 1

/-- Whether a row satisfies a condition with its placeholders bound. -/
def Cond.eval : Cond → List String → Book → Bool
  | .isbnILike, [a], b => ilike b.ISBN a
  | .titleILike, [a], b => ilike b.Title a
  | .authorILike, [a], b => ilike b.Author a
  | .statusEq, [a], b => decide (b.Status = a)
  | .textILike, [a1, a2], b => ilike b.Title a1 || ilike b.Description a2
  | .notDeleted, [], b => !b.Deleted
  | _, _, _ => false

/-- The conjunction of the conditions, placeholders bound from left to right. -/
def evalWhere : List Cond → List String → Book → Bool
  | [], _, _ => true
  | c :: cs, args, b => c.eval (args.take c.arity) b && evalWhere cs (args.drop c.arity) b

/-- Lexicographic order on strings, character by character. -/
def lexLE : List Char → List Char → Bool
  | [], _ => true
  | _ :: _, [] => false
  | a :: as, b :: bs => if a < b then true else if b < a then false else lexLE as bs

/-- The value of a column of table books that ORDER BY can name. -/
def column (name : String) (b : Book) : String :=
  if name = "isbn" then b.ISBN
  else if name = "author" then b.Author
  else if name = "status" then b.Status
  else b.Title

/-- ORDER BY column ASC or DESC; rows that compare equal keep their order. -/
def orderBy (sortBy sortOrder : String) (rows : List Book) : List Book :=
  if sortOrder = "DESC" then
    rows.insertionSort (fun x y => lexLE (column sortBy y).data (column sortBy x).data = true)
  else
    rows.insertionSort (fun x y => lexLE (column sortBy x).data (column sortBy y).data = true)

/-- LIMIT and OFFSET; the engine rejects negative values. -/
def limitOffset (limit offset : Int) (rows : List Book) : Except Error (List Book) :=
  if limit < 0 then .error negativeLimit
  else if offset < 0 then .error negativeOffset
  else .ok ((rows.drop offset.toNat).take limit.toNat)

/-- The row predicate of WHERE id = ... AND deleted = false, for a parameter
given in the spelling in which the rows hold the id.  The engine compares UUID
values; a parameter that spells the UUID of a row in another way is not matched
here. -/
def liveWithID (id : String) (b : Book) : Bool :=
  decide (b.ID = id) && !b.Deleted

/-- Two-complement wrap-around of Go int arithmetic (64 bits). -/
def wrapInt64 (x : Int) : Int :=
  (x + 2 ^ 63) % 2 ^ 64 - 2 ^ 63

end storage

/-! ## package database -/

namespace database

open utils models storage

/-- The deferred tx.Rollback() of withTransactionInternal.  Once Commit has been
called the handle answers ErrTxDone and nothing happens; otherwise the tables
go back to what they were at begin, and an error of the rollback other than
ErrTxDone is written to the log. -/
def deferredRollback (env : Env) (saved : Tables) (done : Bool) (w : World) : World :=
  let rErr := if done then some Error.ErrTxDone else env.fault w.calls.length
  let w1 := { w with calls := w.calls ++ [Call.Rollback],
                     tables := if done then w.tables else saved }
  match rErr with
  | some e => if errorsIs e Error.ErrTxDone then w1 else { w1 with logged := w1.logged ++ [e] }
  | none => w1

/-- The generic wrapper withTransactionInternal: fn runs on the transaction
handle, that is on the world whose tables are the working copy of the
transaction. -/
def withTransactionInternal {T : Type} (zero : T) (env : Env)
    (fn : World → (T × Option Error) × World) (w : World) : (T × Option Error) × World :=
  -- Begin transaction
  match issue env Call.BeginTxx w with
  | (some err, w1) => ((zero, some err), w1)
  | (none, w1) =>
    let saved := w1.tables
    -- Run the wrapped function within the transaction
    match fn w1 with
    | ((_, some err), w2) => ((zero, some err), deferredRollback env saved false w2)
    | ((result, none), w2) =>
      -- No errors, commit the transaction
      match issue env Call.Commit w2 with
      | (some err, w3) =>
        -- a commit that reports an error has committed nothing
        ((zero, some err), deferredRollback env saved true { w3 with tables := saved })
      | (none, w3) => ((result, none), deferredRollback env saved true w3)

/-- WithTransaction: for functions with a single error return. -/
def WithTransaction (env : Env) (fn : World → Option Error × World) (w : World) :
    Option Error × World :=
  let r := withTransactionInternal () env (fun tx => (((), (fn tx).1), (fn tx).2)) w
  (r.1.2, r.2)

/-- WithTransactionResult: for functions with a result and an error return. -/
def WithTransactionResult {T : Type} (zero : T) (env : Env)
    (fn : World → (T × Option Error) × World) (w : World) : (T × Option Error) × World :=
  withTransactionInternal zero env fn w

end database

/-! ## package strings of the standard library -/

namespace strings

/-- The long s (U+017F), whose upper case is the letter S. -/
def longS : Char := Char.ofNat 0x17F

/-- The dotless i (U+0131), whose upper case is the letter I. -/
def dotlessI : Char := Char.ofNat 0x131

/-- The function unicode.ToUpper on the characters whose upper case is an ASCII
character: the ASCII characters themselves, the long s and the dotless i.  The
upper case of every other character lies outside ASCII, as the character does;
such a character is left as it is. -/
def upperRune (c : Char) : Char :=
  if c = longS then 'S' else if c = dotlessI then 'I' else c.toUpper

/-- The function strings.ToUpper, character by character.  Its result is equal
to a given ASCII string exactly when the result of the Go function is. -/
def ToUpper (s : String) : String :=
  String.mk (s.data.map upperRune)

end strings

/-! ## package repositories -/

namespace repositories

open utils models storage

/-- validateUUIDOrNotFound checks if the given ID is a valid UUID. -/
def validateUUIDOrNotFound (env : Env) (id : String) : Option Error :=
  if env.parseUUID id then none else some Error.ErrNotFound

def CreateBook (env : Env) (book : Book) (w : World) : Option Error × World :=
  match issue env (Call.InsertBook book) w with
  | (some err, w1) => (some err, w1)
  | (none, w1) =>
    if w1.tables.books.any (fun b => decide (b.ID = book.ID)) then (some duplicateKey, w1)
    else (none, { w1 with tables := { w1.tables with books := w1.tables.books ++ [book] } })

/-- The conditions and arguments of the WHERE clause of ListBooks. -/
def listConditions (req : ListBooksRequest) : List Cond × List String :=
  let conditions : List Cond := []
  let args : List String := []
  let (conditions, args) :=
    if req.ISBN ≠ "" then (conditions ++ [Cond.isbnILike], args ++ ["%" ++ req.ISBN ++ "%"])
    else (conditions, args)
  let (conditions, args) :=
    if req.Title ≠ "" then (conditions ++ [Cond.titleILike], args ++ ["%" ++ req.Title ++ "%"])
    else (conditions, args)
  let (conditions, args) :=
    if req.Author ≠ "" then (conditions ++ [Cond.authorILike], args ++ ["%" ++ req.Author ++ "%"])
    else (conditions, args)
  let (conditions, args) :=
    if req.Status ≠ "" then (conditions ++ [Cond.statusEq], args ++ [req.Status])
    else (conditions, args)
  let (conditions, args) :=
    if req.Text ≠ "" then
      (conditions ++ [Cond.textILike], args ++ ["%" ++ req.Text ++ "%", "%" ++ req.Text ++ "%"])
    else (conditions, args)
  -- Exclude deleted
  (conditions ++ [Cond.notDeleted], args)

/-- The WHERE clause of ListBooks. -/
def whereClause (conditions : List Cond) : String :=
  if conditions.length > 0 then "WHERE " ++ " AND ".intercalate (conditions.map Cond.sql) else ""

/-- Sanitize sort by. -/
def sanitizeSortBy (sortBy : String) : String :=
  if sortBy = "isbn" ∨ sortBy = "title" ∨ sortBy = "author" ∨ sortBy = "status" then sortBy
  else "title"

/-- Sanitize sort order. -/
def sanitizeSortOrder (sortOrder : String) : String :=
  if strings.ToUpper sortOrder = "DESC" then "DESC" else "ASC"

def ListBooks (env : Env) (req : ListBooksRequest) (w : World) :
    (List Book × Int × Option Error) × World :=
  let (conditions, args) := listConditions req
  let wh := whereClause conditions
  -- Execute count query (for pagination)
  match issue env (Call.CountBooks wh args) w with
  | (some err, w1) => (([], 0, some err), w1)
  | (none, w1) =>
    let total : Int := ((w1.tables.books.filter (evalWhere conditions args)).length : Nat)
    let sortBy := sanitizeSortBy req.SortBy
    let sortOrder := sanitizeSortOrder req.SortOrder
    -- Pagination
    let offset := wrapInt64 (wrapInt64 (req.Page - 1) * req.PageSize)
    -- Execute query
    match issue env (Call.SelectBooks wh sortBy sortOrder req.PageSize offset args) w1 with
    | (some err, w2) => (([], 0, some err), w2)
    | (none, w2) =>
      match limitOffset req.PageSize offset
          (orderBy sortBy sortOrder (w2.tables.books.filter (evalWhere conditions args))) with
      | .error err => (([], 0, some err), w2)
      | .ok books => ((books, total, none), w2)

def GetBookByID (env : Env) (id : String) (w : World) : (Option Book × Option Error) × World :=
  -- Validate UUID format
  match validateUUIDOrNotFound env id with
  | some err => ((none, some err), w)
  | none =>
    -- Execute query
    let (fault, w1) := issue env (Call.SelectBookByID id) w
    let (book, err) : Book × Option Error :=
      match fault with
      | some e => (Book.zero, some e)
      | none =>
        match w1.tables.books.find? (liveWithID id) with
        | some b => (b, none)
        | none => (Book.zero, some Error.ErrNoRows)
    -- Check for not found error
    match err with
    | some e => if errorsIs e Error.ErrNoRows then ((none, some Error.ErrNotFound), w1)
                else ((some book, some e), w1)
    | none => ((some book, none), w1)

def UpdateBook (env : Env) (book : Book) (w : World) : Option Error × World :=
  match validateUUIDOrNotFound env book.ID with
  | some err => (some err, w)
  | none =>
    match issue env (Call.UpdateBook book) w with
    | (some err, w1) => (some err, w1)
    | (none, w1) =>
      let hit := liveWithID book.ID
      let w2 := { w1 with tables := { w1.tables with books := w1.tables.books.map (fun b =>
        if hit b then
          { b with ISBN := book.ISBN, Title := book.Title, Author := book.Author,
                   Description := book.Description, Status := book.Status,
                   UpdatedAt := book.UpdatedAt }
        else b) } }
      (CheckRowsAffected (rowsAffected env w2 (w1.tables.books.countP hit)), w2)

def DeleteBook (env : Env) (id : String) (w : World) : Option Error × World :=
  match validateUUIDOrNotFound env id with
  | some err => (some err, w)
  | none =>
    -- Execute update (logical delete)
    match issue env (Call.DeleteBook id) w with
    | (some err, w1) => (some err, w1)
    | (none, w1) =>
      let hit := liveWithID id
      let w2 := { w1 with tables := { w1.tables with books := w1.tables.books.map (fun b =>
        if hit b then { b with Deleted := true } else b) } }
      (CheckRowsAffected (rowsAffected env w2 (w1.tables.books.countP hit)), w2)

/-- UpdateBookStatus runs on the transaction handle of the caller. -/
def UpdateBookStatus (env : Env) (id : String) (status : BookStatus) (timestamp : Time)
    (w : World) : Option Error × World :=
  match validateUUIDOrNotFound env id with
  | some err => (some err, w)
  | none =>
    match issue env (Call.UpdateBookStatus status timestamp id) w with
    | (some err, w1) => (some err, w1)
    | (none, w1) =>
      let hit := liveWithID id
      let w2 := { w1 with tables := { w1.tables with books := w1.tables.books.map (fun b =>
        if hit b then { b with Status := status, UpdatedAt := timestamp } else b) } }
      (CheckRowsAffected (rowsAffected env w2 (w1.tables.books.countP hit)), w2)

/-- AppendStatusChange runs on the transaction handle of the caller.  As in the
source, the timestamp parameter is not used: the row gets a fresh reading of
time.Now(). -/
def AppendStatusChange (env : Env) (id : String) (status : BookStatus) (_timestamp : Time)
    (w : World) : Option Error × World :=
  match validateUUIDOrNotFound env id with
  | some err => (some err, w)
  | none =>
    let (now, w1) := timeNow env w
    -- Execute insert
    match issue env (Call.InsertStatusChange id status now) w1 with
    | (some err, w2) => (some err, w2)
    | (none, w2) =>
      if w2.tables.books.any (fun b => decide (b.ID = id)) then
        (none, { w2 with
          serial := w2.serial + 1,
          tables := { w2.tables with book_status_changes := w2.tables.book_status_changes ++
            [{ id := w2.serial + 1, book_id := id, status := status, timestamp := now }] } })
      else (some foreignKeyViolation, w2)

def GetBookWithHistory (env : Env) (id : String) (w : World) :
    (Option Book × List BookStatusChange × Option Error) × World :=
  match validateUUIDOrNotFound env id with
  | some err => ((none, [], some err), w)
  | none =>
    -- Execute query (book)
    match GetBookByID env id w with
    | ((_, some err), w1) => ((none, [], some err), w1)
    | ((book, none), w1) =>
      -- Execute query (book status changes)
      match issue env (Call.SelectHistory id) w1 with
      | (some err, w2) => ((none, [], some err), w2)
      | (none, w2) =>
        let rows := (w2.tables.book_status_changes.filter (fun r => decide (r.book_id = id))).insertionSort
          (fun x y => y.timestamp ≤ x.timestamp)
        ((book, rows.map (fun r =>
          { ID := "", BookID := "", Status := r.status, Timestamp := r.timestamp }), none), w2)

end repositories

/-! ## float64 arithmetic

The finite values of float64 are taken as the rationals they stand for.
Rounding is to the nearest value with 53 bits of significand, a tie going to the
even one; the exponent range is not modelled, since a 64-bit integer and the
quotient of two of them neither overflow nor underflow.  The conversion to int
of a value that int cannot hold (an infinity, NaN, a magnitude of 2^63 or more)
gives the result of amd64. -/

namespace float64

/-- Rounding of a rational to the nearest integer, a tie going to the even one. -/
def roundHalfEven (m : ℚ) : Int :=
  if m - ⌊m⌋ < 1 / 2 then ⌊m⌋
  else if 1 / 2 < m - ⌊m⌋ then ⌊m⌋ + 1
  else if ⌊m⌋ % 2 = 0 then ⌊m⌋ else ⌊m⌋ + 1

/-- The float64 nearest to a rational. -/
def nearest (x : ℚ) : ℚ :=
  if x = 0 then 0
  else roundHalfEven (x / 2 ^ (Int.log 2 |x| - 52)) * 2 ^ (Int.log 2 |x| - 52)

/-- A float64: a finite value, an infinity or NaN. -/
inductive Value where
  | finite (q : ℚ)
  | inf (negative : Bool)
  | nan
  deriving DecidableEq

/-- The conversion float64(n) of an integer; it is always finite. -/
def ofInt (n : Int) : ℚ := nearest n

/-- The quotient of two finite values. -/
def div (a b : ℚ) : Value :=
  if b = 0 then (if a = 0 then Value.nan else Value.inf (decide (a < 0)))
  else Value.finite (nearest (a / b))

/-- The function math.Ceil. -/
def ceil : Value → Value
  | .finite q => .finite ⌈q⌉
  | v => v

/-- The conversion int(f): truncation toward zero. -/
def toInt : Value → Int
  | .finite q =>
    let t : Int := if 0 ≤ q then ⌊q⌋ else ⌈q⌉
    if -2 ^ 63 ≤ t ∧ t < 2 ^ 63 then t else -2 ^ 63
  | _ => -2 ^ 63

end float64

/-! ## package services -/

namespace services

open utils models storage

/-- The Go expression int(math.Ceil(float64(totalItems) / float64(pageSize))). -/
def totalPagesOf (totalItems pageSize : Int) : Int :=
  float64.toInt (float64.ceil (float64.div (float64.ofInt totalItems) (float64.ofInt pageSize)))

def CreateBook (env : Env) (req : CreateBookRequest) (w : World) :
    (Option BookResponse × Option Error) × World :=
  let (now, w1) := timeNow env w
  let (id, w2) := uuidNew env w1
  -- Map request
  let book : Book :=
    { ID := id, ISBN := req.ISBN, Title := req.Title, Author := req.Author,
      Description := req.Description, Status := BookStatusAvailable,
      CreatedAt := now, UpdatedAt := now, Deleted := false }
  -- Create with repository
  match repositories.CreateBook env book w2 with
  | (some err, w3) => ((none, some err), w3)
  | (none, w3) => ((some (ToBookResponse book), none), w3)

/-- The response service ListBooks builds from what the repository returned. -/
def listBooksResponse (req : ListBooksRequest) (books : List Book) (totalItems : Int) :
    ListBooksResponse :=
  -- Map response
  let totalPages := totalPagesOf totalItems req.PageSize
  let res : ListBooksResponse :=
    { Books := ToBookResponseList books, TotalItems := totalItems, TotalPages := totalPages,
      CurrentPage := req.Page, PageSize := req.PageSize }
  -- 1 empty page
  if res.TotalPages = 0 then { res with TotalPages := 1 } else res

def ListBooks (env : Env) (req : ListBooksRequest) (w : World) :
    (Option ListBooksResponse × Option Error) × World :=
  -- List with repository
  match repositories.ListBooks env req w with
  | ((_, _, some err), w1) => ((none, some err), w1)
  | ((books, totalItems, none), w1) =>
    ((some (listBooksResponse req books totalItems), none), w1)

def GetBook (env : Env) (id : String) (w : World) :
    (Option BookResponse × Option Error) × World :=
  -- Get with repository
  match repositories.GetBookByID env id w with
  | ((_, some err), w1) => ((none, some err), w1)
  | ((book, none), w1) => ((book.map ToBookResponse, none), w1)

def UpdateBook (env : Env) (id : String) (req : UpdateBookRequest) (w : World) :
    (Option BookResponse × Option Error) × World :=
  -- Get with repository
  match repositories.GetBookByID env id w with
  | ((_, some err), w1) => ((none, some err), w1)
  -- the repository never returns a nil book without an error
  | ((none, none), w1) => ((none, none), w1)
  | ((some book, none), w1) =>
    -- Map request
    let book := { book with ISBN := req.ISBN, Title := req.Title, Author := req.Author,
                            Description := req.Description }
    -- Update with repository
    match repositories.UpdateBook env book w1 with
    | (some err, w2) => ((none, some err), w2)
    | (none, w2) => ((some (ToBookResponse book), none), w2)

def DeleteBook (env : Env) (id : String) (w : World) : Option Error × World :=
  -- Delete with repository
  repositories.DeleteBook env id w

/-- The transactional block of changeBookStatus: the function handed to
database.WithTransaction. -/
def statusChangeBlock (env : Env) (id : String) (status : BookStatus) (now : Time)
    (tx : World) : Option Error × World :=
  -- Update status with repository
  match repositories.UpdateBookStatus env id status now tx with
  | (some err, tx1) => (some err, tx1)
  | (none, tx1) =>
    -- Append status change with repository
    repositories.AppendStatusChange env id status now tx1

def changeBookStatus (env : Env) (id : String) (status : BookStatus) (w : World) :
    Option Error × World :=
  -- Get with repository
  match repositories.GetBookByID env id w with
  | ((_, some err), w1) => (some err, w1)
  -- the repository never returns a nil book without an error
  | ((none, none), w1) => (none, w1)
  | ((some book, none), w1) =>
    -- Check if book is already in desired status (idempotence)
    if book.Status = status then (none, w1)
    else
      let (now, w2) := timeNow env w1
      -- Transactional block
      database.WithTransaction env (statusChangeBlock env id status now) w2

def CheckoutBook (env : Env) (id : String) (w : World) : Option Error × World :=
  -- Change status to checked out
  changeBookStatus env id BookStatusCheckedOut w

def CheckinBook (env : Env) (id : String) (w : World) : Option Error × World :=
  -- Change status to available
  changeBookStatus env id BookStatusAvailable w

def GetBookWithHistory (env : Env) (id : String) (w : World) :
    (Option BookDetailResponse × Option Error) × World :=
  -- Get with repository
  match repositories.GetBookWithHistory env id w with
  | ((_, _, some err), w1) => ((none, some err), w1)
  | ((book, history, none), w1) =>
    -- Map response
    ((book.map (fun b =>
      { Book := ToBookResponse b, History := ToStatusChangeResponseList history }), none), w1)

/-- A call of one of the service operations that can write to the store. -/
inductive Op where
  | CreateBook (req : CreateBookRequest)
  | UpdateBook (id : String) (req : UpdateBookRequest)
  | DeleteBook (id : String)
  | CheckoutBook (id : String)
  | CheckinBook (id : String)
  deriving DecidableEq, Repr

/-- The world after a service call. -/
def step (env : Env) (w : World) : Op → World
  | .CreateBook req => (CreateBook env req w).2
  | .UpdateBook id req => (UpdateBook env id req w).2
  | .DeleteBook id => (DeleteBook env id w).2
  | .CheckoutBook id => (CheckoutBook env id w).2
  | .CheckinBook id => (CheckinBook env id w).2

/-- The world after a sequence of service calls, first call first. -/
def run (env : Env) (w : World) (ops : List Op) : World :=
  ops.foldl (step env) w

/-- The stores the service operations can reach from the empty store. -/
def Reachable (env : Env) (w : World) : Prop :=
  ∃ ops : List Op, run env World.empty ops = w

end services

/-! ## Derived notions used in the statements -/

namespace storage

open models

/-- The books table after UPDATE books SET status, updated_at WHERE id AND NOT
deleted, as executed by repository UpdateBookStatus. -/
def booksAfterStatus (id : String) (status : BookStatus) (ts : Time) (books : List Book) :
    List Book :=
  books.map (fun b => if liveWithID id b then { b with Status := status, UpdatedAt := ts } else b)

/-- The history rows of a book, in insertion order. -/
def historyOf (id : String) (changes : List StatusChangeRow) : List StatusChangeRow :=
  changes.filter (fun r => decide (r.book_id = id))

/-- The status of the i-th row (from 0) of a history that starts with
checked_out and alternates. -/
def alternating (i : Nat) : BookStatus :=
  if i % 2 = 0 then BookStatusCheckedOut else BookStatusAvailable

/-- The status of a book after n alternating transitions from available. -/
def statusAfter (n : Nat) : BookStatus :=
  if n % 2 = 0 then BookStatusAvailable else BookStatusCheckedOut

/-- A book agrees with its history: the rows alternate from checked_out, and the
status of the book is the one reached after them. -/
def BookOK (changes : List StatusChangeRow) (b : Book) : Prop :=
  (historyOf b.ID changes).map (fun r => r.status) =
      (List.range (historyOf b.ID changes).length).map alternating ∧
    b.Status = statusAfter (historyOf b.ID changes).length

/-- The invariant of the two tables: ids are unique (primary key), every history
row belongs to a stored book (foreign key), and every book agrees with its
history. -/
def StatusInv (books : List Book) (changes : List StatusChangeRow) : Prop :=
  (books.map (fun b => b.ID)).Nodup ∧
    (∀ r ∈ changes, ∃ b ∈ books, b.ID = r.book_id) ∧
    ∀ b ∈ books, BookOK changes b

/-- The rows with the given id exist and are all marked deleted. -/
def Gone (id : String) (books : List Book) : Prop :=
  (∃ b ∈ books, b.ID = id) ∧ ∀ b ∈ books, b.ID = id → b.Deleted = true

/-- Rows are kept: the new table is the old one, row by row with the same id and
with the deleted flag never going back to false, followed by added rows. -/
def KeepsRows (old new : List Book) : Prop :=
  ∃ kept added, new = kept ++ added ∧
    List.Forall₂ (fun b b1 => b1.ID = b.ID ∧ (b.Deleted = true → b1.Deleted = true)) old kept

/-- The invariant of the history timestamps: each is a reading of the clock
already taken, and they do not decrease in insertion order. -/
def TimeInv (env : Env) (w : World) : Prop :=
  (∀ r ∈ w.tables.book_status_changes, ∃ j, j < w.clockReads ∧ r.timestamp = env.now j) ∧
    w.tables.book_status_changes.Pairwise (fun a b => a.timestamp ≤ b.timestamp)

end storage

namespace services

open utils models storage

/-- What a call of a service operation can have done to the tables and the
clock: nothing to the tables; one book row added; the rows of one id rewritten
by UpdateBook; the rows of one id marked deleted; or one status transition
committed. -/
inductive StepEffect (env : Env) (w w1 : World) : Prop where
  | same (ht : w1.tables = w.tables) (hc : w.clockReads ≤ w1.clockReads)
  | created (book : Book) (hfresh : ∀ b ∈ w.tables.books, b.ID ≠ book.ID)
      (hst : book.Status = BookStatusAvailable)
      (hb : w1.tables.books = w.tables.books ++ [book])
      (hh : w1.tables.book_status_changes = w.tables.book_status_changes)
      (hc : w.clockReads ≤ w1.clockReads)
  | updated (id : String) (book : Book) (req : UpdateBookRequest)
      (hrow : w.tables.books.find? (liveWithID id) = some book)
      (hb : w1.tables.books = w.tables.books.map (fun b =>
        if liveWithID id b then
          { b with ISBN := req.ISBN, Title := req.Title, Author := req.Author,
                   Description := req.Description, Status := book.Status,
                   UpdatedAt := book.UpdatedAt }
        else b))
      (hh : w1.tables.book_status_changes = w.tables.book_status_changes)
      (hc : w.clockReads ≤ w1.clockReads)
  | deleted (id : String)
      (hb : w1.tables.books = w.tables.books.map (fun b =>
        if liveWithID id b then { b with Deleted := true } else b))
      (hh : w1.tables.book_status_changes = w.tables.book_status_changes)
      (hc : w.clockReads ≤ w1.clockReads)
  | moved (id : String) (status : BookStatus) (book : Book) (rowid : Nat)
      (hrow : w.tables.books.find? (liveWithID id) = some book)
      (hne : book.Status ≠ status)
      (hst : status = BookStatusCheckedOut ∨ status = BookStatusAvailable)
      (hb : w1.tables.books = booksAfterStatus id status (env.now w.clockReads) w.tables.books)
      (hh : w1.tables.book_status_changes = w.tables.book_status_changes ++
        [{ id := rowid, book_id := id, status := status,
           timestamp := env.now (w.clockReads + 1) }])
      (hc : w1.clockReads = w.clockReads + 2)

end services

/-! ## Concrete environments and stores used to exercise the definitions -/

namespace sample

open utils models storage

/-- An engine that never fails, a clock that advances by one at every reading,
and a UUID check that accepts the strings of 36 characters. -/
def env : Env :=
  { now := fun n => 100 + n,
    newUUID := fun n => if n = 0 then "00000000-0000-4000-8000-000000000001"
                        else "00000000-0000-4000-8000-000000000002",
    parseUUID := fun s => decide (s.data.length = 36),
    fault := fun _ => none,
    rowsFault := fun _ => none }

/-- As env, but the engine reports an error for the third storage call. -/
def envThirdCallFails : Env :=
  { env with fault := fun n => if n = 2 then some (Error.driver "connection reset") else none }

def idA : String := "00000000-0000-4000-8000-000000000001"

def bookA : Book :=
  { ID := idA, ISBN := "978-0", Title := "Dune", Author := "Herbert", Description := "",
    Status := BookStatusAvailable, CreatedAt := 7, UpdatedAt := 7, Deleted := false }

/-- A store holding the one available book bookA. -/
def world : World :=
  { tables := { books := [bookA], book_status_changes := [] }, serial := 0, calls := [],
    clockReads := 0, uuidReads := 1, logged := [] }

/-- A create, a checkout and a checkin of the same book. -/
def calls : List services.Op :=
  [services.Op.CreateBook { ISBN := "978-0", Title := "Dune", Author := "Herbert",
                            Description := "" },
   services.Op.CheckoutBook idA, services.Op.CheckinBook idA]

/-- The store after bookA has been deleted and a checkout of it attempted. -/
def afterDelete : World :=
  services.run env (services.DeleteBook env idA world).2 [services.Op.CheckoutBook idA]

def payload : UpdateBookRequest :=
  { ISBN := "978-1", Title := "Emma", Author := "Austen", Description := "a novel" }

def query : ListBooksRequest :=
  { Page := 1, PageSize := 10, SortBy := "title", SortOrder := "asc",
    ISBN := "", Title := "", Author := "", Status := "", Text := "" }

end sample


namespace storage

open utils models

/-- The contract of a conditional UPDATE followed by CheckRowsAffected, for the
call issued in world w on a statement matching count rows, with result r: an
error of the statement is returned as it is; otherwise an error of the
rows-affected read is returned as it is; otherwise r is ErrNotFound when no row
was affected and nil when at least one was.  So r is nil exactly when statement
and read succeeded and a row was affected, and, for an engine that does not
itself answer ErrNotFound, r is ErrNotFound exactly when statement and read
succeeded and no row was affected. -/
def RowsContract (env : Env) (w : World) (count : Nat) (r : Option Error) : Prop :=
  (∀ e, env.fault w.calls.length = some e → r = some e) ∧
    (∀ e, env.fault w.calls.length = none → env.rowsFault w.calls.length = some e →
      r = some e) ∧
    (r = none ↔
      env.fault w.calls.length = none ∧ env.rowsFault w.calls.length = none ∧ 1 ≤ count) ∧
    (env.fault w.calls.length ≠ some Error.ErrNotFound →
      env.rowsFault w.calls.length ≠ some Error.ErrNotFound →
      (r = some Error.ErrNotFound ↔
        env.fault w.calls.length = none ∧ env.rowsFault w.calls.length = none ∧ count = 0))

end storage

namespace storage

/-- The number of calls in a list that are Commit or Rollback. -/
def commitOrRollback (calls : List Call) : Nat :=
  calls.countP (fun c => decide (c = Call.Commit ∨ c = Call.Rollback))

end storage


/-! ## The API layer: what the handlers need from the standard library -/

namespace unicode

/-- The function unicode.IsSpace: the white space of Latin-1, then the other
characters with the property White_Space. -/
def IsSpace (r : Char) : Bool :=
  if r.toNat ≤ 0xFF then
    r.toNat = 0x09 || r.toNat = 0x0A || r.toNat = 0x0B || r.toNat = 0x0C || r.toNat = 0x0D ||
      r.toNat = 0x20 || r.toNat = 0x85 || r.toNat = 0xA0
  else
    r.toNat = 0x1680 || (0x2000 ≤ r.toNat && r.toNat ≤ 0x200A) || r.toNat = 0x2028 ||
      r.toNat = 0x2029 || r.toNat = 0x202F || r.toNat = 0x205F || r.toNat = 0x3000

end unicode

namespace strings

/-- The function strings.TrimSpace: leading and trailing white space removed. -/
def TrimSpace (s : String) : String :=
  String.mk ((s.data.dropWhile unicode.IsSpace).reverse.dropWhile unicode.IsSpace).reverse

end strings

namespace http

def StatusOK : Nat := 200

def StatusCreated : Nat := 201

def StatusBadRequest : Nat := 400

def StatusNotFound : Nat := 404

def StatusInternalServerError : Nat := 500

end http

namespace models

/-- MessageResponse is a generic API success response. -/
structure MessageResponse where
  Message : String
  deriving DecidableEq, Repr

/-- ErrorResponse is a generic API error response. -/
structure ErrorResponse where
  Error : String
  deriving DecidableEq, Repr

/-- Sanitize request fields. -/
def BookPayload.Sanitize (r : BookPayload) : BookPayload :=
  { ISBN := strings.TrimSpace r.ISBN, Title := strings.TrimSpace r.Title,
    Author := strings.TrimSpace r.Author, Description := strings.TrimSpace r.Description }

end models

namespace services

open utils models storage

/-- The interface BookService, as the handlers see it: any implementation, each
method in state-passing style. -/
structure BookService where
  CreateBook : CreateBookRequest → World → (Option BookResponse × Option Error) × World
  ListBooks : ListBooksRequest → World → (Option ListBooksResponse × Option Error) × World
  GetBook : String → World → (Option BookResponse × Option Error) × World
  UpdateBook : String → UpdateBookRequest → World → (Option BookResponse × Option Error) × World
  DeleteBook : String → World → Option Error × World
  CheckoutBook : String → World → Option Error × World
  CheckinBook : String → World → Option Error × World
  GetBookWithHistory : String → World → (Option BookDetailResponse × Option Error) × World

/-- The implementation bookServiceImpl of the interface. -/
def NewBookService (env : Env) : BookService :=
  { CreateBook := CreateBook env, ListBooks := ListBooks env, GetBook := GetBook env,
    UpdateBook := UpdateBook env, DeleteBook := DeleteBook env,
    CheckoutBook := CheckoutBook env, CheckinBook := CheckinBook env,
    GetBookWithHistory := GetBookWithHistory env }

end services

/-! ## package handlers

A handler is a function of the service it was built with, of what gin read
from the request (the path parameter, the outcome of ShouldBindJSON) and of the
world; it gives what it wrote with c.JSON.  Log lines are left out. -/

namespace handlers

open utils models storage services

def defaultPageSize : Int := 10

def maxPageSize : Int := 100

/-- Valid sort fields for pagination (a map from string to bool; a missing key
reads as false). -/
def validSortFields (name : String) : Bool :=
  decide (name = "isbn" ∨ name = "title" ∨ name = "author" ∨ name = "status")

/-- The value handed to c.JSON. -/
inductive Body where
  | error (r : ErrorResponse)
  | message (r : MessageResponse)
  | book (r : BookResponse)
  | list (r : ListBooksResponse)
  | detail (r : Option BookDetailResponse)
  deriving DecidableEq, Repr

/-- What a handler did: it wrote a status code and a body, or it read a field of
a nil response (a service that returns neither a response nor an error) and the
goroutine went down before anything was written. -/
inductive Outcome where
  | json (status : Nat) (body : Body)
  | nilDereference
  deriving DecidableEq, Repr

/-- The status code written, if one was. -/
def Outcome.status : Outcome → Option Nat
  | .json status _ => some status
  | .nilDereference => none

/-- The helper extractID: the id, or the reply for a missing one. -/
def extractID (id : String) : Except Outcome String :=
  if id = "" then
    .error (.json http.StatusBadRequest (.error { Error := "Missing parameter ID" }))
  else .ok id

def handleBookError (_id : String) (err : Error) (action : String) : Outcome :=
  -- Handle specific errors
  if errorsIs err Error.ErrNotFound then -- Not found error
    .json http.StatusNotFound (.error { Error := "Book not found" })
  else -- Generic error
    .json http.StatusInternalServerError (.error { Error := "Failed to " ++ action ++ " book" })

/-- The reply to a body that could not be bound. -/
def invalidRequestBody : Outcome :=
  .json http.StatusBadRequest (.error { Error := "Invalid request body" })

def CreateBook (service : BookService) (bound : Option CreateBookRequest) (w : World) :
    Outcome × World :=
  -- Parse request body
  match bound with
  | none => (invalidRequestBody, w)
  | some req =>
    -- Sanitize input
    let req := req.Sanitize
    -- Invoke service
    match service.CreateBook req w with
    | ((_, some err), w1) => (handleBookError "" err "create", w1)
    | ((none, none), w1) => (.nilDereference, w1)
    | ((some res, none), w1) => (.json http.StatusCreated (.book res), w1)

/-- Validate pagination parameters: the four assignments of handler ListBooks
between binding the request and invoking the service. -/
def validateListRequest (req : ListBooksRequest) : ListBooksRequest :=
  let req := if req.PageSize ≤ 0 then { req with PageSize := defaultPageSize } else req
  let req := if req.PageSize > maxPageSize then { req with PageSize := maxPageSize } else req
  let req := if !validSortFields req.SortBy then { req with SortBy := "title" } else req
  let req := if req.SortOrder ≠ "desc" then { req with SortOrder := "asc" } else req
  req

/-- What handler ListBooks writes once the service has answered. -/
def listReply (r : Option ListBooksResponse × Option Error) : Outcome :=
  match r with
  | (_, some _) =>
    .json http.StatusInternalServerError (.error { Error := "Failed to list books" })
  | (none, none) => .nilDereference
  | (some res, none) => .json http.StatusOK (.list res)

def ListBooks (service : BookService) (bound : Option ListBooksRequest) (w : World) :
    Outcome × World :=
  -- Parse request body
  match bound with
  | none => (invalidRequestBody, w)
  | some req =>
    let req := validateListRequest req
    -- Invoke service
    let (r, w1) := service.ListBooks req w
    (listReply r, w1)

def GetBook (service : BookService) (id : String) (w : World) : Outcome × World :=
  -- Extract params
  match extractID id with
  | .error reply => (reply, w)
  | .ok id =>
    -- Invoke service
    match service.GetBook id w with
    | ((_, some err), w1) => (handleBookError id err "get", w1)
    | ((none, none), w1) => (.nilDereference, w1)
    | ((some res, none), w1) => (.json http.StatusOK (.book res), w1)

def UpdateBook (service : BookService) (id : String) (bound : Option UpdateBookRequest)
    (w : World) : Outcome × World :=
  -- Extract params
  match extractID id with
  | .error reply => (reply, w)
  | .ok id =>
    -- Parse request body
    match bound with
    | none => (invalidRequestBody, w)
    | some req =>
      -- Sanitize input
      let req := req.Sanitize
      -- Invoke service
      match service.UpdateBook id req w with
      | ((_, some err), w1) => (handleBookError id err "update", w1)
      | ((none, none), w1) => (.nilDereference, w1)
      | ((some res, none), w1) => (.json http.StatusOK (.book res), w1)

def DeleteBook (service : BookService) (id : String) (w : World) : Outcome × World :=
  match extractID id with
  | .error reply => (reply, w)
  | .ok id =>
    match service.DeleteBook id w with
    | (some err, w1) => (handleBookError id err "delete", w1)
    | (none, w1) => (.json http.StatusOK (.message { Message := "Book deleted" }), w1)

def CheckoutBook (service : BookService) (id : String) (w : World) : Outcome × World :=
  match extractID id with
  | .error reply => (reply, w)
  | .ok id =>
    match service.CheckoutBook id w with
    | (some err, w1) => (handleBookError id err "checkout", w1)
    | (none, w1) => (.json http.StatusOK (.message { Message := "Book checked out" }), w1)

def CheckinBook (service : BookService) (id : String) (w : World) : Outcome × World :=
  match extractID id with
  | .error reply => (reply, w)
  | .ok id =>
    match service.CheckinBook id w with
    | (some err, w1) => (handleBookError id err "checkin", w1)
    | (none, w1) => (.json http.StatusOK (.message { Message := "Book checked in" }), w1)

def GetBookWithHistory (service : BookService) (id : String) (w : World) : Outcome × World :=
  match extractID id with
  | .error reply => (reply, w)
  | .ok id =>
    match service.GetBookWithHistory id w with
    | ((_, some err), w1) => (handleBookError id err "get (with history)", w1)
    | ((res, none), w1) => (.json http.StatusOK (.detail res), w1)

end handlers


namespace storage

/-- The number of placeholders in a statement text. -/
def placeholders (sql : String) : Nat :=
  sql.data.count '?'

end storage


namespace sample

open models

/-- The sample query with the direction spelled in capital letters. -/
def queryUpperCaseDesc : ListBooksRequest :=
  { query with SortOrder := "DESC" }

/-- The sample query for a page far out, two books to the page. -/
def queryFarPage : ListBooksRequest :=
  { query with Page := 2 ^ 62 + 1, PageSize := 2 }

end sample


namespace storage

open models

/-- Book x may stand before book y in the order of ORDER BY column ASC or
DESC. -/
def inOrder (sortBy sortOrder : String) (x y : Book) : Prop :=
  if sortOrder = "DESC" then lexLE (column sortBy y).data (column sortBy x).data = true
  else lexLE (column sortBy x).data (column sortBy y).data = true

end storage

namespace sample

open models storage

/-- Twenty-five books that are not deleted, the titles from A to Y. -/
def shelf : List Book :=
  (List.range 25).map (fun i =>
    { bookA with ID := "book-" ++ String.mk [Char.ofNat (65 + i)],
                 Title := String.mk [Char.ofNat (65 + i)] })

end sample


namespace sample

open models

/-- The sample query for the available books with an underscore as free
text. -/
def queryUnderscore : ListBooksRequest :=
  { query with Status := "available", Text := "_" }

/-- The sample query for the available books with the free text dUN. -/
def queryDun : ListBooksRequest :=
  { query with Status := "available", Text := "dUN" }

end sample


namespace sample

open models storage

/-- The store after the first call of calls: the book Dune has been created. -/
def created : World :=
  services.run env World.empty (calls.take 1)

end sample


namespace storage

/-- The hexadecimal digits of a text in lower case, a leading urn:uuid: taken
off first: what is left of a spelling of a UUID when upper and lower case,
hyphens and braces are disregarded. -/
def uuidDigits (s : String) : List Char :=
  let cs := s.data.map Char.toLower
  let cs := if cs.take 9 = "urn:uuid:".data then cs.drop 9 else cs
  cs.filter (fun c => c.isDigit || (decide ('a' ≤ c) && decide (c ≤ 'f')))

/-- Two texts have the same hexadecimal digits.  Two spellings of one UUID do,
whichever spellings uuid.Parse and the engine accept; a text does with itself. -/
def sameUUID (a b : String) : Bool :=
  decide (uuidDigits a = uuidDigits b)

end storage

namespace sample

open utils models storage

/-- As env, but the engine reports an error for the second storage call. -/
def envSecondCallFails : Env :=
  { env with fault := fun n => if n = 1 then some (Error.driver "connection reset") else none }

/-- As env, but the second storage call is answered with sql.ErrTxDone. -/
def envSecondCallTxDone : Env :=
  { env with fault := fun n => if n = 1 then some Error.ErrTxDone else none }

/-- A function run in a transaction that fails at once. -/
def failingBlock (tx : World) : Option Error × World :=
  (some Error.ErrNotFound, tx)

/-- The books of shelf, all available, then three deleted books and two books
that are checked out. -/
def mixedShelf : List Book :=
  shelf ++
  (List.range 3).map (fun i =>
    { bookA with ID := "gone-" ++ String.mk [Char.ofNat (65 + i)],
                 Title := String.mk [Char.ofNat (97 + i)], Deleted := true }) ++
  (List.range 2).map (fun i =>
    { bookA with ID := "lent-" ++ String.mk [Char.ofNat (65 + i)],
                 Title := String.mk [Char.ofNat (75 + i)], Status := BookStatusCheckedOut })

/-- A store holding the books of mixedShelf. -/
def mixedWorld : World :=
  { world with tables := { books := mixedShelf, book_status_changes := [] } }

/-- The second page of ten of the available books. -/
def queryAvailableSecondPage : ListBooksRequest :=
  { query with Page := 2, Status := "available" }

end sample
/-! ## Basic facts about the repository -/

section lemmas

open utils models storage

theorem GetBookByID_malformed (env : Env) (id : String) (w : World)
    (hid : env.parseUUID id = false) :
    repositories.GetBookByID env id w = ((none, some Error.ErrNotFound), w) := by
  simp [repositories.GetBookByID, repositories.validateUUIDOrNotFound, hid]

theorem GetBookByID_found (env : Env) (id : String) (w : World) (book : Book)
    (hid : env.parseUUID id = true) (hread : env.fault w.calls.length = none)
    (hrow : w.tables.books.find? (liveWithID id) = some book) :
    repositories.GetBookByID env id w =
      ((some book, none), { w with calls := w.calls ++ [Call.SelectBookByID id] }) := by
  simp [repositories.GetBookByID, repositories.validateUUIDOrNotFound, hid, issue, hread, hrow]

theorem GetBookByID_absent (env : Env) (id : String) (w : World)
    (hid : env.parseUUID id = true) (hread : env.fault w.calls.length = none)
    (hrow : w.tables.books.find? (liveWithID id) = none) :
    repositories.GetBookByID env id w =
      ((none, some Error.ErrNotFound), { w with calls := w.calls ++ [Call.SelectBookByID id] }) := by
  simp [repositories.GetBookByID, repositories.validateUUIDOrNotFound, hid, issue, hread, hrow,
    errorsIs]

/-- Under the primary key, the row a query by id returns is the stored book. -/
theorem find_live_of_mem (books : List Book) (book : Book)
    (hpk : (books.map (fun b => b.ID)).Nodup) (hmem : book ∈ books)
    (hlive : book.Deleted = false) :
    books.find? (liveWithID book.ID) = some book := by
  induction books with
  | nil => simp at hmem
  | cons b rest ih =>
    simp only [List.map_cons, List.nodup_cons, List.mem_map, not_exists, not_and] at hpk
    rcases List.mem_cons.1 hmem with h | h
    · subst h
      simp [List.find?, liveWithID, hlive]
    · have hne : b.ID ≠ book.ID := fun e => hpk.1 book h e.symm
      simp [List.find?, liveWithID, hne, ih hpk.2 h]

end lemmas

section transition

open utils models storage

theorem countP_live_pos (books : List Book) (id : String) (book : Book)
    (hrow : books.find? (liveWithID id) = some book) :
    books.countP (liveWithID id) ≠ 0 := by
  have h1 := List.find?_some hrow
  have h2 := List.mem_of_find?_eq_some hrow
  exact Nat.pos_iff_ne_zero.1 (List.countP_pos_iff.2 ⟨book, h2, h1⟩)

theorem any_id_after (books : List Book) (id : String) (book : Book) (f : Book → Book)
    (hf : ∀ b, (f b).ID = b.ID)
    (hrow : books.find? (liveWithID id) = some book) :
    (books.map f).any (fun b => decide (b.ID = id)) = true := by
  have h1 := List.find?_some hrow
  have h2 := List.mem_of_find?_eq_some hrow
  simp only [liveWithID, Bool.and_eq_true, decide_eq_true_eq] at h1
  simp only [List.any_map, List.any_eq_true, Function.comp, decide_eq_true_eq]
  exact ⟨book, h2, by rw [hf]; exact h1.1⟩

/-- The committed path of changeBookStatus, call by call. -/
theorem changeBookStatus_commit (env : Env) (id : String) (status : BookStatus) (w : World)
    (book : Book) (hid : env.parseUUID id = true)
    (h0 : env.fault w.calls.length = none)
    (h1 : env.fault (w.calls.length + 1) = none)
    (h2 : env.fault (w.calls.length + 2) = none)
    (hr : env.rowsFault (w.calls.length + 2) = none)
    (h3 : env.fault (w.calls.length + 3) = none)
    (h4 : env.fault (w.calls.length + 4) = none)
    (hrow : w.tables.books.find? (liveWithID id) = some book)
    (hne : book.Status ≠ status) :
    services.changeBookStatus env id status w =
      (none,
       { tables :=
           { books := booksAfterStatus id status (env.now w.clockReads) w.tables.books,
             book_status_changes := w.tables.book_status_changes ++
               [{ id := w.serial + 1, book_id := id, status := status,
                  timestamp := env.now (w.clockReads + 1) }] },
         serial := w.serial + 1,
         calls := w.calls ++
           [Call.SelectBookByID id, Call.BeginTxx,
            Call.UpdateBookStatus status (env.now w.clockReads) id,
            Call.InsertStatusChange id status (env.now (w.clockReads + 1)),
            Call.Commit, Call.Rollback],
         clockReads := w.clockReads + 2,
         uuidReads := w.uuidReads,
         logged := w.logged }) := by
  have hc := countP_live_pos _ _ _ hrow
  have ha := any_id_after w.tables.books id book
    (fun b => if liveWithID id b then { b with Status := status, UpdatedAt := env.now w.clockReads } else b)
    (by intro b; dsimp only; split <;> rfl) hrow
  simp only [services.changeBookStatus, GetBookByID_found env id w book hid h0 hrow, hne,
    if_false, timeNow, database.WithTransaction, database.withTransactionInternal, issue,
    List.length_append, List.length_singleton, h1, services.statusChangeBlock,
    repositories.UpdateBookStatus, repositories.validateUUIDOrNotFound, hid, if_true]
  simp [h2, rowsAffected, hr, CheckRowsAffected, hc, repositories.AppendStatusChange,
    repositories.validateUUIDOrNotFound, hid, timeNow, issue, h3, ha, h4,
    database.deferredRollback, errorsIs, booksAfterStatus]

end transition

section transition_more

open utils models storage

/-- The idempotent path of changeBookStatus: one read, nothing else. -/
theorem changeBookStatus_noop (env : Env) (id : String) (status : BookStatus) (w : World)
    (book : Book) (hid : env.parseUUID id = true)
    (hread : env.fault w.calls.length = none)
    (hrow : w.tables.books.find? (liveWithID id) = some book)
    (hsame : book.Status = status) :
    services.changeBookStatus env id status w =
      (none, { w with calls := w.calls ++ [Call.SelectBookByID id] }) := by
  simp [services.changeBookStatus, GetBookByID_found env id w book hid hread hrow, hsame]

/-- Under the primary key a rewrite of the live rows of an id rewrites exactly
the one stored row. -/
theorem map_live_unique (books : List Book) (book : Book) (f : Book → Book)
    (hpk : (books.map (fun b => b.ID)).Nodup) (hmem : book ∈ books)
    (hlive : book.Deleted = false) :
    ∃ pre post, books = pre ++ book :: post ∧
      books.map (fun b => if liveWithID book.ID b then f b else b) = pre ++ f book :: post := by
  obtain ⟨pre, post, rfl⟩ := List.append_of_mem hmem
  refine ⟨pre, post, rfl, ?_⟩
  have hnd := hpk
  simp only [List.map_append, List.map_cons] at hnd
  have hpre : ∀ b ∈ pre, b.ID ≠ book.ID := by
    intro b hb e
    have hdis := (List.nodup_append.1 hnd).2.2
    exact hdis (List.mem_map.2 ⟨b, hb, rfl⟩) (by simp [e])
  have hpost : ∀ b ∈ post, b.ID ≠ book.ID := by
    intro b hb e
    have h2 := (List.nodup_cons.1 (List.nodup_append.1 hnd).2.1).1
    exact h2 (List.mem_map.2 ⟨b, hb, e⟩)
  have hid1 : ∀ l : List Book, (∀ b ∈ l, b.ID ≠ book.ID) →
      l.map (fun b => if liveWithID book.ID b then f b else b) = l := by
    intro l hl
    conv_rhs => rw [← List.map_id l]
    apply List.map_congr_left
    intro b hb
    simp [liveWithID, hl b hb]
  rw [List.map_append, List.map_cons, hid1 pre hpre, hid1 post hpost]
  simp [liveWithID, hlive]

/-- Under the primary key the status update rewrites exactly the one stored row. -/
theorem booksAfterStatus_unique (books : List Book) (book : Book) (status : BookStatus)
    (ts : Time) (hpk : (books.map (fun b => b.ID)).Nodup) (hmem : book ∈ books)
    (hlive : book.Deleted = false) :
    ∃ pre post, books = pre ++ book :: post ∧
      booksAfterStatus book.ID status ts books =
        pre ++ { book with Status := status, UpdatedAt := ts } :: post :=
  map_live_unique books book (fun b => { b with Status := status, UpdatedAt := ts })
    hpk hmem hlive

/-- After the status update a query by id returns the rewritten row. -/
theorem find_booksAfterStatus (books : List Book) (id : String) (book : Book)
    (status : BookStatus) (ts : Time)
    (hrow : books.find? (liveWithID id) = some book) :
    (booksAfterStatus id status ts books).find? (liveWithID id) =
      some { book with Status := status, UpdatedAt := ts } := by
  induction books with
  | nil => simp at hrow
  | cons b rest ih =>
    by_cases hb : liveWithID id b = true
    · have : b = book := by simpa [List.find?, hb] using hrow
      subst this
      have hb2 : liveWithID id { b with Status := status, UpdatedAt := ts } = true := by
        simpa [liveWithID] using hb
      simp [booksAfterStatus, List.find?, hb, hb2]
    · have hrest : rest.find? (liveWithID id) = some book := by
        simpa [List.find?, hb] using hrow
      have := ih hrest
      simp only [booksAfterStatus] at this
      simp [booksAfterStatus, List.find?, hb, this]

end transition_more

/-! ## Status transitions -/

section claims_transition

open utils models storage

/-- C1: when the stored, non-deleted book with the given id already has the
target status, changeBookStatus (and so CheckoutBook on a checked-out book and
CheckinBook on an available one) returns success having made a single call, the
read of the book: no transaction is begun, no update or insert is issued, the
clock is not read, and both tables are as before. -/
theorem C1_same_status_is_noop (env : Env) (w : World) (book : Book) (status : BookStatus)
    (hpk : (w.tables.books.map (fun b => b.ID)).Nodup)
    (hmem : book ∈ w.tables.books) (hlive : book.Deleted = false)
    (hid : env.parseUUID book.ID = true)
    (hread : env.fault w.calls.length = none)
    (hsame : book.Status = status) :
    services.changeBookStatus env book.ID status w =
        (none, { w with calls := w.calls ++ [Call.SelectBookByID book.ID] }) ∧
      (status = BookStatusCheckedOut →
        services.CheckoutBook env book.ID w =
          (none, { w with calls := w.calls ++ [Call.SelectBookByID book.ID] })) ∧
      (status = BookStatusAvailable →
        services.CheckinBook env book.ID w =
          (none, { w with calls := w.calls ++ [Call.SelectBookByID book.ID] })) := by
  have hrow := find_live_of_mem w.tables.books book hpk hmem hlive
  have h := changeBookStatus_noop env book.ID status w book hid hread hrow hsame
  refine ⟨h, ?_, ?_⟩
  · intro hs; subst hs; exact h
  · intro hs; subst hs; exact h

theorem C1_same_status_is_noop_witness :
    services.changeBookStatus sample.env sample.bookA.ID BookStatusAvailable sample.world =
        (none, { sample.world with calls := [Call.SelectBookByID sample.bookA.ID] }) ∧
      (BookStatusAvailable = BookStatusCheckedOut →
        services.CheckoutBook sample.env sample.bookA.ID sample.world =
          (none, { sample.world with calls := [Call.SelectBookByID sample.bookA.ID] })) ∧
      (BookStatusAvailable = BookStatusAvailable →
        services.CheckinBook sample.env sample.bookA.ID sample.world =
          (none, { sample.world with calls := [Call.SelectBookByID sample.bookA.ID] })) :=
  C1_same_status_is_noop sample.env sample.world sample.bookA BookStatusAvailable
    (by decide) (by decide) (by decide) (by decide) (by decide) (by decide)

/-- C2: CheckoutBook and CheckinBook are changeBookStatus with target
checked_out and available.  For a stored non-deleted book whose status differs
from the target, when no storage call fails, the call returns success; the
books table is the old one with that one row carrying the target status and a
new updated_at and all its other fields as before; the history table is the old
one followed by exactly one new row with book_id the id and status the target. -/
theorem C2_transition_effect (env : Env) (w : World) (book : Book) (status : BookStatus)
    (hpk : (w.tables.books.map (fun b => b.ID)).Nodup)
    (hmem : book ∈ w.tables.books) (hlive : book.Deleted = false)
    (hid : env.parseUUID book.ID = true)
    (hstorage : ∀ n, env.fault n = none) (hrows : ∀ n, env.rowsFault n = none)
    (hdiff : book.Status ≠ status) :
    services.CheckoutBook env book.ID w =
        services.changeBookStatus env book.ID BookStatusCheckedOut w ∧
      services.CheckinBook env book.ID w =
        services.changeBookStatus env book.ID BookStatusAvailable w ∧
      ∃ w1 pre post,
        services.changeBookStatus env book.ID status w = (none, w1) ∧
        w.tables.books = pre ++ book :: post ∧
        w1.tables.books =
          pre ++ { book with Status := status, UpdatedAt := env.now w.clockReads } :: post ∧
        w1.tables.book_status_changes = w.tables.book_status_changes ++
          [{ id := w.serial + 1, book_id := book.ID, status := status,
             timestamp := env.now (w.clockReads + 1) }] := by
  refine ⟨rfl, rfl, ?_⟩
  have hrow := find_live_of_mem w.tables.books book hpk hmem hlive
  obtain ⟨pre, post, hsplit, hafter⟩ :=
    booksAfterStatus_unique w.tables.books book status (env.now w.clockReads) hpk hmem hlive
  refine ⟨_, pre, post,
    changeBookStatus_commit env book.ID status w book hid (hstorage _) (hstorage _) (hstorage _)
      (hrows _) (hstorage _) (hstorage _) hrow hdiff, hsplit, hafter, rfl⟩

theorem C2_transition_effect_witness :
    services.CheckoutBook sample.env sample.bookA.ID sample.world =
        services.changeBookStatus sample.env sample.bookA.ID BookStatusCheckedOut sample.world ∧
      services.CheckinBook sample.env sample.bookA.ID sample.world =
        services.changeBookStatus sample.env sample.bookA.ID BookStatusAvailable sample.world ∧
      ∃ w1 pre post,
        services.changeBookStatus sample.env sample.bookA.ID BookStatusCheckedOut sample.world =
          (none, w1) ∧
        sample.world.tables.books = pre ++ sample.bookA :: post ∧
        w1.tables.books =
          pre ++ { sample.bookA with Status := BookStatusCheckedOut,
                                     UpdatedAt := sample.env.now sample.world.clockReads } :: post ∧
        w1.tables.book_status_changes = sample.world.tables.book_status_changes ++
          [{ id := sample.world.serial + 1, book_id := sample.bookA.ID,
             status := BookStatusCheckedOut,
             timestamp := sample.env.now (sample.world.clockReads + 1) }] :=
  C2_transition_effect sample.env sample.world sample.bookA BookStatusCheckedOut
    (by decide) (by decide) (by decide) (by decide) (fun _ => rfl) (fun _ => rfl) (by decide)

/-- C4 (the code departs from the claim): at a book that is available, with a
clock that reads 100 and then 101, CheckoutBook succeeds, writes updated_at =
100 to the book and timestamp = 101 to the new history row: AppendStatusChange
ignores the timestamp it is handed and reads the clock again. -/
theorem C4_history_timestamp_is_reread :
    (services.CheckoutBook sample.env sample.idA sample.world).1 = none ∧
      (services.CheckoutBook sample.env sample.idA sample.world).2.tables.books.map
        (fun b => (b.Status, b.UpdatedAt)) = [(BookStatusCheckedOut, 100)] ∧
      (services.CheckoutBook sample.env sample.idA sample.world).2.tables.book_status_changes.map
        (fun r => (r.status, r.timestamp)) = [(BookStatusCheckedOut, 101)] := by
  decide

/-- C6: for a stored, non-deleted, available book and a storage that does not
fail, two CheckoutBook calls in sequence both return success; after the second
call the tables, the sequence and the clock are what they were after the first:
the history holds exactly one more row than at the start and the book carries
the updated_at of the first call; the second call made one read and no write. -/
theorem C6_checkout_twice (env : Env) (w : World) (book : Book)
    (hpk : (w.tables.books.map (fun b => b.ID)).Nodup)
    (hmem : book ∈ w.tables.books) (hlive : book.Deleted = false)
    (hid : env.parseUUID book.ID = true)
    (hstorage : ∀ n, env.fault n = none) (hrows : ∀ n, env.rowsFault n = none)
    (havail : book.Status = BookStatusAvailable) :
    (services.CheckoutBook env book.ID w).1 = none ∧
      (services.CheckoutBook env book.ID (services.CheckoutBook env book.ID w).2).1 = none ∧
      (services.CheckoutBook env book.ID (services.CheckoutBook env book.ID w).2).2 =
        { (services.CheckoutBook env book.ID w).2 with
          calls := (services.CheckoutBook env book.ID w).2.calls ++
            [Call.SelectBookByID book.ID] } ∧
      (services.CheckoutBook env book.ID
          (services.CheckoutBook env book.ID w).2).2.tables.book_status_changes =
        w.tables.book_status_changes ++
          [{ id := w.serial + 1, book_id := book.ID, status := BookStatusCheckedOut,
             timestamp := env.now (w.clockReads + 1) }] ∧
      (services.CheckoutBook env book.ID (services.CheckoutBook env book.ID w).2).2.tables.books =
        booksAfterStatus book.ID BookStatusCheckedOut (env.now w.clockReads) w.tables.books := by
  have hrow := find_live_of_mem w.tables.books book hpk hmem hlive
  have hdiff : book.Status ≠ BookStatusCheckedOut := by rw [havail]; decide
  have h1 := changeBookStatus_commit env book.ID BookStatusCheckedOut w book hid (hstorage _)
    (hstorage _) (hstorage _) (hrows _) (hstorage _) (hstorage _) hrow hdiff
  have hrow2 := find_booksAfterStatus w.tables.books book.ID book BookStatusCheckedOut
    (env.now w.clockReads) hrow
  have h2 := changeBookStatus_noop env book.ID BookStatusCheckedOut
    (services.changeBookStatus env book.ID BookStatusCheckedOut w).2
    { book with Status := BookStatusCheckedOut, UpdatedAt := env.now w.clockReads }
    hid (hstorage _) (by rw [h1]; exact hrow2) rfl
  simp only [services.CheckoutBook, h2]
  simp [h1]

theorem C6_checkout_twice_witness :
    (services.CheckoutBook sample.env sample.bookA.ID sample.world).1 = none ∧
      (services.CheckoutBook sample.env sample.bookA.ID
        (services.CheckoutBook sample.env sample.bookA.ID sample.world).2).1 = none ∧
      (services.CheckoutBook sample.env sample.bookA.ID
          (services.CheckoutBook sample.env sample.bookA.ID sample.world).2).2 =
        { (services.CheckoutBook sample.env sample.bookA.ID sample.world).2 with
          calls := (services.CheckoutBook sample.env sample.bookA.ID sample.world).2.calls ++
            [Call.SelectBookByID sample.bookA.ID] } ∧
      (services.CheckoutBook sample.env sample.bookA.ID
          (services.CheckoutBook sample.env sample.bookA.ID
            sample.world).2).2.tables.book_status_changes =
        sample.world.tables.book_status_changes ++
          [{ id := sample.world.serial + 1, book_id := sample.bookA.ID,
             status := BookStatusCheckedOut,
             timestamp := sample.env.now (sample.world.clockReads + 1) }] ∧
      (services.CheckoutBook sample.env sample.bookA.ID
          (services.CheckoutBook sample.env sample.bookA.ID sample.world).2).2.tables.books =
        booksAfterStatus sample.bookA.ID BookStatusCheckedOut
          (sample.env.now sample.world.clockReads) sample.world.tables.books :=
  C6_checkout_twice sample.env sample.world sample.bookA
    (by decide) (by decide) (by decide) (by decide) (fun _ => rfl) (fun _ => rfl) (by decide)

end claims_transition

section claims_atomic

open utils models storage

theorem deferredRollback_tables (env : Env) (saved : Tables) (w : World) :
    (database.deferredRollback env saved false w).tables = saved ∧
      (database.deferredRollback env saved false w).calls = w.calls ++ [Call.Rollback] := by
  unfold database.deferredRollback
  simp only [Bool.false_eq_true, if_false]
  split
  · split <;> exact ⟨rfl, rfl⟩
  · exact ⟨rfl, rfl⟩

theorem deferredRollback_clock (env : Env) (saved : Tables) (done : Bool) (w : World) :
    (database.deferredRollback env saved done w).clockReads = w.clockReads := by
  unfold database.deferredRollback
  dsimp only
  split
  · split <;> rfl
  · rfl

theorem UpdateBookStatus_clock (env : Env) (id : String) (status : BookStatus) (now : Time)
    (tx : World) :
    (repositories.UpdateBookStatus env id status now tx).2.clockReads = tx.clockReads := by
  unfold repositories.UpdateBookStatus repositories.validateUUIDOrNotFound issue
  by_cases hid : env.parseUUID id = true
  · simp only [hid, if_true]
    cases env.fault tx.calls.length <;> rfl
  · simp [hid]

theorem UpdateBookStatus_calls (env : Env) (id : String) (status : BookStatus) (now : Time)
    (tx : World) :
    ((repositories.UpdateBookStatus env id status now tx).1 ≠ none ∧
        (repositories.UpdateBookStatus env id status now tx).2.calls = tx.calls) ∨
      (repositories.UpdateBookStatus env id status now tx).2.calls =
        tx.calls ++ [Call.UpdateBookStatus status now id] := by
  unfold repositories.UpdateBookStatus repositories.validateUUIDOrNotFound issue
  by_cases hid : env.parseUUID id = true
  · right
    simp only [hid, if_true]
    cases env.fault tx.calls.length <;> rfl
  · left
    simp [hid]

theorem AppendStatusChange_calls (env : Env) (id : String) (status : BookStatus) (now : Time)
    (tx : World) (hid : env.parseUUID id = true) :
    (repositories.AppendStatusChange env id status now tx).2.calls =
      tx.calls ++ [Call.InsertStatusChange id status (env.now tx.clockReads)] := by
  unfold repositories.AppendStatusChange repositories.validateUUIDOrNotFound issue timeNow
  simp only [hid, if_true]
  cases env.fault tx.calls.length
  · dsimp only
    split <;> rfl
  · rfl

theorem UpdateBookStatus_ok (env : Env) (id : String) (status : BookStatus) (now : Time)
    (tx tx1 : World) (h : repositories.UpdateBookStatus env id status now tx = (none, tx1)) :
    env.parseUUID id = true ∧ tx1.clockReads = tx.clockReads ∧
      tx1.calls = tx.calls ++ [Call.UpdateBookStatus status now id] := by
  unfold repositories.UpdateBookStatus repositories.validateUUIDOrNotFound issue at h
  by_cases hid : env.parseUUID id = true
  · refine ⟨hid, ?_⟩
    simp only [hid, if_true] at h
    cases hf : env.fault tx.calls.length with
    | none =>
      rw [hf] at h
      simp only [Prod.mk.injEq] at h
      rw [← h.2]
      exact ⟨rfl, rfl⟩
    | some e => rw [hf] at h; simp at h
  · simp [hid] at h

/-- C3: the transactional block of changeBookStatus is all-or-nothing.  For the
world in which the transaction begins (whatever it holds): if UpdateBookStatus
returns an error, be it an error of the engine or ErrNotFound for zero rows
affected, WithTransaction returns exactly that error, the tables are those at
begin, the clock has not been read again, and the calls made are begin, at most
the update, and rollback, with no insert and no commit; if the update succeeds and AppendStatusChange returns an
error, WithTransaction returns exactly that error, the tables are those at
begin, and the calls made are begin, update, insert and rollback, with no
commit.  changeBookStatus runs this block whenever the book it has read has a
status other than the target. -/
theorem C3_transition_all_or_nothing (env : Env) (id : String) (status : BookStatus)
    (now : Time) (w : World) (hbegin : env.fault w.calls.length = none) :
    (∀ e tx1,
        repositories.UpdateBookStatus env id status now
            { w with calls := w.calls ++ [Call.BeginTxx] } = (some e, tx1) →
        ∃ w1, database.WithTransaction env (services.statusChangeBlock env id status now) w =
            (some e, w1) ∧
          w1.tables = w.tables ∧ w1.clockReads = w.clockReads ∧
          (w1.calls = w.calls ++ [Call.BeginTxx, Call.Rollback] ∨
            w1.calls = w.calls ++
              [Call.BeginTxx, Call.UpdateBookStatus status now id, Call.Rollback])) ∧
      (∀ tx1 e tx2,
        repositories.UpdateBookStatus env id status now
            { w with calls := w.calls ++ [Call.BeginTxx] } = (none, tx1) →
        repositories.AppendStatusChange env id status now tx1 = (some e, tx2) →
        ∃ w1, database.WithTransaction env (services.statusChangeBlock env id status now) w =
            (some e, w1) ∧
          w1.tables = w.tables ∧
          w1.calls = w.calls ++
            [Call.BeginTxx, Call.UpdateBookStatus status now id,
             Call.InsertStatusChange id status (env.now w.clockReads), Call.Rollback]) ∧
      (∀ w0 wr book,
        repositories.GetBookByID env id w0 = ((some book, none), wr) →
        book.Status ≠ status →
        services.changeBookStatus env id status w0 =
          database.WithTransaction env
            (services.statusChangeBlock env id status (timeNow env wr).1) (timeNow env wr).2) := by
  refine ⟨?_, ?_, ?_⟩
  · intro e tx1 hupd
    have hc := UpdateBookStatus_calls env id status now { w with calls := w.calls ++ [Call.BeginTxx] }
    rw [hupd] at hc
    have hr := deferredRollback_tables env w.tables tx1
    have hk := UpdateBookStatus_clock env id status now { w with calls := w.calls ++ [Call.BeginTxx] }
    rw [hupd] at hk
    refine ⟨database.deferredRollback env w.tables false tx1, ?_, hr.1, ?_, ?_⟩
    · simp [database.WithTransaction, database.withTransactionInternal, issue, hbegin,
        services.statusChangeBlock, hupd]
    · rw [deferredRollback_clock]; exact hk
    · rw [hr.2]
      rcases hc with hc | hc
      · left; simp only [] at hc; rw [hc.2]; simp
      · right; simp only [] at hc; rw [hc]; simp
  · intro tx1 e tx2 hupd happ
    obtain ⟨hid, hclock, hcalls⟩ := UpdateBookStatus_ok env id status now _ tx1 hupd
    have hc := AppendStatusChange_calls env id status now tx1 hid
    rw [happ] at hc
    have hr := deferredRollback_tables env w.tables tx2
    refine ⟨database.deferredRollback env w.tables false tx2, ?_, hr.1, ?_⟩
    · simp [database.WithTransaction, database.withTransactionInternal, issue, hbegin,
        services.statusChangeBlock, hupd, happ]
    · rw [hr.2]
      simp only [] at hc hcalls hclock
      rw [hc, hcalls, hclock]
      simp
  · intro w0 wr book hget hne
    simp [services.changeBookStatus, hget, hne, timeNow]

end claims_atomic

section claims_atomic_witness

open utils models storage

theorem C3_transition_all_or_nothing_witness :
    (∃ w1, database.WithTransaction sample.env
          (services.statusChangeBlock sample.env sample.idA BookStatusCheckedOut 100)
          World.empty = (some Error.ErrNotFound, w1) ∧
        w1.tables = World.empty.tables ∧ w1.clockReads = World.empty.clockReads ∧
        (w1.calls = World.empty.calls ++ [Call.BeginTxx, Call.Rollback] ∨
          w1.calls = World.empty.calls ++
            [Call.BeginTxx, Call.UpdateBookStatus BookStatusCheckedOut 100 sample.idA,
             Call.Rollback])) ∧
      (∃ w1, database.WithTransaction sample.envThirdCallFails
          (services.statusChangeBlock sample.envThirdCallFails sample.idA BookStatusCheckedOut 100)
          sample.world = (some (Error.driver "connection reset"), w1) ∧
        w1.tables = sample.world.tables ∧
        w1.calls = sample.world.calls ++
          [Call.BeginTxx, Call.UpdateBookStatus BookStatusCheckedOut 100 sample.idA,
           Call.InsertStatusChange sample.idA BookStatusCheckedOut
             (sample.envThirdCallFails.now sample.world.clockReads), Call.Rollback]) :=
  ⟨(C3_transition_all_or_nothing sample.env sample.idA BookStatusCheckedOut 100 World.empty
      (by decide)).1 Error.ErrNotFound
      (repositories.UpdateBookStatus sample.env sample.idA BookStatusCheckedOut 100
        { World.empty with calls := World.empty.calls ++ [Call.BeginTxx] }).2 (by decide),
   (C3_transition_all_or_nothing sample.envThirdCallFails sample.idA BookStatusCheckedOut 100
      sample.world (by decide)).2.1
      (repositories.UpdateBookStatus sample.envThirdCallFails sample.idA BookStatusCheckedOut 100
        { sample.world with calls := sample.world.calls ++ [Call.BeginTxx] }).2
      (Error.driver "connection reset")
      (repositories.AppendStatusChange sample.envThirdCallFails sample.idA BookStatusCheckedOut 100
        (repositories.UpdateBookStatus sample.envThirdCallFails sample.idA BookStatusCheckedOut 100
          { sample.world with calls := sample.world.calls ++ [Call.BeginTxx] }).2).2
      (by decide) (by decide)⟩

end claims_atomic_witness

/-! ## Malformed identifiers -/

section claims_malformed

open utils models storage

/-- C10: for an id that uuid.Parse rejects, GetBook, UpdateBook, DeleteBook,
CheckoutBook, CheckinBook and GetBookWithHistory all return ErrNotFound and
leave the world exactly as it was: no storage call is recorded, no transaction
is begun, the tables and the clock are untouched. -/
theorem C10_malformed_id_not_found (env : Env) (id : String) (req : UpdateBookRequest)
    (w : World) (hbad : env.parseUUID id = false) :
    services.GetBook env id w = ((none, some Error.ErrNotFound), w) ∧
      services.UpdateBook env id req w = ((none, some Error.ErrNotFound), w) ∧
      services.DeleteBook env id w = (some Error.ErrNotFound, w) ∧
      services.CheckoutBook env id w = (some Error.ErrNotFound, w) ∧
      services.CheckinBook env id w = (some Error.ErrNotFound, w) ∧
      services.GetBookWithHistory env id w = ((none, some Error.ErrNotFound), w) := by
  have hget := GetBookByID_malformed env id w hbad
  refine ⟨?_, ?_, ?_, ?_, ?_, ?_⟩
  · simp [services.GetBook, hget]
  · simp [services.UpdateBook, hget]
  · simp [services.DeleteBook, repositories.DeleteBook, repositories.validateUUIDOrNotFound, hbad]
  · simp [services.CheckoutBook, services.changeBookStatus, hget]
  · simp [services.CheckinBook, services.changeBookStatus, hget]
  · simp [services.GetBookWithHistory, repositories.GetBookWithHistory,
      repositories.validateUUIDOrNotFound, hbad]

theorem C10_malformed_id_not_found_witness :
    services.GetBook sample.env "42" sample.world =
        ((none, some Error.ErrNotFound), sample.world) ∧
      services.UpdateBook sample.env "42" ⟨"i", "t", "a", "d"⟩ sample.world =
        ((none, some Error.ErrNotFound), sample.world) ∧
      services.DeleteBook sample.env "42" sample.world =
        (some Error.ErrNotFound, sample.world) ∧
      services.CheckoutBook sample.env "42" sample.world =
        (some Error.ErrNotFound, sample.world) ∧
      services.CheckinBook sample.env "42" sample.world =
        (some Error.ErrNotFound, sample.world) ∧
      services.GetBookWithHistory sample.env "42" sample.world =
        ((none, some Error.ErrNotFound), sample.world) :=
  C10_malformed_id_not_found sample.env "42" ⟨"i", "t", "a", "d"⟩ sample.world (by decide)

end claims_malformed

/-! ## What one service call does to the tables -/

section effects

open utils models storage

theorem GetBookByID_spec (env : Env) (id : String) (w : World) :
    (repositories.GetBookByID env id w).2.tables = w.tables ∧
      (repositories.GetBookByID env id w).2.clockReads = w.clockReads ∧
      (repositories.GetBookByID env id w).2.serial = w.serial ∧
      (∀ ob, (repositories.GetBookByID env id w).1 = (ob, none) →
        env.parseUUID id = true ∧
          ∃ book, ob = some book ∧ w.tables.books.find? (liveWithID id) = some book) := by
  unfold repositories.GetBookByID repositories.validateUUIDOrNotFound issue
  by_cases hid : env.parseUUID id = true
  · simp only [hid, if_true]
    cases hf : env.fault w.calls.length with
    | some e =>
      dsimp only
      by_cases he : errorsIs e Error.ErrNoRows = true
      · simp [he]
      · simp [he]
    | none =>
      dsimp only
      cases hrow : w.tables.books.find? (liveWithID id) with
      | none => simp [errorsIs]
      | some book => simp
  · simp [hid]

theorem deferredRollback_done (env : Env) (saved : Tables) (w : World) :
    (database.deferredRollback env saved true w).tables = w.tables := by
  simp [database.deferredRollback, errorsIs]

theorem WithTransaction_effect (env : Env) (fn : World → Option Error × World) (w : World) :
    ((database.WithTransaction env fn w).2.tables = w.tables ∧
        ((database.WithTransaction env fn w).2.clockReads = w.clockReads ∨
          (database.WithTransaction env fn w).2.clockReads =
            (fn { w with calls := w.calls ++ [Call.BeginTxx] }).2.clockReads)) ∨
      (∃ tx2, fn { w with calls := w.calls ++ [Call.BeginTxx] } = (none, tx2) ∧
        (database.WithTransaction env fn w).2.tables = tx2.tables ∧
        (database.WithTransaction env fn w).2.clockReads = tx2.clockReads) := by
  unfold database.WithTransaction database.withTransactionInternal issue
  cases hb : env.fault w.calls.length with
  | some e => left; simp
  | none =>
    dsimp only
    cases hfn : fn { w with calls := w.calls ++ [Call.BeginTxx] } with
    | mk r tx2 =>
      cases r with
      | some e =>
        left
        dsimp only
        have hr := deferredRollback_tables env w.tables tx2
        exact ⟨hr.1, Or.inr (deferredRollback_clock env w.tables false tx2)⟩
      | none =>
        dsimp only
        cases hcm : env.fault tx2.calls.length with
        | some e =>
          left
          dsimp only
          refine ⟨?_, Or.inr ?_⟩
          · rw [deferredRollback_done]
          · rw [deferredRollback_clock]
        | none =>
          right
          dsimp only
          refine ⟨tx2, rfl, ?_, ?_⟩
          · rw [deferredRollback_done]
          · rw [deferredRollback_clock]

theorem AppendStatusChange_clock (env : Env) (id : String) (status : BookStatus) (now : Time)
    (tx : World) :
    tx.clockReads ≤ (repositories.AppendStatusChange env id status now tx).2.clockReads := by
  unfold repositories.AppendStatusChange repositories.validateUUIDOrNotFound issue timeNow
  by_cases hid : env.parseUUID id = true
  · simp only [hid, if_true]
    cases env.fault tx.calls.length with
    | some e => exact Nat.le_succ _
    | none =>
      dsimp only
      split <;> exact Nat.le_succ _
  · simp [hid]

theorem statusChangeBlock_clock (env : Env) (id : String) (status : BookStatus) (now : Time)
    (tx : World) :
    tx.clockReads ≤ (services.statusChangeBlock env id status now tx).2.clockReads := by
  unfold services.statusChangeBlock
  have h1 := UpdateBookStatus_clock env id status now tx
  cases hu : repositories.UpdateBookStatus env id status now tx with
  | mk r tx1 =>
    rw [hu] at h1
    cases r with
    | some e => exact le_of_eq h1.symm
    | none =>
      dsimp only
      have h2 := AppendStatusChange_clock env id status now tx1
      dsimp only at h1
      omega

theorem UpdateBookStatus_tables (env : Env) (id : String) (status : BookStatus) (now : Time)
    (tx tx1 : World) (h : repositories.UpdateBookStatus env id status now tx = (none, tx1)) :
    tx1.tables.books = booksAfterStatus id status now tx.tables.books ∧
      tx1.tables.book_status_changes = tx.tables.book_status_changes ∧
      tx1.serial = tx.serial := by
  unfold repositories.UpdateBookStatus repositories.validateUUIDOrNotFound issue at h
  by_cases hid : env.parseUUID id = true
  · simp only [hid, if_true] at h
    cases hf : env.fault tx.calls.length with
    | none =>
      rw [hf] at h
      simp only [Prod.mk.injEq] at h
      rw [← h.2]
      exact ⟨rfl, rfl, rfl⟩
    | some e => rw [hf] at h; simp at h
  · simp [hid] at h

theorem AppendStatusChange_tables (env : Env) (id : String) (status : BookStatus) (now : Time)
    (tx tx1 : World) (h : repositories.AppendStatusChange env id status now tx = (none, tx1)) :
    tx1.tables.books = tx.tables.books ∧
      tx1.tables.book_status_changes = tx.tables.book_status_changes ++
        [{ id := tx.serial + 1, book_id := id, status := status,
           timestamp := env.now tx.clockReads }] ∧
      tx1.clockReads = tx.clockReads + 1 := by
  unfold repositories.AppendStatusChange repositories.validateUUIDOrNotFound issue timeNow at h
  by_cases hid : env.parseUUID id = true
  · simp only [hid, if_true] at h
    cases hf : env.fault tx.calls.length with
    | none =>
      rw [hf] at h
      dsimp only at h
      split at h
      · simp only [Prod.mk.injEq, true_and] at h
        rw [← h]
        exact ⟨rfl, rfl, rfl⟩
      · simp at h
    | some e => rw [hf] at h; simp at h
  · simp [hid] at h

theorem statusChangeBlock_ok (env : Env) (id : String) (status : BookStatus) (now : Time)
    (tx tx2 : World) (h : services.statusChangeBlock env id status now tx = (none, tx2)) :
    tx2.tables.books = booksAfterStatus id status now tx.tables.books ∧
      tx2.tables.book_status_changes = tx.tables.book_status_changes ++
        [{ id := tx.serial + 1, book_id := id, status := status,
           timestamp := env.now tx.clockReads }] ∧
      tx2.clockReads = tx.clockReads + 1 := by
  unfold services.statusChangeBlock at h
  cases hu : repositories.UpdateBookStatus env id status now tx with
  | mk r tx1 =>
    rw [hu] at h
    cases r with
    | some e => simp at h
    | none =>
      dsimp only at h
      obtain ⟨hb, hh, hs⟩ := UpdateBookStatus_tables env id status now tx tx1 hu
      obtain ⟨_, hk, _⟩ := UpdateBookStatus_ok env id status now tx tx1 hu
      obtain ⟨ab, ah, ac⟩ := AppendStatusChange_tables env id status now tx1 tx2 h
      refine ⟨by rw [ab, hb], by rw [ah, hh, hs, hk], by rw [ac, hk]⟩

end effects

section step_effects

open utils models storage

theorem changeBookStatus_effect (env : Env) (id : String) (status : BookStatus) (w : World)
    (hst : status = BookStatusCheckedOut ∨ status = BookStatusAvailable) :
    services.StepEffect env w (services.changeBookStatus env id status w).2 := by
  obtain ⟨ht, hc, _, hok⟩ := GetBookByID_spec env id w
  unfold services.changeBookStatus
  cases hg : repositories.GetBookByID env id w with
  | mk r w1 =>
    rw [hg] at ht hc hok
    dsimp only at ht hc hok
    obtain ⟨ob, oe⟩ := r
    cases oe with
    | some e =>
      cases ob <;> exact .same ht (le_of_eq hc.symm)
    | none =>
      obtain ⟨_, book, hob, hrow⟩ := hok ob rfl
      subst hob
      dsimp only
      by_cases hs : book.Status = status
      · rw [if_pos hs]
        exact .same ht (le_of_eq hc.symm)
      · rw [if_neg hs]
        simp only [timeNow]
        rcases WithTransaction_effect env
            (services.statusChangeBlock env id status (env.now w1.clockReads))
            { w1 with clockReads := w1.clockReads + 1 } with ⟨h1, h2⟩ | ⟨tx2, hblock, h1, h2⟩
        · refine .same (by rw [h1]; exact ht) ?_
          have hk := statusChangeBlock_clock env id status (env.now w1.clockReads)
            { w1 with clockReads := w1.clockReads + 1, calls := w1.calls ++ [Call.BeginTxx] }
          dsimp only at hk
          rcases h2 with h2 | h2
          · rw [h2]; dsimp only; omega
          · rw [h2]; dsimp only at hk ⊢; omega
        · obtain ⟨hb, hh, hk⟩ := statusChangeBlock_ok env id status _ _ tx2 hblock
          dsimp only at hb hh hk
          refine .moved id status book (w1.serial + 1) hrow hs hst ?_ ?_ ?_
          · rw [h1, hb, ht, hc]
          · rw [h1, hh, ht, hc]
          · rw [h2, hk, hc]

theorem CreateBook_effect (env : Env) (req : CreateBookRequest) (w : World) :
    services.StepEffect env w (services.CreateBook env req w).2 := by
  simp only [services.CreateBook, repositories.CreateBook, issue, timeNow, uuidNew]
  cases hf : env.fault w.calls.length with
  | some e =>
    dsimp only
    exact .same rfl (Nat.le_succ _)
  | none =>
    dsimp only
    by_cases hany : (w.tables.books.any fun b => decide (b.ID = env.newUUID w.uuidReads)) = true
    · rw [if_pos hany]
      dsimp only
      exact .same rfl (Nat.le_succ _)
    · rw [if_neg hany]
      dsimp only
      refine .created _ ?_ rfl rfl rfl (Nat.le_succ _)
      intro b hb e
      apply hany
      simp only [List.any_eq_true, decide_eq_true_eq]
      exact ⟨b, hb, e⟩

theorem repoUpdateBook_tables (env : Env) (book : Book) (w : World) :
    ((repositories.UpdateBook env book w).2.tables = w.tables ∨
      ((repositories.UpdateBook env book w).2.tables.books = w.tables.books.map (fun b =>
          if liveWithID book.ID b then
            { b with ISBN := book.ISBN, Title := book.Title, Author := book.Author,
                     Description := book.Description, Status := book.Status,
                     UpdatedAt := book.UpdatedAt }
          else b) ∧
        (repositories.UpdateBook env book w).2.tables.book_status_changes =
          w.tables.book_status_changes)) ∧
      (repositories.UpdateBook env book w).2.clockReads = w.clockReads := by
  unfold repositories.UpdateBook repositories.validateUUIDOrNotFound issue
  by_cases hid : env.parseUUID book.ID = true
  · simp only [hid, if_true]
    cases env.fault w.calls.length with
    | some e => exact ⟨Or.inl rfl, rfl⟩
    | none => exact ⟨Or.inr ⟨rfl, rfl⟩, rfl⟩
  · simp [hid]

theorem UpdateBook_effect (env : Env) (id : String) (req : UpdateBookRequest) (w : World) :
    services.StepEffect env w (services.UpdateBook env id req w).2 := by
  obtain ⟨ht, hc, _, hok⟩ := GetBookByID_spec env id w
  unfold services.UpdateBook
  cases hg : repositories.GetBookByID env id w with
  | mk r w1 =>
    rw [hg] at ht hc hok
    dsimp only at ht hc hok
    obtain ⟨ob, oe⟩ := r
    cases oe with
    | some e =>
      cases ob <;> exact .same ht (le_of_eq hc.symm)
    | none =>
      obtain ⟨_, book, hob, hrow⟩ := hok ob rfl
      subst hob
      dsimp only
      have hidb : book.ID = id := by
        have := List.find?_some hrow
        simp only [liveWithID, Bool.and_eq_true, decide_eq_true_eq] at this
        exact this.1
      obtain ⟨hcase, hclock⟩ := repoUpdateBook_tables env
        { book with ISBN := req.ISBN, Title := req.Title, Author := req.Author,
                    Description := req.Description } w1
      cases hu : repositories.UpdateBook env
        { book with ISBN := req.ISBN, Title := req.Title, Author := req.Author,
                    Description := req.Description } w1 with
      | mk r2 w2 =>
        rw [hu] at hcase hclock
        dsimp only at hcase hclock
        have hfin : services.StepEffect env w w2 := by
          rcases hcase with h | ⟨hb, hh⟩
          · exact .same (by rw [h]; exact ht) (by omega)
          · refine .updated id book req hrow ?_ (by rw [hh, ht]) (by omega)
            rw [hb, ht, hidb]
        cases r2 <;> dsimp only <;> exact hfin

theorem DeleteBook_effect (env : Env) (id : String) (w : World) :
    services.StepEffect env w (services.DeleteBook env id w).2 := by
  unfold services.DeleteBook repositories.DeleteBook repositories.validateUUIDOrNotFound issue
  by_cases hid : env.parseUUID id = true
  · simp only [hid, if_true]
    cases env.fault w.calls.length with
    | some e =>
      dsimp only
      exact .same rfl (le_refl _)
    | none =>
      dsimp only
      exact .deleted id rfl rfl (le_refl _)
  · have hid2 : env.parseUUID id = false := by simpa using hid
    simp only [hid2]
    exact .same rfl (le_refl _)

theorem step_effect (env : Env) (w : World) (op : services.Op) :
    services.StepEffect env w (services.step env w op) := by
  cases op with
  | CreateBook req => exact CreateBook_effect env req w
  | UpdateBook id req => exact UpdateBook_effect env id req w
  | DeleteBook id => exact DeleteBook_effect env id w
  | CheckoutBook id => exact changeBookStatus_effect env id _ w (Or.inl rfl)
  | CheckinBook id => exact changeBookStatus_effect env id _ w (Or.inr rfl)

end step_effects

/-! ## Invariants of the reachable stores -/

section invariants

open utils models storage

theorem next_status (n : Nat) (s : BookStatus) (hne : statusAfter n ≠ s)
    (hs : s = BookStatusCheckedOut ∨ s = BookStatusAvailable) :
    s = alternating n ∧ s = statusAfter (n + 1) := by
  unfold statusAfter at hne ⊢
  unfold alternating
  rcases Nat.mod_two_eq_zero_or_one n with h | h
  · have h1 : (n + 1) % 2 = 1 := by omega
    rw [if_pos h] at hne
    rcases hs with hs | hs
    · simp [h, h1, hs]
    · exact absurd hs.symm hne
  · have h1 : (n + 1) % 2 = 0 := by omega
    have h0 : ¬ n % 2 = 0 := by omega
    rw [if_neg h0] at hne
    rcases hs with hs | hs
    · exact absurd hs.symm hne
    · simp [h, h1, hs]

theorem unique_of_find (books : List Book) (id : String) (book : Book)
    (hpk : (books.map (fun b => b.ID)).Nodup)
    (hrow : books.find? (liveWithID id) = some book) :
    book ∈ books ∧ book.ID = id ∧ ∀ b ∈ books, b.ID = id → b = book := by
  have hmem := List.mem_of_find?_eq_some hrow
  have hlive := List.find?_some hrow
  simp only [liveWithID, Bool.and_eq_true, decide_eq_true_eq] at hlive
  refine ⟨hmem, hlive.1, ?_⟩
  intro b hb hbid
  exact List.inj_on_of_nodup_map hpk hb hmem (by rw [hbid, hlive.1])

theorem StatusInv_map (books : List Book) (changes : List StatusChangeRow) (g : Book → Book)
    (hg : ∀ b ∈ books, (g b).ID = b.ID ∧ (g b).Status = b.Status)
    (hinv : StatusInv books changes) : StatusInv (books.map g) changes := by
  obtain ⟨hpk, hfk, hok⟩ := hinv
  have hids : (books.map g).map (fun b => b.ID) = books.map (fun b => b.ID) := by
    rw [List.map_map]
    apply List.map_congr_left
    intro b hb
    exact (hg b hb).1
  refine ⟨by rw [hids]; exact hpk, ?_, ?_⟩
  · intro r hr
    obtain ⟨b, hb, hbid⟩ := hfk r hr
    exact ⟨g b, List.mem_map.2 ⟨b, hb, rfl⟩, by rw [(hg b hb).1]; exact hbid⟩
  · intro b1 hb1
    obtain ⟨b, hb, rfl⟩ := List.mem_map.1 hb1
    have := hok b hb
    unfold BookOK at this ⊢
    rw [(hg b hb).1, (hg b hb).2]
    exact this

theorem historyOf_append_other (id other : String) (changes : List StatusChangeRow)
    (r : StatusChangeRow) (hr : r.book_id = other) (hne : other ≠ id) :
    historyOf id (changes ++ [r]) = historyOf id changes := by
  simp [historyOf, List.filter_append, List.filter, hr, hne]

theorem historyOf_append_same (id : String) (changes : List StatusChangeRow)
    (r : StatusChangeRow) (hr : r.book_id = id) :
    historyOf id (changes ++ [r]) = historyOf id changes ++ [r] := by
  simp [historyOf, List.filter_append, List.filter, hr]

theorem StatusInv_step (env : Env) (w w1 : World) (he : services.StepEffect env w w1)
    (hinv : StatusInv w.tables.books w.tables.book_status_changes) :
    StatusInv w1.tables.books w1.tables.book_status_changes := by
  cases he with
  | same ht _ => rw [ht]; exact hinv
  | created book hfresh hst hb hh _ =>
    obtain ⟨hpk, hfk, hok⟩ := hinv
    rw [hb, hh]
    refine ⟨?_, ?_, ?_⟩
    · rw [List.map_append, List.map_singleton]
      refine List.nodup_append.2 ⟨hpk, List.nodup_singleton _, ?_⟩
      intro x hx hx2
      obtain ⟨b, hbm, rfl⟩ := List.mem_map.1 hx
      exact hfresh b hbm (List.mem_singleton.1 hx2)
    · intro r hr
      obtain ⟨b, hbm, hbid⟩ := hfk r hr
      exact ⟨b, List.mem_append_left _ hbm, hbid⟩
    · intro b hbm
      rcases List.mem_append.1 hbm with h | h
      · exact hok b h
      · have hbe : b = book := List.mem_singleton.1 h
        subst hbe
        have hnone : historyOf b.ID w.tables.book_status_changes = [] := by
          unfold historyOf
          rw [List.filter_eq_nil_iff]
          intro r hr hrid
          obtain ⟨b2, hb2, hb2id⟩ := hfk r hr
          exact hfresh b2 hb2 (by rw [hb2id]; exact of_decide_eq_true hrid)
        unfold BookOK
        rw [hnone]
        exact ⟨rfl, hst⟩
  | updated id book req hrow hb hh _ =>
    rw [hb, hh]
    apply StatusInv_map _ _ _ _ hinv
    intro b hbm
    by_cases hl : liveWithID id b = true
    · have hbid : b.ID = id := by
        simp only [liveWithID, Bool.and_eq_true, decide_eq_true_eq] at hl
        exact hl.1
      have := (unique_of_find _ id book hinv.1 hrow).2.2 b hbm hbid
      subst this
      simp [hl]
    · simp [hl]
  | deleted id hb hh _ =>
    rw [hb, hh]
    apply StatusInv_map _ _ _ _ hinv
    intro b _
    by_cases hl : liveWithID id b = true
    · simp [hl]
    · simp [hl]
  | moved id status book rowid hrow hne hst hb hh _ =>
    obtain ⟨hpk, hfk, hok⟩ := hinv
    obtain ⟨hbook, hbookid, huniq⟩ := unique_of_find _ id book hpk hrow
    have hlive := List.find?_some hrow
    rw [hb, hh]
    have hids : (booksAfterStatus id status (env.now w.clockReads) w.tables.books).map
        (fun b => b.ID) = w.tables.books.map (fun b => b.ID) := by
      unfold booksAfterStatus
      rw [List.map_map]
      apply List.map_congr_left
      intro b _
      dsimp only [Function.comp]
      split <;> rfl
    refine ⟨by rw [hids]; exact hpk, ?_, ?_⟩
    · intro r hr
      have hsome : ∃ b ∈ w.tables.books, b.ID = r.book_id := by
        rcases List.mem_append.1 hr with h | h
        · exact hfk r h
        · rw [List.mem_singleton.1 h]
          exact ⟨book, hbook, hbookid⟩
      obtain ⟨b, hbm, hbid⟩ := hsome
      have hx : b.ID ∈ (booksAfterStatus id status (env.now w.clockReads) w.tables.books).map
          (fun b => b.ID) := by
        rw [hids]
        exact List.mem_map.2 ⟨b, hbm, rfl⟩
      obtain ⟨b2, hb2, hb2id⟩ := List.mem_map.1 hx
      exact ⟨b2, hb2, by rw [hb2id]; exact hbid⟩
    · intro b1 hb1
      unfold booksAfterStatus at hb1
      obtain ⟨b, hbm, rfl⟩ := List.mem_map.1 hb1
      have hbok := hok b hbm
      by_cases hbid : b.ID = id
      · have hbe := huniq b hbm hbid
        subst hbe
        rw [if_pos hlive]
        unfold BookOK at hbok ⊢
        dsimp only
        rw [hbid] at hbok ⊢
        rw [historyOf_append_same id _ _ rfl]
        obtain ⟨h1, h2⟩ := hbok
        have hn := next_status (historyOf id w.tables.book_status_changes).length status
          (by rw [← h2]; exact hne) hst
        refine ⟨?_, ?_⟩
        · rw [List.map_append, List.length_append, List.length_singleton, List.range_succ,
            List.map_append, h1, List.map_singleton, List.map_singleton, ← hn.1]
        · rw [List.length_append, List.length_singleton]
          exact hn.2
      · have hnl : ¬ liveWithID id b = true := by
          simp [liveWithID, hbid]
        rw [if_neg hnl]
        unfold BookOK at hbok ⊢
        rw [historyOf_append_other b.ID id _ _ rfl (fun e => hbid e.symm)]
        exact hbok

theorem TimeInv_step (env : Env) (hclock : Monotone env.now) (w w1 : World)
    (he : services.StepEffect env w w1) (hinv : TimeInv env w) : TimeInv env w1 := by
  obtain ⟨hread, hsorted⟩ := hinv
  have keep : ∀ (hh : w1.tables.book_status_changes = w.tables.book_status_changes)
      (hc : w.clockReads ≤ w1.clockReads), TimeInv env w1 := by
    intro hh hc
    unfold TimeInv
    rw [hh]
    refine ⟨?_, hsorted⟩
    intro r hr
    obtain ⟨j, hj, hts⟩ := hread r hr
    exact ⟨j, lt_of_lt_of_le hj hc, hts⟩
  cases he with
  | same ht hc => exact keep (by rw [ht]) hc
  | created book hfresh hst hb hh hc => exact keep hh hc
  | updated id book req hrow hb hh hc => exact keep hh hc
  | deleted id hb hh hc => exact keep hh hc
  | moved id status book rowid hrow hne hst hb hh hc =>
    unfold TimeInv
    rw [hh, hc]
    refine ⟨?_, ?_⟩
    · intro r hr
      rcases List.mem_append.1 hr with h | h
      · obtain ⟨j, hj, hts⟩ := hread r h
        exact ⟨j, by omega, hts⟩
      · rw [List.mem_singleton.1 h]
        exact ⟨w.clockReads + 1, by omega, rfl⟩
    · rw [List.pairwise_append]
      refine ⟨hsorted, List.pairwise_singleton _ _, ?_⟩
      intro a ha b hb2
      rw [List.mem_singleton.1 hb2]
      obtain ⟨j, hj, hts⟩ := hread a ha
      rw [hts]
      exact hclock (by omega)

theorem StatusInv_run (env : Env) (ops : List services.Op) :
    ∀ w : World, StatusInv w.tables.books w.tables.book_status_changes →
      StatusInv (services.run env w ops).tables.books
        (services.run env w ops).tables.book_status_changes := by
  induction ops with
  | nil => intro w h; exact h
  | cons op rest ih =>
    intro w h
    exact ih (services.step env w op) (StatusInv_step env w _ (step_effect env w op) h)

theorem TimeInv_run (env : Env) (hclock : Monotone env.now) (ops : List services.Op) :
    ∀ w : World, TimeInv env w → TimeInv env (services.run env w ops) := by
  induction ops with
  | nil => intro w h; exact h
  | cons op rest ih =>
    intro w h
    exact ih (services.step env w op) (TimeInv_step env hclock w _ (step_effect env w op) h)

theorem StatusInv_reachable (env : Env) (w : World) (hreach : services.Reachable env w) :
    StatusInv w.tables.books w.tables.book_status_changes := by
  obtain ⟨ops, rfl⟩ := hreach
  apply StatusInv_run
  refine ⟨List.nodup_nil, ?_, ?_⟩
  · intro r hr; cases hr
  · intro b hb; cases hb

theorem TimeInv_reachable (env : Env) (hclock : Monotone env.now) (w : World)
    (hreach : services.Reachable env w) : TimeInv env w := by
  obtain ⟨ops, rfl⟩ := hreach
  apply TimeInv_run env hclock
  refine ⟨?_, List.Pairwise.nil⟩
  intro r hr; cases hr

end invariants

section claims_invariants

open utils models storage

/-- C5: in every store the service operations reach from the empty store, under
a clock that never goes back, a book without history rows is available, and a
book with history rows has the status of the row inserted last for it, which is
also a row of greatest timestamp among its rows. -/
theorem C5_status_is_latest_change (env : Env) (w : World) (hclock : Monotone env.now)
    (hreach : services.Reachable env w) :
    ∀ b ∈ w.tables.books,
      (historyOf b.ID w.tables.book_status_changes = [] → b.Status = BookStatusAvailable) ∧
      (∀ last, (historyOf b.ID w.tables.book_status_changes).getLast? = some last →
        b.Status = last.status ∧
          ∀ r ∈ historyOf b.ID w.tables.book_status_changes, r.timestamp ≤ last.timestamp) := by
  intro b hb
  obtain ⟨_, _, hok⟩ := StatusInv_reachable env w hreach
  obtain ⟨_, hsorted⟩ := TimeInv_reachable env hclock w hreach
  obtain ⟨halt, hstatus⟩ := hok b hb
  refine ⟨?_, ?_⟩
  · intro hnil
    rw [hstatus, hnil]
    rfl
  · intro last hlast
    obtain ⟨init, hsplit⟩ := List.getLast?_eq_some_iff.1 hlast
    have hs2 : (historyOf b.ID w.tables.book_status_changes).Pairwise
        (fun a b => a.timestamp ≤ b.timestamp) := List.Pairwise.filter _ hsorted
    rw [hsplit] at halt hstatus hs2 ⊢
    refine ⟨?_, ?_⟩
    · rw [List.map_append, List.length_append, List.length_singleton, List.range_succ,
        List.map_append, List.map_singleton, List.map_singleton] at halt
      have hl := List.append_inj_right' halt (by simp)
      have hlast2 : last.status = alternating init.length := by simpa using hl
      rw [hstatus, hlast2, List.length_append, List.length_singleton]
      unfold statusAfter alternating
      rcases Nat.mod_two_eq_zero_or_one init.length with h | h
      · have h1 : (init.length + 1) % 2 = 1 := by omega
        simp [h, h1]
      · have h1 : (init.length + 1) % 2 = 0 := by omega
        simp [h, h1]
    · intro r hr
      rcases List.mem_append.1 hr with h | h
      · exact (List.pairwise_append.1 hs2).2.2 r h last (List.mem_singleton.2 rfl)
      · rw [List.mem_singleton.1 h]

theorem C5_status_is_latest_change_witness :
    Monotone sample.env.now ∧
      services.Reachable sample.env (services.run sample.env World.empty sample.calls) ∧
      ∀ b ∈ (services.run sample.env World.empty sample.calls).tables.books,
        (historyOf b.ID
            (services.run sample.env World.empty sample.calls).tables.book_status_changes = [] →
          b.Status = BookStatusAvailable) ∧
        (∀ last, (historyOf b.ID
            (services.run sample.env World.empty sample.calls).tables.book_status_changes).getLast?
              = some last →
          b.Status = last.status ∧
            ∀ r ∈ historyOf b.ID
                (services.run sample.env World.empty sample.calls).tables.book_status_changes,
              r.timestamp ≤ last.timestamp) :=
  ⟨fun _ _ h => Nat.add_le_add_left h 100, ⟨sample.calls, rfl⟩,
   C5_status_is_latest_change sample.env _ (fun _ _ h => Nat.add_le_add_left h 100)
     ⟨sample.calls, rfl⟩⟩

/-- C7: in every store the service operations reach from the empty store, the
history rows of any one id, in insertion order, are checked_out, available,
checked_out, and so on: the row at position i (from 0) is checked_out when i is
even and available when i is odd, so two consecutive rows never carry the same
status. -/
theorem C7_history_alternates (env : Env) (w : World) (hreach : services.Reachable env w) :
    ∀ (id : String) (i : Nat) (r : StatusChangeRow),
      (historyOf id w.tables.book_status_changes)[i]? = some r →
        r.status = (if i % 2 = 0 then BookStatusCheckedOut else BookStatusAvailable) ∧
          ∀ r2, (historyOf id w.tables.book_status_changes)[i + 1]? = some r2 →
            r2.status ≠ r.status := by
  obtain ⟨_, hfk, hok⟩ := StatusInv_reachable env w hreach
  have key : ∀ (id : String) (i : Nat) (r : StatusChangeRow),
      (historyOf id w.tables.book_status_changes)[i]? = some r → r.status = alternating i := by
    intro id i r hr
    have hmem : r ∈ historyOf id w.tables.book_status_changes := List.getElem?_mem hr
    have hmem2 := List.mem_filter.1 hmem
    obtain ⟨b, hb, hbid⟩ := hfk r hmem2.1
    have hid : b.ID = id := by rw [hbid]; exact of_decide_eq_true hmem2.2
    obtain ⟨halt, _⟩ := hok b hb
    rw [hid] at halt
    have hi : i < (historyOf id w.tables.book_status_changes).length := by
      rcases Nat.lt_or_ge i (historyOf id w.tables.book_status_changes).length with h | h
      · exact h
      · rw [List.getElem?_eq_none h] at hr; cases hr
    have h1 : ((historyOf id w.tables.book_status_changes).map (fun r => r.status))[i]? =
        some r.status := by
      rw [List.getElem?_map, hr]; rfl
    rw [halt, List.getElem?_map, List.getElem?_range hi] at h1
    exact (Option.some.inj h1).symm
  intro id i r hr
  refine ⟨key id i r hr, ?_⟩
  intro r2 hr2
  rw [key id i r hr, key id (i + 1) r2 hr2]
  unfold alternating
  rcases Nat.mod_two_eq_zero_or_one i with h | h
  · have h1 : (i + 1) % 2 = 1 := by omega
    simp [h, h1]; decide
  · have h1 : (i + 1) % 2 = 0 := by omega
    simp [h, h1]; decide

theorem C7_history_alternates_witness :
    services.Reachable sample.env (services.run sample.env World.empty sample.calls) ∧
      ∀ (id : String) (i : Nat) (r : StatusChangeRow),
        (historyOf id
          (services.run sample.env World.empty sample.calls).tables.book_status_changes)[i]?
            = some r →
          r.status = (if i % 2 = 0 then BookStatusCheckedOut else BookStatusAvailable) ∧
            ∀ r2, (historyOf id
              (services.run sample.env World.empty sample.calls).tables.book_status_changes)[i + 1]?
                = some r2 →
              r2.status ≠ r.status :=
  ⟨⟨sample.calls, rfl⟩, C7_history_alternates sample.env _ ⟨sample.calls, rfl⟩⟩

end claims_invariants

/-! ## Logical delete -/

section delete_lemmas

open utils models storage

theorem Gone_no_live (id : String) (books : List Book) (hg : Gone id books) :
    ∀ b ∈ books, liveWithID id b = false := by
  intro b hb
  by_cases h : b.ID = id
  · simp [liveWithID, hg.2 b hb h]
  · simp [liveWithID, h]

theorem Gone_find (id : String) (books : List Book) (hg : Gone id books) :
    books.find? (liveWithID id) = none := by
  rw [List.find?_eq_none]
  intro b hb
  simp [Gone_no_live id books hg b hb]

theorem Gone_map (id : String) (books : List Book) (f : Book → Book) (hg : Gone id books) :
    books.map (fun b => if liveWithID id b then f b else b) = books := by
  conv_rhs => rw [← List.map_id books]
  apply List.map_congr_left
  intro b hb
  simp [Gone_no_live id books hg b hb]

theorem Gone_count (id : String) (books : List Book) (hg : Gone id books) :
    books.countP (liveWithID id) = 0 := by
  rw [List.countP_eq_zero]
  intro b hb
  simp [Gone_no_live id books hg b hb]

/-- What a successful repository DeleteBook has done. -/
theorem DeleteBook_ok (env : Env) (id : String) (w w1 : World)
    (hdel : services.DeleteBook env id w = (none, w1)) :
    w1.tables.books =
        w.tables.books.map (fun b => if liveWithID id b then { b with Deleted := true } else b) ∧
      w1.tables.book_status_changes = w.tables.book_status_changes ∧
      w.tables.books.countP (liveWithID id) ≠ 0 := by
  unfold services.DeleteBook repositories.DeleteBook repositories.validateUUIDOrNotFound issue
    at hdel
  by_cases hid : env.parseUUID id = true
  · simp only [hid, if_true] at hdel
    cases hf : env.fault w.calls.length with
    | some e => rw [hf] at hdel; simp at hdel
    | none =>
      rw [hf] at hdel
      simp only [Prod.mk.injEq] at hdel
      obtain ⟨hres, hw⟩ := hdel
      refine ⟨by rw [← hw], by rw [← hw], ?_⟩
      intro hzero
      rw [hzero] at hres
      unfold rowsAffected CheckRowsAffected at hres
      split at hres
      · rename_i hh
        split at hh <;> simp at hh
        simp at hres
      · rename_i hh
        split at hh
        · simp at hh
        · simp only [Except.ok.injEq] at hh
          rw [← hh] at hres
          simp at hres
  · simp [hid] at hdel

theorem Gone_after_delete (env : Env) (id : String) (w w1 : World)
    (hdel : services.DeleteBook env id w = (none, w1)) : Gone id w1.tables.books := by
  obtain ⟨hb, _, hc⟩ := DeleteBook_ok env id w w1 hdel
  obtain ⟨b, hbm, hbl⟩ := List.countP_pos_iff.1 (Nat.pos_of_ne_zero hc)
  have hbl2 := hbl
  simp only [liveWithID, Bool.and_eq_true, decide_eq_true_eq] at hbl2
  rw [hb]
  refine ⟨?_, ?_⟩
  · refine ⟨{ b with Deleted := true }, List.mem_map.2 ⟨b, hbm, by simp [hbl]⟩, hbl2.1⟩
  · intro b1 hb1 hid1
    obtain ⟨b0, _, rfl⟩ := List.mem_map.1 hb1
    by_cases hl : liveWithID id b0 = true
    · simp [hl]
    · simp only [hl] at hid1 ⊢
      simp only [liveWithID, Bool.and_eq_true, decide_eq_true_eq, not_and] at hl
      simpa using hl hid1

theorem Gone_of_map (id : String) (books : List Book) (g : Book → Book)
    (hg : ∀ b, (g b).ID = b.ID ∧ (b.Deleted = true → (g b).Deleted = true))
    (h : Gone id books) : Gone id (books.map g) := by
  obtain ⟨⟨b, hb, hbid⟩, hall⟩ := h
  refine ⟨⟨g b, List.mem_map.2 ⟨b, hb, rfl⟩, by rw [(hg b).1]; exact hbid⟩, ?_⟩
  intro b1 hb1 hid1
  obtain ⟨b0, hb0, rfl⟩ := List.mem_map.1 hb1
  rw [(hg b0).1] at hid1
  exact (hg b0).2 (hall b0 hb0 hid1)

theorem Gone_step (env : Env) (id : String) (w w1 : World)
    (he : services.StepEffect env w w1) (h : Gone id w.tables.books) :
    Gone id w1.tables.books := by
  cases he with
  | same ht _ => rw [ht]; exact h
  | created book hfresh hst hb hh _ =>
    rw [hb]
    obtain ⟨⟨b, hbm, hbid⟩, hall⟩ := h
    refine ⟨⟨b, List.mem_append_left _ hbm, hbid⟩, ?_⟩
    intro b1 hb1 hid1
    rcases List.mem_append.1 hb1 with h1 | h1
    · exact hall b1 h1 hid1
    · rw [List.mem_singleton.1 h1] at hid1
      exact absurd (hbid.trans hid1.symm) (hfresh b hbm)
  | updated id2 book req hrow hb hh _ =>
    rw [hb]
    apply Gone_of_map _ _ _ _ h
    intro b
    by_cases hl : liveWithID id2 b = true <;> simp [hl]
  | deleted id2 hb hh _ =>
    rw [hb]
    apply Gone_of_map _ _ _ _ h
    intro b
    by_cases hl : liveWithID id2 b = true <;> simp [hl]
  | moved id2 status book rowid hrow hne hst hb hh _ =>
    rw [hb]
    unfold booksAfterStatus
    apply Gone_of_map _ _ _ _ h
    intro b
    by_cases hl : liveWithID id2 b = true <;> simp [hl]

theorem Gone_run (env : Env) (id : String) (ops : List services.Op) :
    ∀ w : World, Gone id w.tables.books → Gone id (services.run env w ops).tables.books := by
  induction ops with
  | nil => intro w h; exact h
  | cons op rest ih =>
    intro w h
    exact ih (services.step env w op) (Gone_step env id w _ (step_effect env w op) h)

theorem KeepsRows_map (books : List Book) (g : Book → Book)
    (hg : ∀ b, (g b).ID = b.ID ∧ (b.Deleted = true → (g b).Deleted = true)) :
    KeepsRows books (books.map g) := by
  refine ⟨books.map g, [], by simp, ?_⟩
  rw [List.forall₂_map_right_iff, List.forall₂_same]
  intro b _
  exact hg b

theorem KeepsRows_step (env : Env) (w w1 : World) (he : services.StepEffect env w w1) :
    KeepsRows w.tables.books w1.tables.books := by
  have hrefl : ∀ l : List Book, List.Forall₂
      (fun b b1 => b1.ID = b.ID ∧ (b.Deleted = true → b1.Deleted = true)) l l := by
    intro l
    rw [List.forall₂_same]
    intro b _
    exact ⟨rfl, id⟩
  cases he with
  | same ht _ => rw [ht]; exact ⟨_, [], by simp, hrefl _⟩
  | created book hfresh hst hb hh _ => rw [hb]; exact ⟨_, [book], rfl, hrefl _⟩
  | updated id2 book req hrow hb hh _ =>
    rw [hb]
    apply KeepsRows_map
    intro b
    by_cases hl : liveWithID id2 b = true <;> simp [hl]
  | deleted id2 hb hh _ =>
    rw [hb]
    apply KeepsRows_map
    intro b
    by_cases hl : liveWithID id2 b = true <;> simp [hl]
  | moved id2 status book rowid hrow hne hst hb hh _ =>
    rw [hb]
    unfold booksAfterStatus
    apply KeepsRows_map
    intro b
    by_cases hl : liveWithID id2 b = true <;> simp [hl]

end delete_lemmas

section claims_delete

open utils models storage

/-- C9: a successful DeleteBook changes, in the books table, exactly the one row
with that id, and in it only the deleted flag, from false to true: the rows
before and after it, their number and their order, and all its other fields are
as before, and the history table is as before.  And no call of a service
operation, in any store, removes a book row or turns a deleted flag back to
false: the table after the call is the table before it, row by row with the same
id and a deleted flag that stays true if it was true, followed by the rows the
call added. -/
theorem C9_delete_is_logical (env : Env) (w w1 : World) (id : String)
    (hpk : (w.tables.books.map (fun b => b.ID)).Nodup)
    (hdel : services.DeleteBook env id w = (none, w1)) :
    (∃ pre book post,
        w.tables.books = pre ++ book :: post ∧ book.ID = id ∧ book.Deleted = false ∧
        w1.tables.books = pre ++ { book with Deleted := true } :: post) ∧
      w1.tables.book_status_changes = w.tables.book_status_changes ∧
      ∀ (v : World) (op : services.Op),
        KeepsRows v.tables.books (services.step env v op).tables.books := by
  obtain ⟨hb, hh, hc⟩ := DeleteBook_ok env id w w1 hdel
  obtain ⟨book, hbm, hbl⟩ := List.countP_pos_iff.1 (Nat.pos_of_ne_zero hc)
  simp only [liveWithID, Bool.and_eq_true, decide_eq_true_eq, Bool.not_eq_true'] at hbl
  obtain ⟨pre, post, hsplit, hmap⟩ :=
    map_live_unique w.tables.books book (fun b => { b with Deleted := true }) hpk hbm hbl.2
  refine ⟨⟨pre, book, post, hsplit, hbl.1, hbl.2, ?_⟩, hh, ?_⟩
  · rw [hb, ← hbl.1]
    exact hmap
  · intro v op
    exact KeepsRows_step env v _ (step_effect env v op)

theorem C9_delete_is_logical_witness :
    (∃ pre book post,
        sample.world.tables.books = pre ++ book :: post ∧ book.ID = sample.idA ∧
        book.Deleted = false ∧
        (services.DeleteBook sample.env sample.idA sample.world).2.tables.books =
          pre ++ { book with Deleted := true } :: post) ∧
      (services.DeleteBook sample.env sample.idA sample.world).2.tables.book_status_changes =
        sample.world.tables.book_status_changes ∧
      ∀ (v : World) (op : services.Op),
        KeepsRows v.tables.books (services.step sample.env v op).tables.books :=
  C9_delete_is_logical sample.env sample.world
    (services.DeleteBook sample.env sample.idA sample.world).2 sample.idA
    (by decide) (by decide)

end claims_delete

section list_lemmas

open utils models storage

theorem evalWhere_notDeleted (cs : List Cond) :
    ∀ (args : List String) (b : Book),
      evalWhere (cs ++ [Cond.notDeleted]) args b = true → b.Deleted = false := by
  induction cs with
  | nil =>
    intro args b h
    simpa [evalWhere, Cond.arity, Cond.eval] using h
  | cons c rest ih =>
    intro args b h
    simp only [List.cons_append, evalWhere, Bool.and_eq_true] at h
    exact ih _ b h.2

theorem listConditions_last (req : ListBooksRequest) :
    ∃ cs, (repositories.listConditions req).1 = cs ++ [Cond.notDeleted] := by
  simp only [repositories.listConditions]
  split_ifs <;> exact ⟨_, rfl⟩

theorem listed_not_deleted (req : ListBooksRequest) (b : Book)
    (h : evalWhere (repositories.listConditions req).1 (repositories.listConditions req).2 b
      = true) : b.Deleted = false := by
  obtain ⟨cs, hcs⟩ := listConditions_last req
  rw [hcs] at h
  exact evalWhere_notDeleted cs _ b h

theorem limitOffset_subset (limit offset : Int) (rows books : List Book)
    (h : limitOffset limit offset rows = .ok books) : ∀ b ∈ books, b ∈ rows := by
  unfold limitOffset at h
  split at h
  · cases h
  · split at h
    · cases h
    · simp only [Except.ok.injEq] at h
      intro b hb
      rw [← h] at hb
      exact List.mem_of_mem_drop (List.mem_of_mem_take hb)

theorem orderBy_mem (sortBy sortOrder : String) (rows : List Book) (b : Book)
    (h : b ∈ orderBy sortBy sortOrder rows) : b ∈ rows := by
  unfold orderBy at h
  split at h
  · exact (List.perm_insertionSort _ rows).mem_iff.1 h
  · exact (List.perm_insertionSort _ rows).mem_iff.1 h

/-- The rows a list query selects from, when the rows of an id are all deleted,
are those it selects from once these rows are taken out of the table. -/
theorem filter_without_gone (id : String) (books : List Book) (req : ListBooksRequest)
    (hg : Gone id books) :
    (books.filter (fun b => decide (b.ID ≠ id))).filter
        (evalWhere (repositories.listConditions req).1 (repositories.listConditions req).2) =
      books.filter
        (evalWhere (repositories.listConditions req).1 (repositories.listConditions req).2) := by
  rw [List.filter_filter]
  apply List.filter_congr
  intro b hb
  by_cases hw : evalWhere (repositories.listConditions req).1
      (repositories.listConditions req).2 b = true
  · have hnd := listed_not_deleted req b hw
    have hne : b.ID ≠ id := by
      intro e
      have := hg.2 b hb e
      rw [hnd] at this
      cases this
    simp [hw, hne]
  · simp [hw]

theorem repoListBooks_without_gone (env : Env) (id : String) (req : ListBooksRequest)
    (v : World) (hg : Gone id v.tables.books) :
    (repositories.ListBooks env req v).1 =
      (repositories.ListBooks env req
        { v with tables := { v.tables with
            books := v.tables.books.filter (fun b => decide (b.ID ≠ id)) } }).1 := by
  have hf := filter_without_gone id v.tables.books req hg
  unfold repositories.ListBooks issue
  dsimp only
  cases env.fault v.calls.length with
  | some e => rfl
  | none =>
    dsimp only
    simp only [List.length_append, List.length_singleton]
    cases env.fault (v.calls.length + 1) with
    | some e => rfl
    | none =>
      dsimp only
      rw [hf]
      split <;> rfl

theorem repoListBooks_no_gone (env : Env) (id : String) (req : ListBooksRequest)
    (v : World) (hg : Gone id v.tables.books) :
    ∀ b ∈ (repositories.ListBooks env req v).1.1, b.ID ≠ id := by
  intro b hb e
  have hsel : b ∈ v.tables.books.filter
      (evalWhere (repositories.listConditions req).1 (repositories.listConditions req).2) := by
    unfold repositories.ListBooks issue at hb
    dsimp only at hb
    cases hf : env.fault v.calls.length with
    | some e => rw [hf] at hb; simp at hb
    | none =>
      rw [hf] at hb
      dsimp only at hb
      simp only [List.length_append, List.length_singleton] at hb
      cases hf2 : env.fault (v.calls.length + 1) with
      | some e => rw [hf2] at hb; simp at hb
      | none =>
        rw [hf2] at hb
        dsimp only at hb
        split at hb
        · simp at hb
        · rename_i books hlim
          exact orderBy_mem _ _ _ _ (limitOffset_subset _ _ _ _ hlim b hb)
  have hm := List.mem_filter.1 hsel
  have hnd := listed_not_deleted req b hm.2
  have := hg.2 b hm.1 e
  rw [hnd] at this
  cases this

end list_lemmas

section claims_gone

open utils models storage

theorem DeleteBook_ok_id (env : Env) (id : String) (w w1 : World)
    (hdel : services.DeleteBook env id w = (none, w1)) : env.parseUUID id = true := by
  by_cases hid : env.parseUUID id = true
  · exact hid
  · simp [services.DeleteBook, repositories.DeleteBook, repositories.validateUUIDOrNotFound,
      hid] at hdel

theorem DeleteBook_gone (env : Env) (id : String) (v : World)
    (hid : env.parseUUID id = true) (hg : Gone id v.tables.books)
    (hread : env.fault v.calls.length = none)
    (hrows : env.rowsFault v.calls.length = none) :
    services.DeleteBook env id v =
      (some Error.ErrNotFound, { v with calls := v.calls ++ [Call.DeleteBook id] }) := by
  have hm := Gone_map id v.tables.books (fun b => { b with Deleted := true }) hg
  have hc := Gone_count id v.tables.books hg
  simp [services.DeleteBook, repositories.DeleteBook, repositories.validateUUIDOrNotFound, hid,
    issue, hread, rowsAffected, hrows, hc, hm, CheckRowsAffected]

/-- C8: once DeleteBook(id) has succeeded, and whatever service calls follow it,
GetBook, UpdateBook with any payload, CheckoutBook, CheckinBook,
GetBookWithHistory and a further DeleteBook of that id, on a storage call that
does not fail, all return ErrNotFound having made one query and nothing else:
the tables are as before.  ListBooks, under any filter, sort and page, answers
exactly as it would if the rows with that id had been taken out of the table, so
they are not counted in the total, and no book it returns has that id. -/
theorem C8_deleted_book_is_not_found (env : Env) (id : String) (w w1 v : World)
    (ops : List services.Op) (req : UpdateBookRequest) (query : ListBooksRequest)
    (hdel : services.DeleteBook env id w = (none, w1))
    (hlater : services.run env w1 ops = v)
    (hread : env.fault v.calls.length = none)
    (hrows : env.rowsFault v.calls.length = none) :
    services.GetBook env id v =
        ((none, some Error.ErrNotFound),
         { v with calls := v.calls ++ [Call.SelectBookByID id] }) ∧
      services.UpdateBook env id req v =
        ((none, some Error.ErrNotFound),
         { v with calls := v.calls ++ [Call.SelectBookByID id] }) ∧
      services.CheckoutBook env id v =
        (some Error.ErrNotFound, { v with calls := v.calls ++ [Call.SelectBookByID id] }) ∧
      services.CheckinBook env id v =
        (some Error.ErrNotFound, { v with calls := v.calls ++ [Call.SelectBookByID id] }) ∧
      services.GetBookWithHistory env id v =
        ((none, some Error.ErrNotFound),
         { v with calls := v.calls ++ [Call.SelectBookByID id] }) ∧
      services.DeleteBook env id v =
        (some Error.ErrNotFound, { v with calls := v.calls ++ [Call.DeleteBook id] }) ∧
      (services.ListBooks env query v).1 =
        (services.ListBooks env query
          { v with tables := { v.tables with
              books := v.tables.books.filter (fun b => decide (b.ID ≠ id)) } }).1 ∧
      (∀ b ∈ (repositories.ListBooks env query v).1.1, b.ID ≠ id) ∧
      (∀ res, (services.ListBooks env query v).1.1 = some res →
        ∀ b ∈ res.Books, b.ID ≠ id) := by
  have hid := DeleteBook_ok_id env id w w1 hdel
  have hg : Gone id v.tables.books := by
    rw [← hlater]
    exact Gone_run env id ops w1 (Gone_after_delete env id w w1 hdel)
  have hget := GetBookByID_absent env id v hid hread (Gone_find id _ hg)
  have hlist := repoListBooks_without_gone env id query v hg
  have hnone := repoListBooks_no_gone env id query v hg
  refine ⟨?_, ?_, ?_, ?_, ?_, DeleteBook_gone env id v hid hg hread hrows, ?_, hnone, ?_⟩
  · simp [services.GetBook, hget]
  · simp [services.UpdateBook, hget]
  · simp [services.CheckoutBook, services.changeBookStatus, hget]
  · simp [services.CheckinBook, services.changeBookStatus, hget]
  · simp [services.GetBookWithHistory, repositories.GetBookWithHistory,
      repositories.validateUUIDOrNotFound, hid, hget]
  · unfold services.ListBooks
    cases h1 : repositories.ListBooks env query v with
    | mk r1 v1 =>
      cases h2 : repositories.ListBooks env query
        { v with tables := { v.tables with
            books := v.tables.books.filter (fun b => decide (b.ID ≠ id)) } } with
      | mk r2 v2 =>
        rw [h1, h2] at hlist
        dsimp only at hlist
        subst hlist
        obtain ⟨books, total, err⟩ := r1
        cases err <;> rfl
  · intro res hres b hb
    unfold services.ListBooks at hres
    cases h1 : repositories.ListBooks env query v with
    | mk r1 v1 =>
      rw [h1] at hres hnone
      obtain ⟨books, total, err⟩ := r1
      cases err with
      | some e => simp at hres
      | none =>
        dsimp only at hres hnone
        have hbooks : res.Books = ToBookResponseList books := by
          simp only [Option.some.injEq] at hres
          rw [← hres]
          unfold services.listBooksResponse
          dsimp only
          split <;> rfl
        rw [hbooks] at hb
        unfold ToBookResponseList at hb
        obtain ⟨b0, hb0, rfl⟩ := List.mem_map.1 hb
        exact hnone b0 hb0

theorem C8_deleted_book_is_not_found_witness :
    services.GetBook sample.env sample.idA sample.afterDelete =
        ((none, some Error.ErrNotFound),
         { sample.afterDelete with
           calls := sample.afterDelete.calls ++ [Call.SelectBookByID sample.idA] }) ∧
      services.UpdateBook sample.env sample.idA sample.payload sample.afterDelete =
        ((none, some Error.ErrNotFound),
         { sample.afterDelete with
           calls := sample.afterDelete.calls ++ [Call.SelectBookByID sample.idA] }) ∧
      services.CheckoutBook sample.env sample.idA sample.afterDelete =
        (some Error.ErrNotFound,
         { sample.afterDelete with
           calls := sample.afterDelete.calls ++ [Call.SelectBookByID sample.idA] }) ∧
      services.CheckinBook sample.env sample.idA sample.afterDelete =
        (some Error.ErrNotFound,
         { sample.afterDelete with
           calls := sample.afterDelete.calls ++ [Call.SelectBookByID sample.idA] }) ∧
      services.GetBookWithHistory sample.env sample.idA sample.afterDelete =
        ((none, some Error.ErrNotFound),
         { sample.afterDelete with
           calls := sample.afterDelete.calls ++ [Call.SelectBookByID sample.idA] }) ∧
      services.DeleteBook sample.env sample.idA sample.afterDelete =
        (some Error.ErrNotFound,
         { sample.afterDelete with
           calls := sample.afterDelete.calls ++ [Call.DeleteBook sample.idA] }) ∧
      (services.ListBooks sample.env sample.query sample.afterDelete).1 =
        (services.ListBooks sample.env sample.query
          { sample.afterDelete with tables := { sample.afterDelete.tables with
              books := sample.afterDelete.tables.books.filter
                (fun b => decide (b.ID ≠ sample.idA)) } }).1 ∧
      (∀ b ∈ (repositories.ListBooks sample.env sample.query sample.afterDelete).1.1,
        b.ID ≠ sample.idA) ∧
      (∀ res, (services.ListBooks sample.env sample.query sample.afterDelete).1.1 = some res →
        ∀ b ∈ res.Books, b.ID ≠ sample.idA) :=
  C8_deleted_book_is_not_found sample.env sample.idA sample.world
    (services.DeleteBook sample.env sample.idA sample.world).2 sample.afterDelete
    [services.Op.CheckoutBook sample.idA] sample.payload sample.query
    (by decide) rfl (by decide) (by decide)

end claims_gone

/-! ## The repository contracts -/

section claims_repository

open utils models storage

/-- A text has its own hexadecimal digits. -/
theorem sameUUID_refl (a : String) : sameUUID a a = true := by
  unfold sameUUID
  exact decide_eq_true rfl

/-- C11: for a well-formed id, repository GetBookByID returns the stored book and
no error when a row with that id and deleted = false is stored and the query
does not fail; it returns a nil book and ErrNotFound when the query yields no
row, be it that every row holding that UUID, in whatever spelling, is deleted
or that there is none (the engine compares UUID values, so a row holds the id
when its text has the hexadecimal digits of the id), or that the driver answers
sql.ErrNoRows. -/
theorem C11_get_book_by_id (env : Env) (id : String) (w : World)
    (hid : env.parseUUID id = true) :
    (∀ book, (w.tables.books.map (fun b => b.ID)).Nodup → book ∈ w.tables.books →
        book.ID = id → book.Deleted = false → env.fault w.calls.length = none →
        repositories.GetBookByID env id w =
          ((some book, none), { w with calls := w.calls ++ [Call.SelectBookByID id] })) ∧
      (env.fault w.calls.length = none →
        (∀ b ∈ w.tables.books, sameUUID b.ID id = true → b.Deleted = true) →
        repositories.GetBookByID env id w =
          ((none, some Error.ErrNotFound),
           { w with calls := w.calls ++ [Call.SelectBookByID id] })) ∧
      (∀ e, env.fault w.calls.length = some e → errorsIs e Error.ErrNoRows = true →
        repositories.GetBookByID env id w =
          ((none, some Error.ErrNotFound),
           { w with calls := w.calls ++ [Call.SelectBookByID id] })) := by
  refine ⟨?_, ?_, ?_⟩
  · intro book hpk hmem hbid hlive hread
    subst hbid
    exact GetBookByID_found env book.ID w book hid hread
      (find_live_of_mem w.tables.books book hpk hmem hlive)
  · intro hread hnone
    apply GetBookByID_absent env id w hid hread
    rw [List.find?_eq_none]
    intro b hb
    by_cases h : b.ID = id
    · simp [liveWithID, hnone b hb (by rw [h]; exact sameUUID_refl id)]
    · simp [liveWithID, h]
  · intro e hfault hno
    simp [repositories.GetBookByID, repositories.validateUUIDOrNotFound, hid, issue, hfault, hno]

theorem C11_get_book_by_id_witness :
    repositories.GetBookByID sample.env sample.idA sample.world =
        ((some sample.bookA, none),
         { sample.world with calls := [Call.SelectBookByID sample.idA] }) ∧
      repositories.GetBookByID sample.env sample.idA sample.afterDelete =
        ((none, some Error.ErrNotFound),
         { sample.afterDelete with
           calls := sample.afterDelete.calls ++ [Call.SelectBookByID sample.idA] }) :=
  ⟨(C11_get_book_by_id sample.env sample.idA sample.world (by decide)).1 sample.bookA
      (by decide) (by decide) (by decide) (by decide) (by decide),
   (C11_get_book_by_id sample.env sample.idA sample.afterDelete (by decide)).2.1
      (by decide) (by decide)⟩

theorem rowsContract_of_check (env : Env) (w : World) (count : Nat) :
    RowsContract env w count
      (match env.fault w.calls.length with
        | some err => some err
        | none => CheckRowsAffected
            (match env.rowsFault w.calls.length with
              | some err => .error err
              | none => .ok count)) := by
  unfold RowsContract CheckRowsAffected
  cases hf : env.fault w.calls.length with
  | some e =>
    simp
    intro h _
    exact h
  | none =>
    cases hr : env.rowsFault w.calls.length with
    | some e => simp
    | none =>
      by_cases hc : count = 0
      · simp [hc]
      · have : 1 ≤ count := Nat.one_le_iff_ne_zero.2 hc
        simp [hc, this]

/-- C12: for a well-formed id, repository UpdateBook, DeleteBook and
UpdateBookStatus each obey the rows-affected contract for the number of
non-deleted rows with that id: they return nil if and only if the statement ran
without error, the rows-affected read succeeded and at least one row was
affected; they return an error of the statement or of the read as it is; and,
the engine not answering ErrNotFound itself, they return ErrNotFound if and only
if statement and read succeeded and no row was affected.  CheckRowsAffected
returns the error of the read, ErrNotFound exactly for a count of 0, and nil
otherwise. -/
theorem C12_rows_affected_contract (env : Env) (id : String) (book : Book)
    (status : BookStatus) (ts : Time) (w : World)
    (hid : env.parseUUID id = true) (hbook : book.ID = id) :
    RowsContract env w (w.tables.books.countP (liveWithID id))
        (repositories.UpdateBook env book w).1 ∧
      RowsContract env w (w.tables.books.countP (liveWithID id))
        (repositories.DeleteBook env id w).1 ∧
      RowsContract env w (w.tables.books.countP (liveWithID id))
        (repositories.UpdateBookStatus env id status ts w).1 ∧
      (∀ e, CheckRowsAffected (.error e) = some e) ∧
      (∀ count, CheckRowsAffected (.ok count) = some Error.ErrNotFound ↔ count = 0) ∧
      (∀ count, CheckRowsAffected (.ok count) = none ↔ count ≠ 0) := by
  have key := rowsContract_of_check env w (w.tables.books.countP (liveWithID id))
  subst hbook
  refine ⟨?_, ?_, ?_, ?_, ?_, ?_⟩
  · convert key using 1
    unfold repositories.UpdateBook repositories.validateUUIDOrNotFound issue rowsAffected
    simp only [hid, if_true]
    cases env.fault w.calls.length with
    | some e => rfl
    | none =>
      dsimp only
      rw [List.length_append, List.length_singleton, Nat.add_sub_cancel]
  · convert key using 1
    unfold repositories.DeleteBook repositories.validateUUIDOrNotFound issue rowsAffected
    simp only [hid, if_true]
    cases env.fault w.calls.length with
    | some e => rfl
    | none =>
      dsimp only
      rw [List.length_append, List.length_singleton, Nat.add_sub_cancel]
  · convert key using 1
    unfold repositories.UpdateBookStatus repositories.validateUUIDOrNotFound issue rowsAffected
    simp only [hid, if_true]
    cases env.fault w.calls.length with
    | some e => rfl
    | none =>
      dsimp only
      rw [List.length_append, List.length_singleton, Nat.add_sub_cancel]
  · intro e; rfl
  · intro count
    by_cases hc : count = 0 <;> simp [CheckRowsAffected, hc]
  · intro count
    by_cases hc : count = 0 <;> simp [CheckRowsAffected, hc]

theorem C12_rows_affected_contract_witness :
    (repositories.DeleteBook sample.env sample.idA sample.world).1 = none ∧
      (repositories.DeleteBook sample.env sample.idA sample.afterDelete).1 =
        some Error.ErrNotFound ∧
      (repositories.UpdateBookStatus sample.envThirdCallFails sample.idA BookStatusCheckedOut 9
        { sample.world with calls := [Call.BeginTxx, Call.BeginTxx] }).1 =
        some (Error.driver "connection reset") :=
  ⟨((C12_rows_affected_contract sample.env sample.idA sample.bookA BookStatusCheckedOut 9
      sample.world (by decide) (by decide)).2.1).2.2.1.2 ⟨by decide, by decide, by decide⟩,
   (((C12_rows_affected_contract sample.env sample.idA sample.bookA BookStatusCheckedOut 9
      sample.afterDelete (by decide) (by decide)).2.1).2.2.2 (by decide) (by decide)).2
      ⟨by decide, by decide, by decide⟩,
   ((C12_rows_affected_contract sample.envThirdCallFails sample.idA sample.bookA
      BookStatusCheckedOut 9 { sample.world with calls := [Call.BeginTxx, Call.BeginTxx] }
      (by decide) (by decide)).2.2.1).1 _ (by decide)⟩

end claims_repository

/-! ## The service operations -/

section claims_service

open utils models storage

/-- C13: when service CreateBook returns no error, that is when the insert of the
repository succeeded, there is one book that was passed to the repository,
stored as the new last row and returned as the response: its isbn, title, author
and description are those of the payload, its status is available, its
created_at equals its updated_at, its deleted flag is false, and its id, the
generated UUID, is the same in the row and in the response and is not empty (the
generator not producing the empty string).  The history table is as before. -/
theorem C13_create_book (env : Env) (req : CreateBookRequest) (w w1 : World)
    (resp : Option BookResponse)
    (hgen : env.newUUID w.uuidReads ≠ "")
    (hok : services.CreateBook env req w = ((resp, none), w1)) :
    ∃ book : Book,
      book.ISBN = req.ISBN ∧ book.Title = req.Title ∧ book.Author = req.Author ∧
      book.Description = req.Description ∧ book.Status = BookStatusAvailable ∧
      book.CreatedAt = book.UpdatedAt ∧ book.Deleted = false ∧
      book.ID = env.newUUID w.uuidReads ∧ book.ID ≠ "" ∧
      w1.calls = w.calls ++ [Call.InsertBook book] ∧
      w1.tables.books = w.tables.books ++ [book] ∧
      resp = some (ToBookResponse book) ∧ (ToBookResponse book).ID = book.ID ∧
      w1.tables.book_status_changes = w.tables.book_status_changes := by
  simp only [services.CreateBook, repositories.CreateBook, issue, timeNow, uuidNew] at hok
  cases hf : env.fault w.calls.length with
  | some e => rw [hf] at hok; simp at hok
  | none =>
    rw [hf] at hok
    dsimp only at hok
    by_cases hany : (w.tables.books.any fun b => decide (b.ID = env.newUUID w.uuidReads)) = true
    · rw [if_pos hany] at hok
      simp at hok
    · rw [if_neg hany] at hok
      simp only [Prod.mk.injEq] at hok
      obtain ⟨⟨hresp, _⟩, hw⟩ := hok
      refine ⟨_, rfl, rfl, rfl, rfl, rfl, rfl, rfl, rfl, hgen, ?_, ?_, hresp.symm, rfl, ?_⟩
      · rw [← hw]
      · rw [← hw]
      · rw [← hw]

theorem C13_create_book_witness :
    ∃ book : Book,
      book.ISBN = sample.payload.ISBN ∧ book.Title = sample.payload.Title ∧
      book.Author = sample.payload.Author ∧
      book.Description = sample.payload.Description ∧ book.Status = BookStatusAvailable ∧
      book.CreatedAt = book.UpdatedAt ∧ book.Deleted = false ∧
      book.ID = sample.env.newUUID sample.world.uuidReads ∧ book.ID ≠ "" ∧
      (services.CreateBook sample.env sample.payload sample.world).2.calls =
        sample.world.calls ++ [Call.InsertBook book] ∧
      (services.CreateBook sample.env sample.payload sample.world).2.tables.books =
        sample.world.tables.books ++ [book] ∧
      (services.CreateBook sample.env sample.payload sample.world).1.1 =
        some (ToBookResponse book) ∧ (ToBookResponse book).ID = book.ID ∧
      (services.CreateBook sample.env sample.payload sample.world).2.tables.book_status_changes =
        sample.world.tables.book_status_changes :=
  C13_create_book sample.env sample.payload sample.world
    (services.CreateBook sample.env sample.payload sample.world).2
    (services.CreateBook sample.env sample.payload sample.world).1.1
    (by decide) (by decide)

/-- What a successful repository UpdateBook has written. -/
theorem repoUpdateBook_ok (env : Env) (book : Book) (w w2 : World)
    (h : repositories.UpdateBook env book w = (none, w2)) :
    w2 = { w with
      calls := w.calls ++ [Call.UpdateBook book],
      tables := { w.tables with books := w.tables.books.map (fun b =>
        if liveWithID book.ID b then
          { b with ISBN := book.ISBN, Title := book.Title, Author := book.Author,
                   Description := book.Description, Status := book.Status,
                   UpdatedAt := book.UpdatedAt }
        else b) } } := by
  unfold repositories.UpdateBook repositories.validateUUIDOrNotFound issue at h
  by_cases hid : env.parseUUID book.ID = true
  · simp only [hid, if_true] at h
    cases hf : env.fault w.calls.length with
    | some e => rw [hf] at h; simp at h
    | none =>
      rw [hf] at h
      simp only [Prod.mk.injEq] at h
      exact h.2.symm
  · simp [hid] at h

/-- What a successful service UpdateBook has read and written. -/
theorem UpdateBook_ok (env : Env) (id : String) (req : UpdateBookRequest) (w w1 : World)
    (resp : Option BookResponse)
    (hok : services.UpdateBook env id req w = ((resp, none), w1)) :
    ∃ book, w.tables.books.find? (liveWithID id) = some book ∧
      env.parseUUID id = true ∧
      resp = some (ToBookResponse
        { book with ISBN := req.ISBN, Title := req.Title, Author := req.Author,
                    Description := req.Description }) ∧
      w1.tables.books = w.tables.books.map (fun b =>
        if liveWithID id b then
          { b with ISBN := req.ISBN, Title := req.Title, Author := req.Author,
                   Description := req.Description, Status := book.Status,
                   UpdatedAt := book.UpdatedAt }
        else b) ∧
      w1.tables.book_status_changes = w.tables.book_status_changes ∧
      w1.clockReads = w.clockReads ∧
      w1.calls = w.calls ++ [Call.SelectBookByID id,
        Call.UpdateBook { book with ISBN := req.ISBN, Title := req.Title, Author := req.Author,
                                    Description := req.Description }] := by
  obtain ⟨_, _, _, hspec⟩ := GetBookByID_spec env id w
  unfold services.UpdateBook at hok
  cases hg : repositories.GetBookByID env id w with
  | mk r wg =>
    rw [hg] at hok hspec
    obtain ⟨ob, oe⟩ := r
    cases oe with
    | some e => cases ob <;> simp at hok
    | none =>
      obtain ⟨hid, book, hob, hrow⟩ := hspec ob rfl
      subst hob
      dsimp only at hok
      have hbid : book.ID = id := by
        have := List.find?_some hrow
        simp only [liveWithID, Bool.and_eq_true, decide_eq_true_eq] at this
        exact this.1
      have hfault : env.fault w.calls.length = none := by
        cases hf : env.fault w.calls.length with
        | none => rfl
        | some e =>
          exfalso
          simp only [repositories.GetBookByID, repositories.validateUUIDOrNotFound, hid,
            if_true, issue, hf] at hg
          by_cases he : errorsIs e Error.ErrNoRows = true
          · simp [he] at hg
          · simp [he] at hg
      have hwg : wg = { w with calls := w.calls ++ [Call.SelectBookByID id] } := by
        have := GetBookByID_found env id w book hid hfault hrow
        rw [hg] at this
        exact (Prod.mk.inj this).2
      cases hu : repositories.UpdateBook env
        { book with ISBN := req.ISBN, Title := req.Title, Author := req.Author,
                    Description := req.Description } wg with
      | mk r2 w2 =>
        rw [hu] at hok
        cases r2 with
        | some e => simp at hok
        | none =>
          simp only [Prod.mk.injEq, and_true] at hok
          obtain ⟨hresp, hw⟩ := hok
          have hw2 := repoUpdateBook_ok env _ wg w2 hu
          subst hw
          refine ⟨book, hrow, hid, hresp.symm, ?_, ?_, ?_, ?_⟩
          · rw [hw2, hwg, hbid]
          · rw [hw2, hwg]
          · rw [hw2, hwg]
          · rw [hw2, hwg]; simp

/-- After a rewrite of the live rows of an id that keeps id and deleted flag,
a query by id returns the rewritten row. -/
theorem find_map_live (books : List Book) (id : String) (book : Book) (f : Book → Book)
    (hf : ∀ b, (f b).ID = b.ID ∧ (f b).Deleted = b.Deleted)
    (hrow : books.find? (liveWithID id) = some book) :
    (books.map (fun b => if liveWithID id b then f b else b)).find? (liveWithID id) =
      some (f book) := by
  induction books with
  | nil => simp at hrow
  | cons b rest ih =>
    by_cases hb : liveWithID id b = true
    · have : b = book := by simpa [List.find?, hb] using hrow
      subst this
      have hb2 : liveWithID id (f b) = true := by
        simp only [liveWithID, (hf b).1, (hf b).2]
        exact hb
      simp [List.find?, hb, hb2]
    · have hrest : rest.find? (liveWithID id) = some book := by
        simpa [List.find?, hb] using hrow
      simp [List.find?, hb, ih hrest]

/-- C14: for a stored non-deleted book, when service UpdateBook returns no error
its response carries the payload as isbn, title, author and description and the
id, created_at and status (and updated_at) the book had before; a GetBook of
that id right after it, its query not failing, returns that same response. -/
theorem C14_update_then_get (env : Env) (req : UpdateBookRequest) (w w1 : World)
    (book : Book) (resp : Option BookResponse)
    (hpk : (w.tables.books.map (fun b => b.ID)).Nodup)
    (hmem : book ∈ w.tables.books) (hlive : book.Deleted = false)
    (hok : services.UpdateBook env book.ID req w = ((resp, none), w1))
    (hread : env.fault w1.calls.length = none) :
    resp = some
        { ID := book.ID, ISBN := req.ISBN, Title := req.Title, Author := req.Author,
          Description := req.Description, Status := book.Status,
          CreatedAt := book.CreatedAt, UpdatedAt := book.UpdatedAt } ∧
      (services.GetBook env book.ID w1).1 = (resp, none) := by
  obtain ⟨book2, hrow, hid, hresp, hbooks, _, _, _⟩ := UpdateBook_ok env book.ID req w w1 resp hok
  have hfind := find_live_of_mem w.tables.books book hpk hmem hlive
  rw [hfind] at hrow
  have hb : book2 = book := (Option.some.inj hrow).symm
  subst hb
  refine ⟨hresp, ?_⟩
  have hrow2 : w1.tables.books.find? (liveWithID book2.ID) = some
      { book2 with ISBN := req.ISBN, Title := req.Title, Author := req.Author,
                   Description := req.Description, Status := book2.Status,
                   UpdatedAt := book2.UpdatedAt } := by
    rw [hbooks]
    exact find_map_live w.tables.books book2.ID book2
      (fun b => { b with ISBN := req.ISBN, Title := req.Title, Author := req.Author,
                         Description := req.Description, Status := book2.Status,
                         UpdatedAt := book2.UpdatedAt })
      (fun b => ⟨rfl, rfl⟩) hfind
  simp only [services.GetBook, GetBookByID_found env book2.ID w1 _ hid hread hrow2, hresp]
  rfl

theorem C14_update_then_get_witness :
    (services.UpdateBook sample.env sample.bookA.ID sample.payload sample.world).1.1 = some
        { ID := sample.bookA.ID, ISBN := sample.payload.ISBN, Title := sample.payload.Title,
          Author := sample.payload.Author, Description := sample.payload.Description,
          Status := sample.bookA.Status, CreatedAt := sample.bookA.CreatedAt,
          UpdatedAt := sample.bookA.UpdatedAt } ∧
      (services.GetBook sample.env sample.bookA.ID
        (services.UpdateBook sample.env sample.bookA.ID sample.payload sample.world).2).1 =
        ((services.UpdateBook sample.env sample.bookA.ID sample.payload sample.world).1.1,
         none) :=
  C14_update_then_get sample.env sample.payload sample.world
    (services.UpdateBook sample.env sample.bookA.ID sample.payload sample.world).2
    sample.bookA
    (services.UpdateBook sample.env sample.bookA.ID sample.payload sample.world).1.1
    (by decide) (by decide) (by decide) (by decide) (by decide)

/-- C15 (the code departs from the claim): on a store holding one available book
with updated_at = 7, with a clock that would read 100, service UpdateBook
succeeds and writes the payload, and the stored updated_at is still 7: the
service never reads the clock and hands the repository the updated_at it has
just read from the row. -/
theorem C15_update_keeps_updated_at :
    (services.UpdateBook sample.env sample.idA sample.payload sample.world).1.2 = none ∧
      (services.UpdateBook sample.env sample.idA sample.payload sample.world).2.tables.books.map
        (fun b => (b.Title, b.UpdatedAt)) = [("Emma", 7)] ∧
      sample.env.now sample.world.clockReads = 100 ∧
      (services.UpdateBook sample.env sample.idA sample.payload sample.world).2.clockReads =
        sample.world.clockReads := by
  decide

end claims_service

section claims_bubbling

open utils models storage

/-- C16: an error of the repository call a service operation makes comes back
from the service as it is, with a nil response, and the world is the one the
repository call left.  This holds for CreateBook (the insert of the book built
from the payload), ListBooks, GetBook, DeleteBook (which is the repository call
itself), GetBookWithHistory, and for both calls of UpdateBook; when GetBookByID
fails in UpdateBook the world is the one GetBookByID left, so repository
UpdateBook has not been called. -/
theorem C16_repository_errors_bubble (env : Env) (id : String) (req : BookPayload)
    (query : ListBooksRequest) (w : World) :
    (∀ e w1,
        repositories.CreateBook env
          { ID := env.newUUID w.uuidReads, ISBN := req.ISBN, Title := req.Title,
            Author := req.Author, Description := req.Description,
            Status := BookStatusAvailable, CreatedAt := env.now w.clockReads,
            UpdatedAt := env.now w.clockReads, Deleted := false }
          { w with clockReads := w.clockReads + 1, uuidReads := w.uuidReads + 1 } =
          (some e, w1) →
        services.CreateBook env req w = ((none, some e), w1)) ∧
      (∀ books total e w1, repositories.ListBooks env query w = ((books, total, some e), w1) →
        services.ListBooks env query w = ((none, some e), w1)) ∧
      (∀ ob e w1, repositories.GetBookByID env id w = ((ob, some e), w1) →
        services.GetBook env id w = ((none, some e), w1)) ∧
      (∀ ob e w1, repositories.GetBookByID env id w = ((ob, some e), w1) →
        services.UpdateBook env id req w = ((none, some e), w1)) ∧
      (∀ book w1 e w2, repositories.GetBookByID env id w = ((some book, none), w1) →
        repositories.UpdateBook env
          { book with ISBN := req.ISBN, Title := req.Title, Author := req.Author,
                      Description := req.Description } w1 = (some e, w2) →
        services.UpdateBook env id req w = ((none, some e), w2)) ∧
      services.DeleteBook env id w = repositories.DeleteBook env id w ∧
      (∀ ob history e w1,
        repositories.GetBookWithHistory env id w = ((ob, history, some e), w1) →
        services.GetBookWithHistory env id w = ((none, some e), w1)) := by
  refine ⟨?_, ?_, ?_, ?_, ?_, rfl, ?_⟩
  · intro e w1 h
    simp only [services.CreateBook, timeNow, uuidNew, h]
  · intro books total e w1 h
    simp only [services.ListBooks, h]
  · intro ob e w1 h
    simp only [services.GetBook, h]
  · intro ob e w1 h
    cases ob <;> simp only [services.UpdateBook, h]
  · intro book w1 e w2 h1 h2
    simp only [services.UpdateBook, h1, h2]
  · intro ob history e w1 h
    simp only [services.GetBookWithHistory, h]

theorem C16_repository_errors_bubble_witness :
    services.CreateBook sample.env
        { ISBN := "978-0", Title := "Dune", Author := "Herbert", Description := "" }
        { sample.world with uuidReads := 0 } =
        ((none, some duplicateKey),
         (repositories.CreateBook sample.env
            { sample.bookA with CreatedAt := 100, UpdatedAt := 100 }
            { sample.world with clockReads := 1, uuidReads := 1 }).2) ∧
      services.UpdateBook sample.env sample.idA sample.payload sample.afterDelete =
        ((none, some Error.ErrNotFound),
         (repositories.GetBookByID sample.env sample.idA sample.afterDelete).2) :=
  ⟨(C16_repository_errors_bubble sample.env sample.idA
      { ISBN := "978-0", Title := "Dune", Author := "Herbert", Description := "" }
      sample.query { sample.world with uuidReads := 0 }).1 duplicateKey _ (by decide),
   (C16_repository_errors_bubble sample.env sample.idA sample.payload sample.query
      sample.afterDelete).2.2.2.1 none Error.ErrNotFound _ (by decide)⟩

end claims_bubbling

/-! ## The transactional wrapper -/

section claims_wrapper

open utils models storage

/-- C17: WithTransactionResult, for every wrapped function and result type.  If
begin fails it returns the zero value and the error of begin, and the world is
the one begin left, whatever fn is: fn has not run.  If fn fails it returns the
zero value and the error of fn as it is, and after the calls of fn only Rollback
is made, not Commit.  If commit fails it returns the zero value and the error of
commit.  If begin, fn and commit succeed it returns the result of fn and no
error.  So no error is returned if and only if begin, fn and commit all succeed.
WithTransaction returns the error WithTransactionResult returns for the same
function with a unit result, and leaves the same world. -/
theorem C17_with_transaction_result {T : Type} (zero : T) (env : Env)
    (fn : World → (T × Option Error) × World) (w : World) :
    (∀ e, env.fault w.calls.length = some e →
        database.WithTransactionResult zero env fn w =
          ((zero, some e), { w with calls := w.calls ++ [Call.BeginTxx] })) ∧
      (env.fault w.calls.length = none → ∀ r e tx1,
        fn { w with calls := w.calls ++ [Call.BeginTxx] } = ((r, some e), tx1) →
        ∃ w1, database.WithTransactionResult zero env fn w = ((zero, some e), w1) ∧
          w1.calls = tx1.calls ++ [Call.Rollback] ∧ w1.tables = w.tables) ∧
      (env.fault w.calls.length = none → ∀ r tx1 e,
        fn { w with calls := w.calls ++ [Call.BeginTxx] } = ((r, none), tx1) →
        env.fault tx1.calls.length = some e →
        ∃ w1, database.WithTransactionResult zero env fn w = ((zero, some e), w1) ∧
          w1.calls = tx1.calls ++ [Call.Commit, Call.Rollback] ∧ w1.tables = w.tables) ∧
      (env.fault w.calls.length = none → ∀ r tx1,
        fn { w with calls := w.calls ++ [Call.BeginTxx] } = ((r, none), tx1) →
        env.fault tx1.calls.length = none →
        database.WithTransactionResult zero env fn w =
          ((r, none), { tx1 with calls := tx1.calls ++ [Call.Commit, Call.Rollback] })) ∧
      ((database.WithTransactionResult zero env fn w).1.2 = none ↔
        env.fault w.calls.length = none ∧
        (fn { w with calls := w.calls ++ [Call.BeginTxx] }).1.2 = none ∧
        env.fault (fn { w with calls := w.calls ++ [Call.BeginTxx] }).2.calls.length = none) ∧
      (∀ f : World → Option Error × World,
        database.WithTransaction env f w =
          ((database.WithTransactionResult () env (fun tx => (((), (f tx).1), (f tx).2)) w).1.2,
           (database.WithTransactionResult () env (fun tx => (((), (f tx).1), (f tx).2)) w).2))
    := by
  refine ⟨?_, ?_, ?_, ?_, ?_, ?_⟩
  · intro e hb
    simp [database.WithTransactionResult, database.withTransactionInternal, issue, hb]
  · intro hb r e tx1 hfn
    have hr := deferredRollback_tables env w.tables tx1
    refine ⟨database.deferredRollback env w.tables false tx1, ?_, hr.2, hr.1⟩
    simp [database.WithTransactionResult, database.withTransactionInternal, issue, hb, hfn]
  · intro hb r tx1 e hfn hc
    refine ⟨{ tx1 with calls := tx1.calls ++ [Call.Commit, Call.Rollback], tables := w.tables },
      ?_, rfl, rfl⟩
    simp [database.WithTransactionResult, database.withTransactionInternal, issue, hb, hfn, hc,
      database.deferredRollback, errorsIs]
  · intro hb r tx1 hfn hc
    simp [database.WithTransactionResult, database.withTransactionInternal, issue, hb, hfn, hc,
      database.deferredRollback, errorsIs]
  · simp only [database.WithTransactionResult, database.withTransactionInternal, issue]
    cases hb : env.fault w.calls.length with
    | some e => simp
    | none =>
      simp only [true_and]
      cases hfn : fn { w with calls := w.calls ++ [Call.BeginTxx] } with
      | mk r tx1 =>
        obtain ⟨res, oe⟩ := r
        cases oe with
        | some e => simp
        | none =>
          simp only [true_and]
          cases hc : env.fault tx1.calls.length with
          | some e => simp
          | none => simp
  · intro f
    rfl

theorem C17_with_transaction_result_witness :
    (database.WithTransactionResult (0 : Nat) sample.envThirdCallFails
        (fun tx => ((7, none), tx))
        { sample.world with
          calls := [Call.SelectBookByID sample.idA, Call.SelectBookByID sample.idA] } =
      ((0, some (Error.driver "connection reset")),
       { sample.world with
         calls := [Call.SelectBookByID sample.idA, Call.SelectBookByID sample.idA] ++
           [Call.BeginTxx] }))
      ∧
      database.WithTransactionResult (0 : Nat) sample.env
        (fun tx => ((7, none), tx)) sample.world =
      ((7, none), { sample.world with calls := [Call.BeginTxx, Call.Commit, Call.Rollback] }) :=
  ⟨(C17_with_transaction_result (0 : Nat) sample.envThirdCallFails
      (fun tx => ((7, none), tx))
      { sample.world with
        calls := [Call.SelectBookByID sample.idA, Call.SelectBookByID sample.idA] }).1
      (Error.driver "connection reset") (by decide),
   (C17_with_transaction_result (0 : Nat) sample.env (fun tx => ((7, none), tx))
      sample.world).2.2.2.1 (by decide) 7 _ rfl (by decide)⟩

/-- C18: when begin succeeds and fn fails with error e, WithTransaction returns
exactly e whatever the rollback answers: in any two environments (they may
differ in the outcome of the rollback) the returned error is e, Rollback is the
call made after those of fn, the tables are those at begin, and the two worlds
differ at most in the log, which holds the error of the rollback when there is
one other than ErrTxDone. -/
theorem C18_rollback_never_masks (env1 env2 : Env) (fn1 fn2 : World → Option Error × World)
    (w tx1 : World) (e : Error)
    (hb1 : env1.fault w.calls.length = none) (hb2 : env2.fault w.calls.length = none)
    (hf1 : fn1 { w with calls := w.calls ++ [Call.BeginTxx] } = (some e, tx1))
    (hf2 : fn2 { w with calls := w.calls ++ [Call.BeginTxx] } = (some e, tx1)) :
    (database.WithTransaction env1 fn1 w).1 = some e ∧
      (database.WithTransaction env2 fn2 w).1 = some e ∧
      (database.WithTransaction env1 fn1 w).2.calls = tx1.calls ++ [Call.Rollback] ∧
      (database.WithTransaction env1 fn1 w).2.tables = w.tables ∧
      { (database.WithTransaction env1 fn1 w).2 with logged := [] } =
        { (database.WithTransaction env2 fn2 w).2 with logged := [] } ∧
      (database.WithTransaction env1 fn1 w).2.logged = tx1.logged ++
        (match env1.fault tx1.calls.length with
          | some rErr => if errorsIs rErr Error.ErrTxDone then [] else [rErr]
          | none => []) := by
  have e1 : database.WithTransaction env1 fn1 w =
      (some e, database.deferredRollback env1 w.tables false tx1) := by
    simp [database.WithTransaction, database.withTransactionInternal, issue, hb1, hf1]
  have e2 : database.WithTransaction env2 fn2 w =
      (some e, database.deferredRollback env2 w.tables false tx1) := by
    simp [database.WithTransaction, database.withTransactionInternal, issue, hb2, hf2]
  rw [e1, e2]
  have h1 := deferredRollback_tables env1 w.tables tx1
  refine ⟨rfl, rfl, h1.2, h1.1, ?_, ?_⟩
  · simp only [database.deferredRollback, Bool.false_eq_true, if_false]
    cases env1.fault tx1.calls.length with
    | none =>
      cases env2.fault tx1.calls.length with
      | none => rfl
      | some r2 => dsimp only; split <;> rfl
    | some r1 =>
      cases env2.fault tx1.calls.length with
      | none => dsimp only; split <;> rfl
      | some r2 => dsimp only; split <;> split <;> rfl
  · simp only [database.deferredRollback, Bool.false_eq_true, if_false]
    cases env1.fault tx1.calls.length with
    | none => simp
    | some r1 => dsimp only; split <;> simp [*]

/-- C18 at the sample store, for a block that fails at once: the rollback is the
second storage call; in one environment it fails with a driver error, in one it
is answered with ErrTxDone, in one it succeeds.  The three runs return the
error of the block and differ in nothing but the log, which holds the driver
error of the failed rollback. -/
theorem C18_rollback_never_masks_witness :
    sample.envSecondCallFails.fault 1 = some (Error.driver "connection reset") ∧
      sample.envSecondCallTxDone.fault 1 = some Error.ErrTxDone ∧
      sample.env.fault 1 = none ∧
      (database.WithTransaction sample.envSecondCallFails sample.failingBlock sample.world).1 =
        some Error.ErrNotFound ∧
      (database.WithTransaction sample.envSecondCallTxDone sample.failingBlock sample.world).1 =
        some Error.ErrNotFound ∧
      (database.WithTransaction sample.env sample.failingBlock sample.world).1 =
        some Error.ErrNotFound ∧
      (database.WithTransaction sample.envSecondCallFails sample.failingBlock
          sample.world).2.calls = [Call.BeginTxx, Call.Rollback] ∧
      (database.WithTransaction sample.envSecondCallFails sample.failingBlock
          sample.world).2.logged = [Error.driver "connection reset"] ∧
      (database.WithTransaction sample.envSecondCallTxDone sample.failingBlock
          sample.world).2.logged = [] ∧
      (database.WithTransaction sample.env sample.failingBlock sample.world).2.logged = [] ∧
      { (database.WithTransaction sample.envSecondCallFails sample.failingBlock
          sample.world).2 with logged := [] } =
        { (database.WithTransaction sample.env sample.failingBlock sample.world).2 with
          logged := [] } ∧
      { (database.WithTransaction sample.envSecondCallTxDone sample.failingBlock
          sample.world).2 with logged := [] } =
        { (database.WithTransaction sample.env sample.failingBlock sample.world).2 with
          logged := [] } := by
  have h1 := C18_rollback_never_masks sample.envSecondCallFails sample.env
    sample.failingBlock sample.failingBlock sample.world
    { sample.world with calls := [Call.BeginTxx] } Error.ErrNotFound
    (by decide) (by decide) rfl rfl
  have h2 := C18_rollback_never_masks sample.envSecondCallTxDone sample.env
    sample.failingBlock sample.failingBlock sample.world
    { sample.world with calls := [Call.BeginTxx] } Error.ErrNotFound
    (by decide) (by decide) rfl rfl
  have h3 := C18_rollback_never_masks sample.env sample.envSecondCallFails
    sample.failingBlock sample.failingBlock sample.world
    { sample.world with calls := [Call.BeginTxx] } Error.ErrNotFound
    (by decide) (by decide) rfl rfl
  refine ⟨by decide, by decide, by decide, h1.1, h2.1, h1.2.1, h1.2.2.1, ?_, ?_, ?_,
    h1.2.2.2.2.1, h2.2.2.2.2.1⟩
  · rw [h1.2.2.2.2.2]
    decide
  · rw [h2.2.2.2.2.2]
    decide
  · rw [h3.2.2.2.2.2]
    decide

end claims_wrapper

section claims_one_ending

open utils models storage

/-- C19, as stated, fails: in the transaction of a checkout that succeeds, begin
succeeds and the calls made on the handle hold two calls that are Commit or
Rollback, the Commit and the deferred Rollback after it. -/
theorem C19_counterexample_commit_then_rollback :
    sample.env.fault sample.world.calls.length = none ∧
      (database.WithTransaction sample.env
        (services.statusChangeBlock sample.env sample.idA BookStatusCheckedOut 100)
        sample.world).2.calls =
        [Call.BeginTxx, Call.UpdateBookStatus BookStatusCheckedOut 100 sample.idA,
         Call.InsertStatusChange sample.idA BookStatusCheckedOut 100,
         Call.Commit, Call.Rollback] ∧
      ¬ commitOrRollback (database.WithTransaction sample.env
        (services.statusChangeBlock sample.env sample.idA BookStatusCheckedOut 100)
        sample.world).2.calls = 1 := by
  decide

/-- C19, amended: in every invocation of WithTransaction in which begin
succeeds, the wrapper ends with exactly one Rollback, the deferred one, and
calls Commit before it exactly when fn returned no error.  When fn fails the
calls it adds after those of fn are Rollback alone, one call, and the tables go
back to those at begin.  When fn succeeds they are Commit and then Rollback, two
calls, of which the Rollback finds the transaction done and changes nothing: the
tables are those fn left if the commit succeeded and those at begin if it
failed, and nothing is written to the log. -/
theorem C19_one_rollback_after_optional_commit (env : Env)
    (fn : World → Option Error × World) (w : World)
    (hbegin : env.fault w.calls.length = none) :
    (∀ e tx1, fn { w with calls := w.calls ++ [Call.BeginTxx] } = (some e, tx1) →
        (database.WithTransaction env fn w).2.calls = tx1.calls ++ [Call.Rollback] ∧
        commitOrRollback [Call.Rollback] = 1 ∧
        (database.WithTransaction env fn w).2.tables = w.tables) ∧
      (∀ tx1, fn { w with calls := w.calls ++ [Call.BeginTxx] } = (none, tx1) →
        (database.WithTransaction env fn w).2.calls =
          tx1.calls ++ [Call.Commit, Call.Rollback] ∧
        commitOrRollback [Call.Commit, Call.Rollback] = 2 ∧
        (database.WithTransaction env fn w).2.tables =
          (if env.fault tx1.calls.length = none then tx1.tables else w.tables) ∧
        (database.WithTransaction env fn w).2.logged = tx1.logged) := by
  refine ⟨?_, ?_⟩
  · intro e tx1 hfn
    have hr := deferredRollback_tables env w.tables tx1
    have e1 : database.WithTransaction env fn w =
        (some e, database.deferredRollback env w.tables false tx1) := by
      simp [database.WithTransaction, database.withTransactionInternal, issue, hbegin, hfn]
    rw [e1]
    exact ⟨hr.2, by decide, hr.1⟩
  · intro tx1 hfn
    refine ⟨?_, by decide, ?_, ?_⟩
    · cases hc : env.fault tx1.calls.length <;>
        simp [database.WithTransaction, database.withTransactionInternal, issue, hbegin, hfn, hc,
          database.deferredRollback, errorsIs]
    · cases hc : env.fault tx1.calls.length <;>
        simp [database.WithTransaction, database.withTransactionInternal, issue, hbegin, hfn, hc,
          database.deferredRollback, errorsIs]
    · cases hc : env.fault tx1.calls.length <;>
        simp [database.WithTransaction, database.withTransactionInternal, issue, hbegin, hfn, hc,
          database.deferredRollback, errorsIs]

theorem C19_one_rollback_after_optional_commit_witness :
    ((database.WithTransaction sample.env (fun tx => (some Error.ErrNotFound, tx))
          sample.world).2.calls =
        { sample.world with calls := [Call.BeginTxx] }.calls ++ [Call.Rollback] ∧
      commitOrRollback [Call.Rollback] = 1 ∧
      (database.WithTransaction sample.env (fun tx => (some Error.ErrNotFound, tx))
          sample.world).2.tables = sample.world.tables) ∧
    ((database.WithTransaction sample.env (fun tx => (none, tx)) sample.world).2.calls =
        { sample.world with calls := [Call.BeginTxx] }.calls ++ [Call.Commit, Call.Rollback] ∧
      commitOrRollback [Call.Commit, Call.Rollback] = 2 ∧
      (database.WithTransaction sample.env (fun tx => (none, tx)) sample.world).2.tables =
        (if sample.env.fault { sample.world with calls := [Call.BeginTxx] }.calls.length = none
          then { sample.world with calls := [Call.BeginTxx] }.tables
          else sample.world.tables) ∧
      (database.WithTransaction sample.env (fun tx => (none, tx)) sample.world).2.logged =
        { sample.world with calls := [Call.BeginTxx] }.logged) :=
  ⟨(C19_one_rollback_after_optional_commit sample.env (fun tx => (some Error.ErrNotFound, tx))
      sample.world (by decide)).1 Error.ErrNotFound _ rfl,
   (C19_one_rollback_after_optional_commit sample.env (fun tx => (none, tx))
      sample.world (by decide)).2 _ rfl⟩

end claims_one_ending

/-! ## float64 rounding -/

section float_lemmas

open float64

theorem roundHalfEven_int (z : Int) : roundHalfEven (z : ℚ) = z := by
  unfold roundHalfEven
  simp

theorem roundHalfEven_bounds (m : ℚ) :
    ⌊m⌋ ≤ roundHalfEven m ∧ roundHalfEven m ≤ ⌊m⌋ + 1 := by
  unfold roundHalfEven
  split_ifs <;> constructor <;> omega

theorem roundHalfEven_up (m : ℚ) (h : 1 / 2 < m - ⌊m⌋) : roundHalfEven m = ⌊m⌋ + 1 := by
  unfold roundHalfEven
  have h1 : ¬ (m - ⌊m⌋ < 1 / 2) := not_lt.2 (le_of_lt h)
  rw [if_neg h1, if_pos h]

/-- The scale of a positive rational: the quotient by it lies between 2^52 and 2^53. -/
theorem scale_bounds (x : ℚ) (hx : 0 < x) :
    (2 : ℚ) ^ (52 : ℤ) ≤ x / 2 ^ (Int.log 2 x - 52) ∧
      x / 2 ^ (Int.log 2 x - 52) < 2 ^ (53 : ℤ) := by
  have h2 : (0 : ℚ) < 2 := by norm_num
  have hpos : (0 : ℚ) < 2 ^ (Int.log 2 x - 52) := zpow_pos h2 _
  have hlo := Int.zpow_log_le_self (b := 2) (by norm_num) hx
  have hhi := Int.lt_zpow_succ_log_self (b := 2) (by norm_num) x
  simp only [Nat.cast_ofNat] at hlo hhi
  constructor
  · rw [le_div_iff₀ hpos, ← zpow_add₀ (by norm_num : (2 : ℚ) ≠ 0)]
    simpa using hlo
  · rw [div_lt_iff₀ hpos, ← zpow_add₀ (by norm_num : (2 : ℚ) ≠ 0)]
    have : (53 : ℤ) + (Int.log 2 x - 52) = Int.log 2 x + 1 := by ring
    rw [this]
    exact hhi

end float_lemmas

section float_lemmas2

open float64

theorem nearest_pos_eq (x : ℚ) (hx : 0 < x) :
    nearest x = roundHalfEven (x / 2 ^ (Int.log 2 x - 52)) * 2 ^ (Int.log 2 x - 52) := by
  unfold nearest
  rw [if_neg (ne_of_gt hx), abs_of_pos hx]

/-- A positive rational below 2^53 that lies strictly between two consecutive
integers, and further from the lower one than its 2^-53 part, rounds to a
float64 above the lower integer and not above the upper one. -/
theorem nearest_between (x : ℚ) (k : Int) (h1 : (k : ℚ) < x) (h2 : x < k + 1)
    (hx : 0 < x) (h3 : x < 2 ^ (53 : ℤ)) (h4 : x / 2 ^ (53 : ℤ) < x - k) :
    (k : ℚ) < nearest x ∧ nearest x ≤ k + 1 := by
  have h20 : (2 : ℚ) ≠ 0 := by norm_num
  have he : Int.log 2 x < 53 := by
    have := (Int.lt_zpow_iff_log_lt (R := ℚ) (b := 2) (by norm_num) (x := 53) hx).1
    apply this
    simpa using h3
  obtain ⟨t, ht⟩ : ∃ t : ℕ, (t : ℤ) = 52 - Int.log 2 x :=
    ⟨(52 - Int.log 2 x).toNat, Int.toNat_of_nonneg (by omega)⟩
  have hu : (2 : ℚ) ^ (Int.log 2 x - 52) = ((2 : ℚ) ^ t)⁻¹ := by
    rw [← zpow_natCast, ← zpow_neg, ht]
    congr 1
    ring
  have hP : (0 : ℚ) < 2 ^ t := pow_pos (by norm_num) t
  have hm : x / 2 ^ (Int.log 2 x - 52) = x * 2 ^ t := by
    rw [hu, div_inv_eq_mul]
  have hPZ : (((2 : ℤ) ^ t : ℤ) : ℚ) = (2 : ℚ) ^ t := by push_cast; rfl
  have hlo : k * 2 ^ t ≤ ⌊x * 2 ^ t⌋ := by
    rw [Int.le_floor]
    push_cast
    exact mul_le_mul_of_nonneg_right (le_of_lt h1) (le_of_lt hP)
  have hhi : ⌊x * 2 ^ t⌋ < (k + 1) * 2 ^ t := by
    rw [Int.floor_lt]
    push_cast
    exact mul_lt_mul_of_pos_right h2 hP
  have hb := roundHalfEven_bounds (x * 2 ^ t)
  have hlog := Int.zpow_log_le_self (R := ℚ) (b := 2) (by norm_num) hx
  simp only [Nat.cast_ofNat] at hlog
  have hstrict : k * 2 ^ t < roundHalfEven (x * 2 ^ t) := by
    rcases lt_or_eq_of_le hlo with hlt | heq
    · exact lt_of_lt_of_le hlt hb.1
    · have hfr : 1 / 2 < x * 2 ^ t - ⌊x * 2 ^ t⌋ := by
        rw [← heq]
        push_cast
        have e1 : x * 2 ^ t - (k : ℚ) * 2 ^ t = (x - k) * 2 ^ t := by ring
        rw [e1]
        have e2 : (2 : ℚ) ^ (Int.log 2 x) * 2 ^ t = 2 ^ (52 : ℤ) := by
          rw [← zpow_natCast, ← zpow_add₀ h20, ht]
          congr 1
          ring
        have e3 : x / 2 ^ (53 : ℤ) * 2 ^ t < (x - k) * 2 ^ t :=
          mul_lt_mul_of_pos_right h4 hP
        have e4 : (2 : ℚ) ^ (Int.log 2 x) / 2 ^ (53 : ℤ) * 2 ^ t ≤ x / 2 ^ (53 : ℤ) * 2 ^ t := by
          apply mul_le_mul_of_nonneg_right _ (le_of_lt hP)
          exact div_le_div_of_nonneg_right hlog (by positivity)
        have e5 : (2 : ℚ) ^ (Int.log 2 x) / 2 ^ (53 : ℤ) * 2 ^ t = 1 / 2 := by
          rw [div_mul_eq_mul_div, e2]
          norm_num
        linarith
      rw [roundHalfEven_up _ hfr, ← heq]
      omega
  rw [nearest_pos_eq x hx, hm, hu]
  have hlow : ((k * 2 ^ t : ℤ) : ℚ) < (roundHalfEven (x * 2 ^ t) : ℚ) := by exact_mod_cast hstrict
  have hupp : (roundHalfEven (x * 2 ^ t) : ℚ) ≤ (((k + 1) * 2 ^ t : ℤ) : ℚ) := by
    have : roundHalfEven (x * 2 ^ t) ≤ (k + 1) * 2 ^ t := by omega
    exact_mod_cast this
  push_cast at hlow hupp
  constructor
  · rw [← div_eq_mul_inv, lt_div_iff₀ hP]
    exact hlow
  · rw [← div_eq_mul_inv, div_le_iff₀ hP]
    exact hupp

/-- A positive integer below 2^53 is a float64. -/
theorem nearest_int (n : Int) (h0 : 0 < n) (h1 : n < 2 ^ 53) : nearest (n : ℚ) = n := by
  have h20 : (2 : ℚ) ≠ 0 := by norm_num
  have hx : (0 : ℚ) < n := by exact_mod_cast h0
  have h3 : (n : ℚ) < 2 ^ (53 : ℤ) := by
    have : ((n : ℤ) : ℚ) < ((2 ^ 53 : ℤ) : ℚ) := by exact_mod_cast h1
    norm_num at this ⊢
    exact this
  have he : Int.log 2 (n : ℚ) < 53 := by
    have := (Int.lt_zpow_iff_log_lt (R := ℚ) (b := 2) (by norm_num) (x := 53) hx).1
    apply this
    simpa using h3
  obtain ⟨t, ht⟩ : ∃ t : ℕ, (t : ℤ) = 52 - Int.log 2 (n : ℚ) :=
    ⟨(52 - Int.log 2 (n : ℚ)).toNat, Int.toNat_of_nonneg (by omega)⟩
  have hu : (2 : ℚ) ^ (Int.log 2 (n : ℚ) - 52) = ((2 : ℚ) ^ t)⁻¹ := by
    rw [← zpow_natCast, ← zpow_neg, ht]
    congr 1
    ring
  have hP : (0 : ℚ) < 2 ^ t := pow_pos (by norm_num) t
  rw [nearest_pos_eq _ hx, hu, div_inv_eq_mul]
  have hz : (n : ℚ) * 2 ^ t = ((n * 2 ^ t : ℤ) : ℚ) := by push_cast; rfl
  rw [hz, roundHalfEven_int]
  push_cast
  field_simp

theorem nearest_zero : nearest 0 = 0 := by
  unfold nearest
  simp

/-- An integer of at least 2^53 rounds to a float64 of at least 2^53. -/
theorem nearest_large (s : Int) (h : 2 ^ 53 ≤ s) : (2 : ℚ) ^ (53 : ℤ) ≤ nearest (s : ℚ) := by
  have h20 : (2 : ℚ) ≠ 0 := by norm_num
  have hs : (2 : ℚ) ^ (53 : ℤ) ≤ (s : ℚ) := by
    have : ((2 ^ 53 : ℤ) : ℚ) ≤ ((s : ℤ) : ℚ) := by exact_mod_cast h
    norm_num at this ⊢
    exact this
  have hx : (0 : ℚ) < s := lt_of_lt_of_le (by positivity) hs
  have he : 53 ≤ Int.log 2 (s : ℚ) := by
    have := (Int.zpow_le_iff_le_log (R := ℚ) (b := 2) (by norm_num) (x := 53) hx).1
    apply this
    simpa using hs
  have hsc := (scale_bounds (s : ℚ) hx).1
  have hpos : (0 : ℚ) < 2 ^ (Int.log 2 (s : ℚ) - 52) := zpow_pos (by norm_num) _
  have hfl : (2 : ℤ) ^ 52 ≤ ⌊(s : ℚ) / 2 ^ (Int.log 2 (s : ℚ) - 52)⌋ := by
    rw [Int.le_floor]
    norm_num at hsc ⊢
    exact hsc
  have hb := (roundHalfEven_bounds ((s : ℚ) / 2 ^ (Int.log 2 (s : ℚ) - 52))).1
  have hr : ((2 : ℤ) ^ 52 : ℤ) ≤ roundHalfEven ((s : ℚ) / 2 ^ (Int.log 2 (s : ℚ) - 52)) :=
    le_trans hfl hb
  have hrq : (2 : ℚ) ^ (52 : ℤ) ≤
      (roundHalfEven ((s : ℚ) / 2 ^ (Int.log 2 (s : ℚ) - 52)) : ℚ) := by
    have : (((2 : ℤ) ^ 52 : ℤ) : ℚ) ≤
        (roundHalfEven ((s : ℚ) / 2 ^ (Int.log 2 (s : ℚ) - 52)) : ℚ) := by exact_mod_cast hr
    norm_num at this ⊢
    exact this
  rw [nearest_pos_eq _ hx]
  calc (2 : ℚ) ^ (53 : ℤ) ≤ 2 ^ (Int.log 2 (s : ℚ)) :=
        zpow_le_zpow_right₀ (by norm_num) he
    _ = 2 ^ (52 : ℤ) * 2 ^ (Int.log 2 (s : ℚ) - 52) := by
        rw [← zpow_add₀ h20]; congr 1; ring
    _ ≤ _ := mul_le_mul_of_nonneg_right hrq (le_of_lt hpos)

end float_lemmas2

section float_pages

open float64

theorem toInt_ceil_finite (q : ℚ) (h0 : 0 ≤ ⌈q⌉) (h1 : ⌈q⌉ < 2 ^ 63) :
    toInt (ceil (Value.finite q)) = ⌈q⌉ := by
  have hq : (0 : ℚ) ≤ (⌈q⌉ : ℚ) := by exact_mod_cast h0
  simp only [ceil, toInt, hq, if_true, Int.floor_intCast]
  rw [if_pos]
  constructor
  · omega
  · exact h1

/-- Below 2^53 items the floating-point computation of the number of pages is
the exact quotient rounded up. -/
theorem totalPagesOf_exact (n s : Int) (hn0 : 0 < n) (hn : n < 2 ^ 53) (hs : 1 ≤ s) :
    services.totalPagesOf n s = ⌈(n : ℚ) / s⌉ := by
  have hnq : (0 : ℚ) < n := by exact_mod_cast hn0
  have hsq : (1 : ℚ) ≤ s := by exact_mod_cast hs
  have hsq0 : (0 : ℚ) < s := lt_of_lt_of_le one_pos hsq
  have hn53 : (n : ℚ) < 2 ^ (53 : ℤ) := by
    have : ((n : ℤ) : ℚ) < ((2 ^ 53 : ℤ) : ℚ) := by exact_mod_cast hn
    norm_num at this ⊢
    exact this
  have hy0 : (0 : ℚ) < (n : ℚ) / s := div_pos hnq hsq0
  have hyn : (n : ℚ) / s ≤ n := div_le_self (le_of_lt hnq) hsq
  -- the exact ceiling is between 1 and n
  have hc1 : 0 < ⌈(n : ℚ) / s⌉ := Int.ceil_pos.2 hy0
  have hcn : ⌈(n : ℚ) / s⌉ ≤ n := by
    rw [Int.ceil_le]
    exact hyn
  unfold services.totalPagesOf ofInt
  rw [nearest_int n hn0 hn]
  -- the rounded ceiling
  have key : ∀ s1 : ℚ, (s1 = s ∨ ((2 : ℚ) ^ (53 : ℤ) ≤ s ∧ (2 : ℚ) ^ (53 : ℤ) ≤ s1)) →
      toInt (ceil (div (n : ℚ) s1)) = ⌈(n : ℚ) / s⌉ := by
    intro s1 hs1
    have hs10 : (0 : ℚ) < s1 := by
      rcases hs1 with h | h
      · rw [h]; exact hsq0
      · exact lt_of_lt_of_le (by positivity) h.2
    have hdiv : div (n : ℚ) s1 = Value.finite (nearest ((n : ℚ) / s1)) := by
      unfold div
      rw [if_neg (ne_of_gt hs10)]
    rw [hdiv]
    have hceil : ⌈nearest ((n : ℚ) / s1)⌉ = ⌈(n : ℚ) / s⌉ := by
      rcases hs1 with h | h
      · subst h
        rw [Int.ceil_eq_iff]
        by_cases hint : ((⌈(n : ℚ) / s⌉ : ℤ) : ℚ) = (n : ℚ) / s
        · have hnear : nearest ((n : ℚ) / s) = ((⌈(n : ℚ) / s⌉ : ℤ) : ℚ) := by
            have := nearest_int _ hc1 (lt_of_le_of_lt hcn hn)
            rw [hint] at this
            rw [this, hint]
          rw [hnear]
          constructor
          · linarith
          · exact le_refl _
        · have hle : (n : ℚ) / s ≤ ⌈(n : ℚ) / s⌉ := Int.le_ceil _
          have hlt : (n : ℚ) / s < ⌈(n : ℚ) / s⌉ := lt_of_le_of_ne hle (Ne.symm hint)
          have hgt : ((⌈(n : ℚ) / s⌉ : ℤ) : ℚ) - 1 < (n : ℚ) / s := by
            have := Int.ceil_lt_add_one ((n : ℚ) / s)
            linarith
          -- the distance to the integer below is at least 1 / s
          have hks : (⌈(n : ℚ) / s⌉ - 1) * s < n := by
            have h1 : (((⌈(n : ℚ) / s⌉ - 1) * s : ℤ) : ℚ) < (n : ℚ) := by
              push_cast
              exact (lt_div_iff₀ hsq0).1 hgt
            exact_mod_cast h1
          have hks1 : (⌈(n : ℚ) / s⌉ - 1) * s + 1 ≤ n := by omega
          have hdist : 1 / (s : ℚ) ≤ (n : ℚ) / s - (⌈(n : ℚ) / s⌉ - 1) := by
            have h2 : (((⌈(n : ℚ) / (s : ℚ)⌉ - 1) * s + 1 : ℤ) : ℚ) ≤ (n : ℚ) := by
              exact_mod_cast hks1
            push_cast at h2
            rw [div_sub' _ _ _ (ne_of_gt hsq0), div_le_div_iff_of_pos_right hsq0]
            linarith
          have hsmall : (n : ℚ) / s / 2 ^ (53 : ℤ) < 1 / (s : ℚ) := by
            rw [div_div, div_lt_div_iff₀ (by positivity) hsq0]
            have : (n : ℚ) * s < 2 ^ (53 : ℤ) * s := mul_lt_mul_of_pos_right hn53 hsq0
            linarith
          have hb := nearest_between ((n : ℚ) / s) (⌈(n : ℚ) / s⌉ - 1)
            (by push_cast; exact hgt) (by push_cast; linarith)
            hy0 (lt_of_le_of_lt hyn hn53)
            (by push_cast; linarith)
          push_cast at hb
          constructor
          · exact hb.1
          · linarith [hb.2]
      · have hns1 : (n : ℚ) / s1 < 1 := by
          rw [div_lt_one hs10]
          exact lt_of_lt_of_le hn53 h.2
        have hns : (n : ℚ) / s < 1 := by
          rw [div_lt_one hsq0]
          exact lt_of_lt_of_le hn53 h.1
        have hy10 : (0 : ℚ) < (n : ℚ) / s1 := div_pos hnq hs10
        have hb := nearest_between ((n : ℚ) / s1) 0 (by simpa using hy10) (by simpa using hns1)
          hy10 (lt_trans hns1 (by norm_num))
          (by
            simp only [Int.cast_zero, sub_zero]
            exact div_lt_self hy10 (by norm_num))
        have e1 : ⌈nearest ((n : ℚ) / s1)⌉ = 1 := by
          rw [Int.ceil_eq_iff]
          simp only [Int.cast_zero, zero_add, Int.cast_one, sub_self] at hb ⊢
          exact hb
        have e2 : ⌈(n : ℚ) / s⌉ = 1 := by
          rw [Int.ceil_eq_iff]
          simp only [Int.cast_one, sub_self]
          exact ⟨hy0, le_of_lt hns⟩
        rw [e1, e2]
    rw [toInt_ceil_finite _ (by rw [hceil]; omega) (by rw [hceil]; omega), hceil]
  apply key
  rcases lt_or_le s (2 ^ 53) with h | h
  · left
    exact nearest_int s (by omega) h
  · right
    have hs53 : (2 : ℚ) ^ (53 : ℤ) ≤ s := by
      have : ((2 ^ 53 : ℤ) : ℚ) ≤ ((s : ℤ) : ℚ) := by exact_mod_cast h
      norm_num at this ⊢
      exact this
    exact ⟨hs53, nearest_large s h⟩

theorem totalPagesOf_zero (s : Int) (hs : 1 ≤ s) : services.totalPagesOf 0 s = 0 := by
  have hsq : (1 : ℚ) ≤ s := by exact_mod_cast hs
  have hs1 : nearest (s : ℚ) ≠ 0 := by
    rcases lt_or_le s (2 ^ 53) with h | h
    · rw [nearest_int s (by omega) h]
      exact ne_of_gt (lt_of_lt_of_le one_pos hsq)
    · exact ne_of_gt (lt_of_lt_of_le (by positivity) (nearest_large s h))
  unfold services.totalPagesOf ofInt div
  simp [nearest_zero, hs1, ceil, toInt]

end float_pages

section float_counterexample

open float64

theorem log_two_eq (x : ℚ) (e : Int) (hx : 0 < x) (hlo : (2 : ℚ) ^ e ≤ x)
    (hhi : x < (2 : ℚ) ^ (e + 1)) : Int.log 2 x = e := by
  have h1 : e ≤ Int.log 2 x := by
    apply (Int.zpow_le_iff_le_log (R := ℚ) (b := 2) (by norm_num) (x := e) hx).1
    simpa using hlo
  have h2 : Int.log 2 x < e + 1 := by
    apply (Int.lt_zpow_iff_log_lt (R := ℚ) (b := 2) (by norm_num) (x := e + 1) hx).1
    simpa using hhi
  omega

theorem nearest_two_pow_53_add_one : nearest (((2 ^ 53 + 1 : ℤ) : ℚ)) = 2 ^ 53 := by
  have hx : (0 : ℚ) < ((2 ^ 53 + 1 : ℤ) : ℚ) := by norm_num
  have hlog : Int.log 2 (((2 ^ 53 + 1 : ℤ) : ℚ)) = 53 :=
    log_two_eq _ 53 hx (by norm_num) (by norm_num)
  rw [nearest_pos_eq _ hx, hlog]
  have hfloor : ⌊(((2 ^ 53 + 1 : ℤ) : ℚ)) / 2 ^ ((53 : ℤ) - 52)⌋ = 2 ^ 52 := by
    rw [Int.floor_eq_iff]
    constructor <;> norm_num
  have hr : roundHalfEven ((((2 ^ 53 + 1 : ℤ) : ℚ)) / 2 ^ ((53 : ℤ) - 52)) = 2 ^ 52 := by
    unfold roundHalfEven
    rw [hfloor]
    norm_num
  rw [hr]
  norm_num

theorem nearest_two_pow_53 : nearest ((2 : ℚ) ^ 53) = 2 ^ 53 := by
  have hx : (0 : ℚ) < (2 : ℚ) ^ 53 := by norm_num
  have hlog : Int.log 2 ((2 : ℚ) ^ 53) = 53 :=
    log_two_eq _ 53 hx (by norm_num) (by norm_num)
  rw [nearest_pos_eq _ hx, hlog]
  have hr : roundHalfEven ((2 : ℚ) ^ 53 / 2 ^ ((53 : ℤ) - 52)) = 2 ^ 52 := by
    have : (2 : ℚ) ^ 53 / 2 ^ ((53 : ℤ) - 52) = ((2 ^ 52 : ℤ) : ℚ) := by norm_num
    rw [this, roundHalfEven_int]
  rw [hr]
  norm_num

/-- With 2^53 + 1 items and pages of one item the floating-point computation
gives 2^53 pages. -/
theorem totalPagesOf_two_pow_53_add_one : services.totalPagesOf (2 ^ 53 + 1) 1 = 2 ^ 53 := by
  unfold services.totalPagesOf ofInt
  rw [nearest_two_pow_53_add_one]
  have h1 : nearest ((1 : ℤ) : ℚ) = 1 := by
    have := nearest_int 1 (by norm_num) (by norm_num)
    simpa using this
  rw [h1]
  unfold div
  rw [if_neg one_ne_zero, div_one, nearest_two_pow_53]
  have hc : ⌈((2 : ℚ) ^ 53)⌉ = 2 ^ 53 := by
    rw [Int.ceil_eq_iff]
    constructor <;> norm_num
  rw [toInt_ceil_finite _ (by rw [hc]; norm_num) (by rw [hc]; norm_num), hc]

end float_counterexample

section claims_pages

open utils models storage

theorem listBooksResponse_pages (req : ListBooksRequest) (books : List Book) (n : Int) :
    (services.listBooksResponse req books n).TotalPages =
      (if services.totalPagesOf n req.PageSize = 0 then 1
       else services.totalPagesOf n req.PageSize) := by
  unfold services.listBooksResponse
  dsimp only
  split <;> rfl

/-- C20, as stated, fails: for a count of 2^53 + 1 items and a page size of 1
the response reports 2^53 pages, one less than the count divided by the page
size and rounded up, because float64 cannot hold 2^53 + 1. -/
theorem C20_counterexample_count_above_two_pow_53 :
    (0 : Int) < 2 ^ 53 + 1 ∧ (1 : Int) ≤ ({ sample.query with PageSize := 1 }).PageSize ∧
      (services.listBooksResponse { sample.query with PageSize := 1 } []
        (2 ^ 53 + 1)).TotalPages = 2 ^ 53 ∧
      ⌈(((2 ^ 53 + 1 : ℤ) : ℚ)) / (((1 : ℤ)) : ℚ)⌉ = 2 ^ 53 + 1 ∧
      (services.listBooksResponse { sample.query with PageSize := 1 } []
        (2 ^ 53 + 1)).TotalPages ≠ ⌈(((2 ^ 53 + 1 : ℤ) : ℚ)) / (((1 : ℤ)) : ℚ)⌉ := by
  have hp : (services.listBooksResponse { sample.query with PageSize := 1 } []
      (2 ^ 53 + 1)).TotalPages = 2 ^ 53 := by
    rw [listBooksResponse_pages]
    show (if services.totalPagesOf (2 ^ 53 + 1) 1 = 0 then 1
       else services.totalPagesOf (2 ^ 53 + 1) 1) = 2 ^ 53
    rw [totalPagesOf_two_pow_53_add_one, if_neg (pow_ne_zero 53 (by norm_num))]
  have hc : ⌈(((2 ^ 53 + 1 : ℤ) : ℚ)) / (((1 : ℤ)) : ℚ)⌉ = 2 ^ 53 + 1 := by
    rw [Int.ceil_eq_iff]
    constructor <;> norm_num
  refine ⟨by positivity, by decide, hp, hc, ?_⟩
  rw [hp, hc]
  exact ne_of_lt (lt_add_one _)

/-- C20, amended: for a count n of items with 0 <= n < 2^53 and a page size s
of at least 1, the response service ListBooks builds reports TotalPages = n / s
rounded up when n > 0 and TotalPages = 1 when n = 0, TotalItems = n, CurrentPage
= the page of the request and PageSize = s, and carries the books mapped one by
one; it is the response ListBooks returns when the repository answers without
error.  With n = 25 and s = 10 it reports 25 items and 3 pages. -/
theorem C20_total_pages (req : ListBooksRequest) (books : List Book) (n : Int)
    (hn0 : 0 ≤ n) (hn : n < 2 ^ 53) (hs : 1 ≤ req.PageSize) :
    (services.listBooksResponse req books n).TotalPages =
        (if n = 0 then 1 else ⌈(n : ℚ) / (req.PageSize : ℚ)⌉) ∧
      (services.listBooksResponse req books n).TotalItems = n ∧
      (services.listBooksResponse req books n).CurrentPage = req.Page ∧
      (services.listBooksResponse req books n).PageSize = req.PageSize ∧
      (services.listBooksResponse req books n).Books = ToBookResponseList books ∧
      (n = 25 → req.PageSize = 10 →
        (services.listBooksResponse req books n).TotalItems = 25 ∧
        (services.listBooksResponse req books n).TotalPages = 3) ∧
      (∀ env w w1, repositories.ListBooks env req w = ((books, n, none), w1) →
        services.ListBooks env req w =
          ((some (services.listBooksResponse req books n), none), w1)) := by
  have hpages : (services.listBooksResponse req books n).TotalPages =
      (if n = 0 then 1 else ⌈(n : ℚ) / (req.PageSize : ℚ)⌉) := by
    rw [listBooksResponse_pages]
    by_cases h0 : n = 0
    · subst h0
      rw [totalPagesOf_zero _ hs]
      simp
    · have hpos : 0 < n := by omega
      rw [totalPagesOf_exact n req.PageSize hpos hn hs, if_neg h0]
      have hq : (0 : ℚ) < (n : ℚ) / (req.PageSize : ℚ) := by
        apply div_pos
        · exact_mod_cast hpos
        · have : (1 : ℚ) ≤ (req.PageSize : ℚ) := by exact_mod_cast hs
          linarith
      have hc : ⌈(n : ℚ) / (req.PageSize : ℚ)⌉ ≠ 0 := ne_of_gt (Int.ceil_pos.2 hq)
      rw [if_neg hc]
  have hrest : (services.listBooksResponse req books n).TotalItems = n ∧
      (services.listBooksResponse req books n).CurrentPage = req.Page ∧
      (services.listBooksResponse req books n).PageSize = req.PageSize ∧
      (services.listBooksResponse req books n).Books = ToBookResponseList books := by
    unfold services.listBooksResponse
    dsimp only
    split <;> exact ⟨rfl, rfl, rfl, rfl⟩
  refine ⟨hpages, hrest.1, hrest.2.1, hrest.2.2.1, hrest.2.2.2, ?_, ?_⟩
  · intro h25 h10
    refine ⟨by rw [hrest.1, h25], ?_⟩
    rw [hpages, h25, h10]
    have hc : ⌈((25 : ℤ) : ℚ) / ((10 : ℤ) : ℚ)⌉ = 3 := by
      rw [Int.ceil_eq_iff]
      constructor <;> norm_num
    rw [hc]
    norm_num
  · intro env w w1 h
    simp only [services.ListBooks, h]

theorem C20_total_pages_witness :
    (services.listBooksResponse { sample.query with Page := 2 } [sample.bookA] 25).TotalItems
        = 25 ∧
      (services.listBooksResponse { sample.query with Page := 2 } [sample.bookA] 25).TotalPages
        = 3 :=
  (C20_total_pages { sample.query with Page := 2 } [sample.bookA] 25
    (by decide) (by decide) (by decide)).2.2.2.2.2.1 rfl rfl

end claims_pages

/-! ## The queries of repository ListBooks -/

section list_queries

open utils models storage repositories

/-- The storage calls ListBooks makes: the count query, and after a count that
succeeded the data query, both with the clause and the arguments of
listConditions. -/
theorem ListBooks_calls (env : Env) (req : ListBooksRequest) (w : World) :
    (ListBooks env req w).2.calls = w.calls ++
      if env.fault w.calls.length = none then
        [Call.CountBooks (whereClause (listConditions req).1) (listConditions req).2,
         Call.SelectBooks (whereClause (listConditions req).1) (sanitizeSortBy req.SortBy)
           (sanitizeSortOrder req.SortOrder) req.PageSize
           (wrapInt64 (wrapInt64 (req.Page - 1) * req.PageSize)) (listConditions req).2]
      else [Call.CountBooks (whereClause (listConditions req).1) (listConditions req).2] := by
  unfold ListBooks
  dsimp only [issue]
  cases hf : env.fault w.calls.length with
  | some e => simp
  | none =>
    dsimp only
    cases hf2 : env.fault (w.calls ++
        [Call.CountBooks (whereClause (listConditions req).1) (listConditions req).2]).length with
    | some e => simp
    | none =>
      dsimp only
      cases limitOffset req.PageSize (wrapInt64 (wrapInt64 (req.Page - 1) * req.PageSize))
          (orderBy (sanitizeSortBy req.SortBy) (sanitizeSortOrder req.SortOrder)
            (w.tables.books.filter
              (evalWhere (listConditions req).1 (listConditions req).2))) with
      | error e => simp
      | ok books => simp

/-- The condition texts and the arguments of ListBooks, filter by filter. -/
theorem listConditions_eq (req : ListBooksRequest) :
    (listConditions req).1.map Cond.sql =
        (if req.ISBN ≠ "" then ["isbn ILIKE ?"] else []) ++
        (if req.Title ≠ "" then ["title ILIKE ?"] else []) ++
        (if req.Author ≠ "" then ["author ILIKE ?"] else []) ++
        (if req.Status ≠ "" then ["status = ?"] else []) ++
        (if req.Text ≠ "" then ["(title ILIKE ? OR description ILIKE ?)"] else []) ++
        ["deleted = false"] ∧
      (listConditions req).2 =
        (if req.ISBN ≠ "" then ["%" ++ req.ISBN ++ "%"] else []) ++
        (if req.Title ≠ "" then ["%" ++ req.Title ++ "%"] else []) ++
        (if req.Author ≠ "" then ["%" ++ req.Author ++ "%"] else []) ++
        (if req.Status ≠ "" then [req.Status] else []) ++
        (if req.Text ≠ "" then ["%" ++ req.Text ++ "%", "%" ++ req.Text ++ "%"] else []) := by
  unfold listConditions
  by_cases h1 : req.ISBN = "" <;> by_cases h2 : req.Title = "" <;>
    by_cases h3 : req.Author = "" <;> by_cases h4 : req.Status = "" <;>
    by_cases h5 : req.Text = "" <;> simp [h1, h2, h3, h4, h5, Cond.sql]

end list_queries

section list_queries_more

open utils models storage repositories

/-- The clause of ListBooks has as many placeholders as there are arguments, at
most six. -/
theorem whereClause_placeholders (req : ListBooksRequest) :
    placeholders (whereClause (listConditions req).1) = (listConditions req).2.length ∧
      (listConditions req).2.length ≤ 6 := by
  unfold listConditions
  by_cases h1 : req.ISBN = "" <;> by_cases h2 : req.Title = "" <;>
    by_cases h3 : req.Author = "" <;> by_cases h4 : req.Status = "" <;>
    by_cases h5 : req.Text = "" <;>
    simp only [h1, h2, h3, h4, h5, ne_eq, not_true_eq_false, not_false_eq_true, if_true, if_false,
      List.nil_append, List.cons_append, List.length_cons, List.length_nil] <;>
    exact ⟨by decide, by decide⟩

theorem sanitizeSortBy_placeholders (s : String) : placeholders (sanitizeSortBy s) = 0 := by
  unfold sanitizeSortBy
  split_ifs with h
  · rcases h with h | h | h | h <;> subst h <;> decide
  · decide

theorem sanitizeSortOrder_placeholders (s : String) : placeholders (sanitizeSortOrder s) = 0 := by
  unfold sanitizeSortOrder
  split_ifs <;> decide

/-- The clause is never empty: the condition on the deleted flag is always
there. -/
theorem whereClause_listConditions (req : ListBooksRequest) :
    whereClause (listConditions req).1 =
      "WHERE " ++ " AND ".intercalate ((listConditions req).1.map Cond.sql) := by
  unfold whereClause
  rw [if_pos]
  have h := congrArg List.length (listConditions_eq req).1
  rw [List.length_map] at h
  rw [h]
  simp

end list_queries_more

section claims_queries

open utils models storage repositories

/-- C22: the WHERE clause of ListBooks.  The condition texts are, in this order,
the ISBN, title, author, status and free-text conditions of the filters that are
not empty, then the condition on the deleted flag; the clause is the word WHERE
and these texts joined by AND; the arguments are the filter values in the same
order, wrapped in percent signs for the pattern conditions and the free text
given twice; and the count query and the data query are issued with this one
clause and this one argument list. -/
theorem C22_where_clause (env : Env) (req : ListBooksRequest) (w : World) :
    (listConditions req).1.map Cond.sql =
        (if req.ISBN ≠ "" then ["isbn ILIKE ?"] else []) ++
        (if req.Title ≠ "" then ["title ILIKE ?"] else []) ++
        (if req.Author ≠ "" then ["author ILIKE ?"] else []) ++
        (if req.Status ≠ "" then ["status = ?"] else []) ++
        (if req.Text ≠ "" then ["(title ILIKE ? OR description ILIKE ?)"] else []) ++
        ["deleted = false"] ∧
      (listConditions req).2 =
        (if req.ISBN ≠ "" then ["%" ++ req.ISBN ++ "%"] else []) ++
        (if req.Title ≠ "" then ["%" ++ req.Title ++ "%"] else []) ++
        (if req.Author ≠ "" then ["%" ++ req.Author ++ "%"] else []) ++
        (if req.Status ≠ "" then [req.Status] else []) ++
        (if req.Text ≠ "" then ["%" ++ req.Text ++ "%", "%" ++ req.Text ++ "%"] else []) ∧
      whereClause (listConditions req).1 =
        "WHERE " ++ " AND ".intercalate ((listConditions req).1.map Cond.sql) ∧
      (ListBooks env req w).2.calls = w.calls ++
        if env.fault w.calls.length = none then
          [Call.CountBooks (whereClause (listConditions req).1) (listConditions req).2,
           Call.SelectBooks (whereClause (listConditions req).1) (sanitizeSortBy req.SortBy)
             (sanitizeSortOrder req.SortOrder) req.PageSize
             (wrapInt64 (wrapInt64 (req.Page - 1) * req.PageSize)) (listConditions req).2]
        else [Call.CountBooks (whereClause (listConditions req).1) (listConditions req).2] :=
  ⟨(listConditions_eq req).1, (listConditions_eq req).2, whereClause_listConditions req,
    ListBooks_calls env req w⟩

/-- C29: the parameterised queries of ListBooks are well-formed.  The clause
has exactly as many placeholders as the argument list has entries, between none
and six; the sort column and the direction put into the data query bring no
placeholder; and both queries are issued with this clause and this list. -/
theorem C29_placeholders_match_arguments (env : Env) (req : ListBooksRequest) (w : World) :
    placeholders (whereClause (listConditions req).1) = (listConditions req).2.length ∧
      (listConditions req).2.length ≤ 6 ∧
      placeholders (sanitizeSortBy req.SortBy) = 0 ∧
      placeholders (sanitizeSortOrder req.SortOrder) = 0 ∧
      ∀ c ∈ (ListBooks env req w).2.calls.drop w.calls.length,
        (∃ wh args, c = Call.CountBooks wh args ∧ placeholders wh = args.length) ∨
        (∃ wh sortBy sortOrder limit offset args,
          c = Call.SelectBooks wh sortBy sortOrder limit offset args ∧
            placeholders wh + placeholders sortBy + placeholders sortOrder = args.length) := by
  refine ⟨(whereClause_placeholders req).1, (whereClause_placeholders req).2,
    sanitizeSortBy_placeholders _, sanitizeSortOrder_placeholders _, ?_⟩
  intro c hc
  rw [ListBooks_calls, List.drop_left] at hc
  split_ifs at hc
  · simp only [List.mem_cons, List.mem_singleton, List.not_mem_nil, or_false] at hc
    rcases hc with hc | hc
    · exact Or.inl ⟨_, _, hc, (whereClause_placeholders req).1⟩
    · refine Or.inr ⟨_, _, _, _, _, _, hc, ?_⟩
      have h1 := (whereClause_placeholders req).1
      have h2 := sanitizeSortBy_placeholders req.SortBy
      have h3 := sanitizeSortOrder_placeholders req.SortOrder
      omega
  · simp only [List.mem_singleton] at hc
    exact Or.inl ⟨_, _, hc, (whereClause_placeholders req).1⟩

end claims_queries


/-! ## Sort column and direction -/

section upper_case

open strings

/-- The characters whose Char.toUpper is a given ASCII capital letter: the
letter and its lower-case form. -/
theorem toUpper_eq_iff (c t : Char) (ht : 65 ≤ t.toNat ∧ t.toNat ≤ 90) :
    c.toUpper = t ↔ c = t ∨ c = Char.ofNat (t.toNat + 32) := by
  have htt : t = Char.ofNat t.toNat := (Char.ofNat_toNat t).symm
  obtain ⟨h1, h2⟩ := ht
  generalize t.toNat = m at *
  subst htt
  by_cases hr : 97 ≤ c.toNat ∧ c.toNat ≤ 122
  · have hc : c = Char.ofNat c.toNat := (Char.ofNat_toNat c).symm
    obtain ⟨h3, h4⟩ := hr
    generalize c.toNat = n at *
    subst hc
    interval_cases n <;> interval_cases m <;> decide
  · have hu : c.toUpper = c := by
      unfold Char.toUpper
      exact if_neg hr
    rw [hu]
    constructor
    · exact Or.inl
    · rintro (h | h)
      · exact h
      · exfalso
        apply hr
        subst h
        interval_cases m <;> decide

theorem upperRune_D (c : Char) : upperRune c = 'D' ↔ c = 'd' ∨ c = 'D' := by
  constructor
  · intro h
    unfold upperRune at h
    split_ifs at h with h1 h2
    · exact absurd h (by decide)
    · exact absurd h (by decide)
    · rcases (toUpper_eq_iff c 'D' (by decide)).1 h with h3 | h3
      · exact Or.inr h3
      · exact Or.inl h3
  · rintro (h | h) <;> subst h <;> decide

theorem upperRune_E (c : Char) : upperRune c = 'E' ↔ c = 'e' ∨ c = 'E' := by
  constructor
  · intro h
    unfold upperRune at h
    split_ifs at h with h1 h2
    · exact absurd h (by decide)
    · exact absurd h (by decide)
    · rcases (toUpper_eq_iff c 'E' (by decide)).1 h with h3 | h3
      · exact Or.inr h3
      · exact Or.inl h3
  · rintro (h | h) <;> subst h <;> decide

theorem upperRune_C (c : Char) : upperRune c = 'C' ↔ c = 'c' ∨ c = 'C' := by
  constructor
  · intro h
    unfold upperRune at h
    split_ifs at h with h1 h2
    · exact absurd h (by decide)
    · exact absurd h (by decide)
    · rcases (toUpper_eq_iff c 'C' (by decide)).1 h with h3 | h3
      · exact Or.inr h3
      · exact Or.inl h3
  · rintro (h | h) <;> subst h <;> decide

theorem upperRune_S (c : Char) : upperRune c = 'S' ↔ c = 's' ∨ c = 'S' ∨ c = longS := by
  constructor
  · intro h
    unfold upperRune at h
    split_ifs at h with h1 h2
    · exact Or.inr (Or.inr h1)
    · exact absurd h (by decide)
    · rcases (toUpper_eq_iff c 'S' (by decide)).1 h with h3 | h3
      · exact Or.inr (Or.inl h3)
      · exact Or.inl h3
  · rintro (h | h | h) <;> subst h <;> decide

/-- The strings whose upper case is DESC: four characters, a d, an e, an s (the
long s included) and a c, each in either case. -/
theorem ToUpper_eq_DESC (s : String) :
    ToUpper s = "DESC" ↔
      ∃ c1 c2 c3 c4, s.data = [c1, c2, c3, c4] ∧ (c1 = 'd' ∨ c1 = 'D') ∧ (c2 = 'e' ∨ c2 = 'E') ∧
        (c3 = 's' ∨ c3 = 'S' ∨ c3 = longS) ∧ (c4 = 'c' ∨ c4 = 'C') := by
  have h0 : ToUpper s = "DESC" ↔ s.data.map upperRune = ['D', 'E', 'S', 'C'] := by
    unfold ToUpper
    constructor
    · intro h
      exact congrArg String.data h
    · intro h
      rw [h]
  rw [h0]
  constructor
  · intro h
    rcases hs : s.data with _ | ⟨c1, _ | ⟨c2, _ | ⟨c3, _ | ⟨c4, _ | ⟨c5, l⟩⟩⟩⟩⟩
    all_goals rw [hs] at h
    all_goals simp only [List.map_cons, List.map_nil, List.cons.injEq, and_true, and_false,
      reduceCtorEq] at h
    exact ⟨c1, c2, c3, c4, rfl, (upperRune_D c1).1 h.1, (upperRune_E c2).1 h.2.1,
      (upperRune_S c3).1 h.2.2.1, (upperRune_C c4).1 h.2.2.2⟩
  · rintro ⟨c1, c2, c3, c4, hs, h1, h2, h3, h4⟩
    rw [hs]
    simp only [List.map_cons, List.map_nil]
    rw [(upperRune_D c1).2 h1, (upperRune_E c2).2 h2, (upperRune_S c3).2 h3, (upperRune_C c4).2 h4]

end upper_case

section claims_sorting

open utils models storage repositories

/-- C23: the ORDER BY clause of ListBooks.  The column is one of isbn, title,
author and status: the requested one when it is exactly one of the four, title
otherwise.  The direction is DESC exactly when the requested order is the word
desc in any mix of upper and lower case (four characters: d, e, s and c, each in
either case; the long s, whose upper case is S, counts as an s), and ASC
otherwise.  The data query is issued with this column and this direction, so
no other text of the request reaches the clause. -/
theorem C23_order_by_clause (env : Env) (req : ListBooksRequest) (w : World) :
    sanitizeSortBy req.SortBy ∈ ["isbn", "title", "author", "status"] ∧
      sanitizeSortBy req.SortBy =
        (if req.SortBy ∈ ["isbn", "title", "author", "status"] then req.SortBy else "title") ∧
      (sanitizeSortOrder req.SortOrder = "DESC" ↔
        ∃ c1 c2 c3 c4, req.SortOrder.data = [c1, c2, c3, c4] ∧ (c1 = 'd' ∨ c1 = 'D') ∧
          (c2 = 'e' ∨ c2 = 'E') ∧ (c3 = 's' ∨ c3 = 'S' ∨ c3 = strings.longS) ∧
          (c4 = 'c' ∨ c4 = 'C')) ∧
      (sanitizeSortOrder req.SortOrder ≠ "DESC" → sanitizeSortOrder req.SortOrder = "ASC") ∧
      ∀ wh sortBy sortOrder limit offset args,
        Call.SelectBooks wh sortBy sortOrder limit offset args ∈
            (ListBooks env req w).2.calls.drop w.calls.length →
          sortBy = sanitizeSortBy req.SortBy ∧ sortOrder = sanitizeSortOrder req.SortOrder := by
  refine ⟨?_, ?_, ?_, ?_, ?_⟩
  · unfold sanitizeSortBy
    split_ifs with h
    · rcases h with h | h | h | h <;> rw [h] <;> decide
    · decide
  · unfold sanitizeSortBy
    simp only [List.mem_cons, List.mem_singleton, List.not_mem_nil, or_false]
  · rw [← ToUpper_eq_DESC]
    unfold sanitizeSortOrder
    split_ifs with h
    · exact ⟨fun _ => h, fun _ => rfl⟩
    · exact ⟨fun h1 => absurd h1 (by decide), fun h1 => absurd h1 h⟩
  · unfold sanitizeSortOrder
    split_ifs with h
    · intro h1
      exact absurd rfl h1
    · intro _
      rfl
  · intro wh sortBy sortOrder limit offset args hc
    rw [ListBooks_calls, List.drop_left] at hc
    split_ifs at hc
    · simp only [List.mem_cons, List.mem_singleton, List.not_mem_nil, or_false, reduceCtorEq,
        false_or, Call.SelectBooks.injEq] at hc
      exact ⟨hc.2.1, hc.2.2.1⟩
    · simp only [List.mem_singleton, reduceCtorEq] at hc

end claims_sorting


/-! ## The handlers -/

section handler_lemmas

open utils models storage services

/-- The request after the validation block of handler ListBooks, field by
field. -/
theorem validateListRequest_eq (req : ListBooksRequest) :
    handlers.validateListRequest req =
      { req with
        PageSize := if req.PageSize ≤ 0 then 10 else if req.PageSize > 100 then 100
                    else req.PageSize,
        SortBy := if handlers.validSortFields req.SortBy then req.SortBy else "title",
        SortOrder := if req.SortOrder = "desc" then "desc" else "asc" } := by
  obtain ⟨p, ps, sb, so, i, t, a, st, tx⟩ := req
  unfold handlers.validateListRequest handlers.defaultPageSize handlers.maxPageSize
  by_cases h1 : ps ≤ 0 <;> by_cases h2 : ps > 100 <;>
    by_cases h3 : handlers.validSortFields sb = true <;>
    by_cases h4 : so = "desc" <;>
    simp [h1, h2, h3, h4]

end handler_lemmas

section claims_handlers

open utils models storage services

/-- C26: the status code a book handler writes for what the service returned.
For each of get, update, delete, checkout, checkin, details and create, called
with a path parameter that is not empty and a body that could be bound, and for
any implementation of the service: when the service returns an error, the code
is 404 if the error is ErrNotFound or wraps it and 500 if not (so it is 404 if
and only if the error is or wraps ErrNotFound); when the service returns no
error (and, where it returns a response, a response), the code is 200, and 201
for create, and the body is not the one of handleBookError. -/
theorem C26_error_status (service : BookService) (w : World) (id : String)
    (req : BookPayload) (hid : id ≠ "") :
    ((∀ e, (service.GetBook id w).1.2 = some e →
        (handlers.GetBook service id w).1.status =
          some (if errorsIs e Error.ErrNotFound then 404 else 500)) ∧
      (∀ e, (service.UpdateBook id req.Sanitize w).1.2 = some e →
        (handlers.UpdateBook service id (some req) w).1.status =
          some (if errorsIs e Error.ErrNotFound then 404 else 500)) ∧
      (∀ e, (service.DeleteBook id w).1 = some e →
        (handlers.DeleteBook service id w).1.status =
          some (if errorsIs e Error.ErrNotFound then 404 else 500)) ∧
      (∀ e, (service.CheckoutBook id w).1 = some e →
        (handlers.CheckoutBook service id w).1.status =
          some (if errorsIs e Error.ErrNotFound then 404 else 500)) ∧
      (∀ e, (service.CheckinBook id w).1 = some e →
        (handlers.CheckinBook service id w).1.status =
          some (if errorsIs e Error.ErrNotFound then 404 else 500)) ∧
      (∀ e, (service.GetBookWithHistory id w).1.2 = some e →
        (handlers.GetBookWithHistory service id w).1.status =
          some (if errorsIs e Error.ErrNotFound then 404 else 500)) ∧
      (∀ e, (service.CreateBook req.Sanitize w).1.2 = some e →
        (handlers.CreateBook service (some req) w).1.status =
          some (if errorsIs e Error.ErrNotFound then 404 else 500))) ∧
    ((∀ res, (service.GetBook id w).1 = (some res, none) →
        (handlers.GetBook service id w).1 = handlers.Outcome.json 200 (handlers.Body.book res)) ∧
      (∀ res, (service.UpdateBook id req.Sanitize w).1 = (some res, none) →
        (handlers.UpdateBook service id (some req) w).1 =
          handlers.Outcome.json 200 (handlers.Body.book res)) ∧
      ((service.DeleteBook id w).1 = none →
        (handlers.DeleteBook service id w).1 =
          handlers.Outcome.json 200 (handlers.Body.message { Message := "Book deleted" })) ∧
      ((service.CheckoutBook id w).1 = none →
        (handlers.CheckoutBook service id w).1 =
          handlers.Outcome.json 200 (handlers.Body.message { Message := "Book checked out" })) ∧
      ((service.CheckinBook id w).1 = none →
        (handlers.CheckinBook service id w).1 =
          handlers.Outcome.json 200 (handlers.Body.message { Message := "Book checked in" })) ∧
      (∀ res, (service.GetBookWithHistory id w).1 = (res, none) →
        (handlers.GetBookWithHistory service id w).1 =
          handlers.Outcome.json 200 (handlers.Body.detail res)) ∧
      (∀ res, (service.CreateBook req.Sanitize w).1 = (some res, none) →
        (handlers.CreateBook service (some req) w).1 =
          handlers.Outcome.json 201 (handlers.Body.book res))) := by
  have hx : handlers.extractID id = .ok id := by
    unfold handlers.extractID
    rw [if_neg hid]
  have hb : ∀ (i : String) (e : Error) (a : String),
      (handlers.handleBookError i e a).status =
        some (if errorsIs e Error.ErrNotFound then 404 else 500) := by
    intro i e a
    unfold handlers.handleBookError
    split_ifs <;> rfl
  refine ⟨⟨?_, ?_, ?_, ?_, ?_, ?_, ?_⟩, ⟨?_, ?_, ?_, ?_, ?_, ?_, ?_⟩⟩
  · intro e he
    unfold handlers.GetBook
    rw [hx]
    dsimp only
    rcases hs : service.GetBook id w with ⟨⟨r, oe⟩, w1⟩
    rw [hs] at he
    dsimp only at he
    subst he
    cases r <;> dsimp only <;> exact hb id _ _
  · intro e he
    unfold handlers.UpdateBook
    rw [hx]
    dsimp only
    rcases hs : service.UpdateBook id req.Sanitize w with ⟨⟨r, oe⟩, w1⟩
    rw [hs] at he
    dsimp only at he
    subst he
    cases r <;> dsimp only <;> exact hb id _ _
  · intro e he
    unfold handlers.DeleteBook
    rw [hx]
    dsimp only
    rcases hs : service.DeleteBook id w with ⟨oe, w1⟩
    rw [hs] at he
    dsimp only at he
    subst he
    exact hb id _ _
  · intro e he
    unfold handlers.CheckoutBook
    rw [hx]
    dsimp only
    rcases hs : service.CheckoutBook id w with ⟨oe, w1⟩
    rw [hs] at he
    dsimp only at he
    subst he
    exact hb id _ _
  · intro e he
    unfold handlers.CheckinBook
    rw [hx]
    dsimp only
    rcases hs : service.CheckinBook id w with ⟨oe, w1⟩
    rw [hs] at he
    dsimp only at he
    subst he
    exact hb id _ _
  · intro e he
    unfold handlers.GetBookWithHistory
    rw [hx]
    dsimp only
    rcases hs : service.GetBookWithHistory id w with ⟨⟨r, oe⟩, w1⟩
    rw [hs] at he
    dsimp only at he
    subst he
    exact hb id _ _
  · intro e he
    unfold handlers.CreateBook
    dsimp only
    rcases hs : service.CreateBook req.Sanitize w with ⟨⟨r, oe⟩, w1⟩
    rw [hs] at he
    dsimp only at he
    subst he
    cases r <;> dsimp only <;> exact hb id _ _
  · intro res he
    unfold handlers.GetBook
    rw [hx]
    dsimp only
    rcases hs : service.GetBook id w with ⟨⟨r, oe⟩, w1⟩
    rw [hs] at he
    cases he
    rfl
  · intro res he
    unfold handlers.UpdateBook
    rw [hx]
    dsimp only
    rcases hs : service.UpdateBook id req.Sanitize w with ⟨⟨r, oe⟩, w1⟩
    rw [hs] at he
    cases he
    rfl
  · intro he
    unfold handlers.DeleteBook
    rw [hx]
    dsimp only
    rcases hs : service.DeleteBook id w with ⟨oe, w1⟩
    rw [hs] at he
    cases he
    rfl
  · intro he
    unfold handlers.CheckoutBook
    rw [hx]
    dsimp only
    rcases hs : service.CheckoutBook id w with ⟨oe, w1⟩
    rw [hs] at he
    cases he
    rfl
  · intro he
    unfold handlers.CheckinBook
    rw [hx]
    dsimp only
    rcases hs : service.CheckinBook id w with ⟨oe, w1⟩
    rw [hs] at he
    cases he
    rfl
  · intro res he
    unfold handlers.GetBookWithHistory
    rw [hx]
    dsimp only
    rcases hs : service.GetBookWithHistory id w with ⟨⟨r, oe⟩, w1⟩
    rw [hs] at he
    cases he
    rfl
  · intro res he
    unfold handlers.CreateBook
    dsimp only
    rcases hs : service.CreateBook req.Sanitize w with ⟨⟨r, oe⟩, w1⟩
    rw [hs] at he
    cases he
    rfl

/-- C26 at the sample store: the service built on the repository answers
ErrNotFound for an id that is not a UUID, and handler GetBook writes 404. -/
theorem C26_error_status_witness :
    "no-such-book" ≠ "" ∧
      (handlers.GetBook (NewBookService sample.env) "no-such-book" sample.world).1.status =
        some 404 :=
  ⟨by decide,
    (C26_error_status (NewBookService sample.env) sample.world "no-such-book" sample.payload
      (by decide)).1.1 Error.ErrNotFound rfl⟩

/-- C30: the list request handler ListBooks forwards.  Whatever the service, the
handler calls its ListBooks once, with the bound request after validation, and
replies from what that call returned.  The page size of the forwarded request
is 10 for a bound page size of zero or less, 100 for one above 100 and the bound
one otherwise, so it lies between 1 and 100; the page and the five filter fields
are the bound ones. -/
theorem C30_forwarded_page_size (req : ListBooksRequest) :
    (∀ (service : BookService) (w : World),
        handlers.ListBooks service (some req) w =
          (handlers.listReply (service.ListBooks (handlers.validateListRequest req) w).1,
            (service.ListBooks (handlers.validateListRequest req) w).2)) ∧
      (handlers.validateListRequest req).PageSize =
        (if req.PageSize ≤ 0 then 10 else if req.PageSize > 100 then 100 else req.PageSize) ∧
      1 ≤ (handlers.validateListRequest req).PageSize ∧
      (handlers.validateListRequest req).PageSize ≤ 100 ∧
      (handlers.validateListRequest req).Page = req.Page ∧
      (handlers.validateListRequest req).ISBN = req.ISBN ∧
      (handlers.validateListRequest req).Title = req.Title ∧
      (handlers.validateListRequest req).Author = req.Author ∧
      (handlers.validateListRequest req).Status = req.Status ∧
      (handlers.validateListRequest req).Text = req.Text := by
  refine ⟨fun _ _ => rfl, ?_⟩
  rw [validateListRequest_eq]
  refine ⟨rfl, ?_, ?_, rfl, rfl, rfl, rfl, rfl, rfl⟩
  · dsimp only
    split_ifs <;> omega
  · dsimp only
    split_ifs <;> omega

end claims_handlers


/-! ## Sort validation in the handler and in the repository -/

section claims_sort_validation

open utils models storage services repositories

/-- C28, as stated, fails for the direction DESC in capital letters: the
repository called with the raw request sorts descending, but through handler
ListBooks the direction has become asc and the repository sorts ascending. -/
theorem C28_counterexample_upper_case_desc :
    (repositories.ListBooks sample.env sample.queryUpperCaseDesc sample.world).2.calls =
        [Call.CountBooks "WHERE deleted = false" [],
         Call.SelectBooks "WHERE deleted = false" "title" "DESC" 10 0 []] ∧
      (handlers.ListBooks (NewBookService sample.env) (some sample.queryUpperCaseDesc)
          sample.world).2.calls =
        [Call.CountBooks "WHERE deleted = false" [],
         Call.SelectBooks "WHERE deleted = false" "title" "ASC" 10 0 []] ∧
      sanitizeSortOrder (handlers.validateListRequest sample.queryUpperCaseDesc).SortOrder ≠
        sanitizeSortOrder sample.queryUpperCaseDesc.SortOrder := by
  refine ⟨by decide, by decide, by decide⟩

/-- C28, amended: on the sort column handler and repository always agree, the
column the repository uses after the validation of the handler is the one it
would use on the raw request, and the handler has already put it into the
request.  On the direction they agree exactly when the raw order is the word
desc in lower case or is no spelling of desc at all (the repository would sort
ascending on it); after the validation of the handler the direction is DESC
only for the raw order desc in lower case. -/
theorem C28_sort_validation_agreement (req : ListBooksRequest) :
    sanitizeSortBy (handlers.validateListRequest req).SortBy = sanitizeSortBy req.SortBy ∧
      (handlers.validateListRequest req).SortBy = sanitizeSortBy req.SortBy ∧
      (sanitizeSortOrder (handlers.validateListRequest req).SortOrder =
          sanitizeSortOrder req.SortOrder ↔
        req.SortOrder = "desc" ∨ sanitizeSortOrder req.SortOrder = "ASC") ∧
      (sanitizeSortOrder (handlers.validateListRequest req).SortOrder = "DESC" ↔
        req.SortOrder = "desc") := by
  rw [validateListRequest_eq]
  dsimp only
  have hd : sanitizeSortOrder "desc" = "DESC" := by decide
  have ha : sanitizeSortOrder "asc" = "ASC" := by decide
  have hv : (if handlers.validSortFields req.SortBy = true then req.SortBy else "title") =
      sanitizeSortBy req.SortBy := by
    unfold handlers.validSortFields sanitizeSortBy
    by_cases h : req.SortBy = "isbn" ∨ req.SortBy = "title" ∨ req.SortBy = "author" ∨
        req.SortBy = "status"
    · rw [if_pos (decide_eq_true h), if_pos h]
    · rw [if_neg (by simpa using h), if_neg h]
  have hi : sanitizeSortBy (sanitizeSortBy req.SortBy) = sanitizeSortBy req.SortBy := by
    unfold sanitizeSortBy
    by_cases h : req.SortBy = "isbn" ∨ req.SortBy = "title" ∨ req.SortBy = "author" ∨
        req.SortBy = "status"
    · rw [if_pos h, if_pos h]
    · rw [if_neg h]
      decide
  refine ⟨?_, hv, ?_, ?_⟩
  · rw [hv, hi]
  · by_cases h : req.SortOrder = "desc"
    · rw [if_pos h, h]
      exact ⟨fun _ => Or.inl rfl, fun _ => rfl⟩
    · rw [if_neg h, ha]
      constructor
      · intro h1
        exact Or.inr h1.symm
      · rintro (h1 | h1)
        · exact absurd h1 h
        · exact h1.symm
  · by_cases h : req.SortOrder = "desc"
    · rw [if_pos h, hd]
      exact ⟨fun _ => h, fun _ => rfl⟩
    · rw [if_neg h, ha]
      exact ⟨fun h1 => absurd h1 (by decide), fun h1 => absurd h1 h⟩

end claims_sort_validation

/-! ## The offset of a page -/

section claims_offset

open utils models storage services repositories

/-- The result of wrapInt64 is an int. -/
theorem wrapInt64_range (x : Int) : -2 ^ 63 ≤ wrapInt64 x ∧ wrapInt64 x < 2 ^ 63 := by
  unfold wrapInt64
  have h1 := Int.emod_nonneg (x + 2 ^ 63) (by norm_num : (2 : Int) ^ 64 ≠ 0)
  have h2 := Int.emod_lt_of_pos (x + 2 ^ 63) (by norm_num : (0 : Int) < 2 ^ 64)
  constructor <;> omega

/-- An int is not changed by wrapInt64. -/
theorem wrapInt64_id (x : Int) (h1 : -2 ^ 63 ≤ x) (h2 : x < 2 ^ 63) : wrapInt64 x = x := by
  unfold wrapInt64
  rw [Int.emod_eq_of_lt (by omega) (by omega)]
  omega

/-- C27, as stated, fails for a page far out: for page 2^62 + 1 and page size 2
the product (Page - 1) * PageSize is 2^63, and the offset of the data query is
-2^63. -/
theorem C27_counterexample_offset_wraps :
    (1 : Int) ≤ sample.queryFarPage.Page ∧ sample.queryFarPage.Page < 2 ^ 63 ∧
      1 ≤ sample.queryFarPage.PageSize ∧ sample.queryFarPage.PageSize ≤ 100 ∧
      (sample.queryFarPage.Page - 1) * sample.queryFarPage.PageSize = 2 ^ 63 ∧
      (repositories.ListBooks sample.env sample.queryFarPage sample.world).2.calls =
        [Call.CountBooks "WHERE deleted = false" [],
         Call.SelectBooks "WHERE deleted = false" "title" "ASC" 2 (-2 ^ 63) []] := by
  refine ⟨by decide, by decide, by decide, by decide, by decide, by decide⟩

/-- C27, amended: for a page from 1 on that is an int and a page size from 1 on
(so for every page size the handler admits), the offset ListBooks computes is
the product (Page - 1) * PageSize exactly when this product is below 2^63; it is
then not negative, and it is the offset of the data query issued. -/
theorem C27_offset_is_product (env : Env) (req : ListBooksRequest) (w : World)
    (hp : 1 ≤ req.Page) (hmax : req.Page < 2 ^ 63) (hs : 1 ≤ req.PageSize) :
    (wrapInt64 (wrapInt64 (req.Page - 1) * req.PageSize) = (req.Page - 1) * req.PageSize ↔
        (req.Page - 1) * req.PageSize < 2 ^ 63) ∧
      ((req.Page - 1) * req.PageSize < 2 ^ 63 →
        0 ≤ wrapInt64 (wrapInt64 (req.Page - 1) * req.PageSize) ∧
        ∀ wh sortBy sortOrder limit offset args,
          Call.SelectBooks wh sortBy sortOrder limit offset args ∈
              (repositories.ListBooks env req w).2.calls.drop w.calls.length →
            offset = (req.Page - 1) * req.PageSize) := by
  have h1 : wrapInt64 (req.Page - 1) = req.Page - 1 := wrapInt64_id _ (by omega) (by omega)
  have h0 : 0 ≤ (req.Page - 1) * req.PageSize := mul_nonneg (by omega) (by omega)
  rw [h1]
  constructor
  · constructor
    · intro h
      rw [← h]
      exact (wrapInt64_range _).2
    · intro h
      exact wrapInt64_id _ (by omega) h
  · intro h
    have h2 := wrapInt64_id _ (by omega : -2 ^ 63 ≤ (req.Page - 1) * req.PageSize) h
    refine ⟨by rw [h2]; exact h0, ?_⟩
    intro wh sortBy sortOrder limit offset args hc
    rw [ListBooks_calls, List.drop_left] at hc
    split_ifs at hc
    · simp only [List.mem_cons, List.mem_singleton, List.not_mem_nil, or_false, reduceCtorEq,
        false_or, Call.SelectBooks.injEq] at hc
      rw [hc.2.2.2.2.1, h1, h2]
    · simp only [List.mem_singleton, reduceCtorEq] at hc

/-- C27 at the last page that is safe for a page size of 100. -/
theorem C27_offset_is_product_witness :
    wrapInt64 (wrapInt64 ((92233720368547759 : Int) - 1) * 100) =
      (92233720368547759 - 1) * 100 :=
  ((C27_offset_is_product sample.env
      { sample.query with Page := 92233720368547759, PageSize := 100 } sample.world
      (by decide) (by decide) (by decide)).1).2 (by decide)

end claims_offset


/-! ## Pages of ListBooks -/

section order_lemmas

open utils models storage

theorem lexLE_total (a b : List Char) : lexLE a b = true ∨ lexLE b a = true := by
  induction a generalizing b with
  | nil => left; rfl
  | cons x xs ih =>
    cases b with
    | nil => right; rfl
    | cons y ys =>
      unfold lexLE
      rcases lt_trichotomy x y with h | h | h
      · left; rw [if_pos h]
      · subst h
        simp only [lt_irrefl, if_false]
        exact ih ys
      · right; rw [if_pos h]

theorem lexLE_trans (a b c : List Char) (h1 : lexLE a b = true) (h2 : lexLE b c = true) :
    lexLE a c = true := by
  induction a generalizing b c with
  | nil => rfl
  | cons x xs ih =>
    cases b with
    | nil => simp [lexLE] at h1
    | cons y ys =>
      cases c with
      | nil => simp [lexLE] at h2
      | cons z zs =>
        unfold lexLE at h1 h2 ⊢
        rcases lt_trichotomy x y with hxy | hxy | hxy
        · rcases lt_trichotomy y z with hyz | hyz | hyz
          · rw [if_pos (lt_trans hxy hyz)]
          · subst hyz; rw [if_pos hxy]
          · rw [if_neg (not_lt_of_lt hyz), if_pos hyz] at h2
            exact absurd h2 (by simp)
        · subst hxy
          rw [if_neg (lt_irrefl x), if_neg (lt_irrefl x)] at h1
          rcases lt_trichotomy x z with hyz | hyz | hyz
          · rw [if_pos hyz]
          · subst hyz
            rw [if_neg (lt_irrefl x), if_neg (lt_irrefl x)] at h2 ⊢
            exact ih ys zs h1 h2
          · rw [if_neg (not_lt_of_lt hyz), if_pos hyz] at h2
            exact absurd h2 (by simp)
        · rw [if_neg (not_lt_of_lt hxy), if_pos hxy] at h1
          exact absurd h1 (by simp)

/-- The rows ORDER BY gives are the rows it was given. -/
theorem orderBy_perm (sortBy sortOrder : String) (rows : List Book) :
    (orderBy sortBy sortOrder rows).Perm rows := by
  unfold orderBy
  split_ifs
  · exact List.perm_insertionSort _ _
  · exact List.perm_insertionSort _ _

/-- The rows ORDER BY gives are in order. -/
theorem orderBy_sorted (sortBy sortOrder : String) (rows : List Book) :
    (orderBy sortBy sortOrder rows).Sorted (inOrder sortBy sortOrder) := by
  unfold orderBy
  by_cases h : sortOrder = "DESC"
  · rw [if_pos h]
    have hr : inOrder sortBy sortOrder =
        fun x y => lexLE (column sortBy y).data (column sortBy x).data = true := by
      funext x y
      unfold inOrder
      rw [if_pos h]
    rw [hr]
    haveI : IsTotal Book
        (fun x y => lexLE (column sortBy y).data (column sortBy x).data = true) :=
      ⟨fun x y => lexLE_total _ _⟩
    haveI : IsTrans Book
        (fun x y => lexLE (column sortBy y).data (column sortBy x).data = true) :=
      ⟨fun x y z h1 h2 => lexLE_trans _ _ _ h2 h1⟩
    exact List.sorted_insertionSort _ _
  · rw [if_neg h]
    have hr : inOrder sortBy sortOrder =
        fun x y => lexLE (column sortBy x).data (column sortBy y).data = true := by
      funext x y
      unfold inOrder
      rw [if_neg h]
    rw [hr]
    haveI : IsTotal Book
        (fun x y => lexLE (column sortBy x).data (column sortBy y).data = true) :=
      ⟨fun x y => lexLE_total _ _⟩
    haveI : IsTrans Book
        (fun x y => lexLE (column sortBy x).data (column sortBy y).data = true) :=
      ⟨fun x y z h1 h2 => lexLE_trans _ _ _ h1 h2⟩
    exact List.sorted_insertionSort _ _

end order_lemmas

section filter_lemmas

open utils models storage repositories

/-- The conditions of ListBooks on a row, filter by filter. -/
theorem evalWhere_listConditions (req : ListBooksRequest) (b : Book) :
    evalWhere (listConditions req).1 (listConditions req).2 b =
      (!b.Deleted &&
        (decide (req.ISBN = "") || ilike b.ISBN ("%" ++ req.ISBN ++ "%")) &&
        (decide (req.Title = "") || ilike b.Title ("%" ++ req.Title ++ "%")) &&
        (decide (req.Author = "") || ilike b.Author ("%" ++ req.Author ++ "%")) &&
        (decide (req.Status = "") || decide (b.Status = req.Status)) &&
        (decide (req.Text = "") || (ilike b.Title ("%" ++ req.Text ++ "%") ||
          ilike b.Description ("%" ++ req.Text ++ "%")))) := by
  unfold listConditions
  by_cases h1 : req.ISBN = "" <;> by_cases h2 : req.Title = "" <;>
    by_cases h3 : req.Author = "" <;> by_cases h4 : req.Status = "" <;>
    by_cases h5 : req.Text = "" <;>
    simp only [h1, h2, h3, h4, h5, ne_eq, not_true_eq_false, not_false_eq_true, if_true,
      if_false, List.nil_append, List.cons_append, evalWhere, Cond.arity, Cond.eval, List.take,
      List.drop, decide_True, decide_False, Bool.true_or, Bool.false_or, Bool.and_true,
      Bool.true_and] <;>
    simp only [Bool.and_comm, Bool.and_left_comm, Bool.and_assoc]

end filter_lemmas

section claims_pages_of_list

open utils models storage repositories

/-- C21: a page of repository ListBooks.  The matching books are the books of
the table that are not deleted and pass every filter of the request that is not
empty: the ISBN, the title and the author by ILIKE against the filter text
between percent signs, the status by equality, the free text by ILIKE against
the title or the description.  For a page from 1 on and a page size from 1 on
whose offset (Page - 1) * PageSize does not overflow, and an engine that reports
no error for the two queries: the total returned is the number N of matching
books; the books returned are those at the positions (Page - 1) * PageSize up to
(Page - 1) * PageSize + PageSize - 1 of the matching books put in the requested
order, which are the matching books rearranged so that each may stand before
the next; every book returned is in the table and not deleted; and their
number is min(PageSize, max(0, N - (Page - 1) * PageSize)), so 10 for N = 25 on
page 2 of size 10.  The tables are left as they were. -/
theorem C21_list_page (env : Env) (req : ListBooksRequest) (w : World) (matching : List Book)
    (hmatching : matching = w.tables.books.filter (fun b =>
      !b.Deleted &&
        (decide (req.ISBN = "") || ilike b.ISBN ("%" ++ req.ISBN ++ "%")) &&
        (decide (req.Title = "") || ilike b.Title ("%" ++ req.Title ++ "%")) &&
        (decide (req.Author = "") || ilike b.Author ("%" ++ req.Author ++ "%")) &&
        (decide (req.Status = "") || decide (b.Status = req.Status)) &&
        (decide (req.Text = "") || (ilike b.Title ("%" ++ req.Text ++ "%") ||
          ilike b.Description ("%" ++ req.Text ++ "%")))))
    (hp : 1 ≤ req.Page) (hs : 1 ≤ req.PageSize)
    (hno : (req.Page - 1) * req.PageSize < 2 ^ 63)
    (hcount : env.fault w.calls.length = none)
    (hdata : env.fault (w.calls.length + 1) = none) :
    ∃ books : List Book,
      (repositories.ListBooks env req w).1 = (books, (matching.length : Int), none) ∧
      (repositories.ListBooks env req w).2.tables = w.tables ∧
      books =
        ((orderBy (sanitizeSortBy req.SortBy) (sanitizeSortOrder req.SortOrder) matching).drop
            ((req.Page - 1) * req.PageSize).toNat).take req.PageSize.toNat ∧
      (∀ i : Nat, (i : Int) < req.PageSize →
        books[i]? =
          (orderBy (sanitizeSortBy req.SortBy) (sanitizeSortOrder req.SortOrder) matching)[
            ((req.Page - 1) * req.PageSize).toNat + i]?) ∧
      (books.length : Int) =
        min req.PageSize (max 0 ((matching.length : Int) - (req.Page - 1) * req.PageSize)) ∧
      ((matching.length = 25 ∧ req.Page = 2 ∧ req.PageSize = 10) → books.length = 10) ∧
      (∀ b ∈ books, b ∈ w.tables.books ∧ b.Deleted = false) ∧
      (orderBy (sanitizeSortBy req.SortBy) (sanitizeSortOrder req.SortOrder) matching).Perm
        matching ∧
      (orderBy (sanitizeSortBy req.SortBy) (sanitizeSortOrder req.SortOrder) matching).Sorted
        (inOrder (sanitizeSortBy req.SortBy) (sanitizeSortOrder req.SortOrder)) := by
  have hm : matching = w.tables.books.filter
      (evalWhere (listConditions req).1 (listConditions req).2) := by
    rw [hmatching]
    congr 1
    funext b
    exact (evalWhere_listConditions req b).symm
  have h0 : 0 ≤ (req.Page - 1) * req.PageSize := mul_nonneg (by omega) (by omega)
  have h1 : wrapInt64 (req.Page - 1) = req.Page - 1 := by
    apply wrapInt64_id
    · omega
    · by_contra hc
      have : (2 : Int) ^ 63 * 1 ≤ (req.Page - 1) * req.PageSize :=
        mul_le_mul (by omega) hs (by norm_num) (by omega)
      omega
  have h2 : wrapInt64 ((req.Page - 1) * req.PageSize) = (req.Page - 1) * req.PageSize :=
    wrapInt64_id _ (by omega) hno
  have hlen : (((orderBy (sanitizeSortBy req.SortBy) (sanitizeSortOrder req.SortOrder)
      matching).drop ((req.Page - 1) * req.PageSize).toNat).take req.PageSize.toNat).length =
      min req.PageSize.toNat (matching.length - ((req.Page - 1) * req.PageSize).toNat) := by
    rw [List.length_take, List.length_drop, (orderBy_perm _ _ _).length_eq]
  refine ⟨_, ?_, ?_, rfl, ?_, ?_, ?_, ?_, orderBy_perm _ _ _, orderBy_sorted _ _ _⟩
  · rw [hm]
    unfold repositories.ListBooks
    simp only [issue, hcount, List.length_append, List.length_singleton, hdata, h1, h2,
      limitOffset, not_lt_of_le h0, not_lt_of_le (le_trans zero_le_one hs), if_false]
  · unfold repositories.ListBooks
    simp only [issue, hcount, List.length_append, List.length_singleton, hdata, h1, h2,
      limitOffset, not_lt_of_le h0, not_lt_of_le (le_trans zero_le_one hs), if_false]
  · intro i hi
    rw [List.getElem?_take_of_lt (by omega), List.getElem?_drop]
  · rw [hlen]
    omega
  · rintro ⟨hn, hpage, hsize⟩
    rw [hlen, hn, hpage, hsize]
    decide
  · intro b hb
    have hb1 : b ∈ matching :=
      (orderBy_perm _ _ _).subset (List.mem_of_mem_drop (List.mem_of_mem_take hb))
    rw [hmatching, List.mem_filter] at hb1
    refine ⟨hb1.1, ?_⟩
    have hd := hb1.2
    simp only [Bool.and_eq_true, Bool.not_eq_true'] at hd
    exact hd.1.1.1.1.1

/-- C21 on a store of twenty-five available books, three deleted books and two
books that are checked out, for the available books: the second page of ten has
the ten books from K to T, and the total is 25. -/
theorem C21_list_page_witness :
    (repositories.ListBooks sample.env sample.queryAvailableSecondPage
        sample.mixedWorld).1.1.length = 10 ∧
      (repositories.ListBooks sample.env sample.queryAvailableSecondPage
        sample.mixedWorld).1.2.1 = 25 ∧
      (repositories.ListBooks sample.env sample.queryAvailableSecondPage
        sample.mixedWorld).1.1.map (fun b => b.Title) =
        ["K", "L", "M", "N", "O", "P", "Q", "R", "S", "T"] ∧
      sample.mixedWorld.tables.books.length = 30 := by
  obtain ⟨books, h1, -, -, -, -, h25, -, -, -⟩ :=
    C21_list_page sample.env sample.queryAvailableSecondPage sample.mixedWorld _ rfl
      (by decide) (by decide) (by decide) rfl rfl
  have hN : (sample.mixedWorld.tables.books.filter (fun b =>
      !b.Deleted &&
        (decide (sample.queryAvailableSecondPage.ISBN = "") ||
          ilike b.ISBN ("%" ++ sample.queryAvailableSecondPage.ISBN ++ "%")) &&
        (decide (sample.queryAvailableSecondPage.Title = "") ||
          ilike b.Title ("%" ++ sample.queryAvailableSecondPage.Title ++ "%")) &&
        (decide (sample.queryAvailableSecondPage.Author = "") ||
          ilike b.Author ("%" ++ sample.queryAvailableSecondPage.Author ++ "%")) &&
        (decide (sample.queryAvailableSecondPage.Status = "") ||
          decide (b.Status = sample.queryAvailableSecondPage.Status)) &&
        (decide (sample.queryAvailableSecondPage.Text = "") ||
          (ilike b.Title ("%" ++ sample.queryAvailableSecondPage.Text ++ "%") ||
            ilike b.Description ("%" ++ sample.queryAvailableSecondPage.Text ++ "%"))))).length =
      25 := by decide
  refine ⟨?_, ?_, by decide, by decide⟩
  · rw [h1]
    exact h25 ⟨hN, rfl, rfl⟩
  · rw [h1, hN]
    rfl

end claims_pages_of_list


/-! ## Pattern matching of the filters -/

section like_lemmas

open utils models storage

theorem likeMatch_plain_nil (c : Char) (p : List Char) (hc : c ≠ '%' ∧ c ≠ '_' ∧ c ≠ '\\') :
    likeMatch (c :: p) [] = false := by
  obtain ⟨h1, h2, h3⟩ := hc
  rw [likeMatch.eq_def]
  split <;> simp_all

theorem likeMatch_plain_cons (c d : Char) (p s : List Char)
    (hc : c ≠ '%' ∧ c ≠ '_' ∧ c ≠ '\\') :
    likeMatch (c :: p) (d :: s) = (decide (c = d) && likeMatch p s) := by
  obtain ⟨h1, h2, h3⟩ := hc
  rw [likeMatch.eq_def]
  split <;> simp_all

theorem likeMatch_percent (p s : List Char) :
    likeMatch ('%' :: p) s = anySuffix (likeMatch p) s := by
  rw [likeMatch]

theorem likeMatch_nil (s : List Char) : likeMatch [] s = s.isEmpty := by
  rw [likeMatch]

/-- Trying all suffixes finds a suffix. -/
theorem anySuffix_iff (f : List Char → Bool) (s : List Char) :
    anySuffix f s = true ↔ ∃ t, t <:+ s ∧ f t = true := by
  induction s with
  | nil =>
    simp [anySuffix]
  | cons c s ih =>
    rw [anySuffix, Bool.or_eq_true, ih]
    constructor
    · rintro (h | ⟨t, ht, hf⟩)
      · exact ⟨_, List.suffix_refl _, h⟩
      · exact ⟨t, ht.trans (List.suffix_cons _ _), hf⟩
    · rintro ⟨t, ht, hf⟩
      rcases List.suffix_cons_iff.1 ht with h | h
      · subst h; exact Or.inl hf
      · exact Or.inr ⟨t, h, hf⟩

/-- A pattern of literal characters followed by a percent sign matches the
texts it is a prefix of. -/
theorem likeMatch_literals (p : List Char) (hp : ∀ c ∈ p, c ≠ '%' ∧ c ≠ '_' ∧ c ≠ '\\')
    (t : List Char) : likeMatch (p ++ ['%']) t = true ↔ p <+: t := by
  induction p generalizing t with
  | nil =>
    rw [List.nil_append, likeMatch_percent, anySuffix_iff]
    constructor
    · intro _
      exact List.nil_prefix
    · intro _
      exact ⟨[], List.nil_suffix, by rw [likeMatch_nil]; rfl⟩
  | cons c p ih =>
    have hc := hp c (List.mem_cons_self _ _)
    have hp1 : ∀ x ∈ p, x ≠ '%' ∧ x ≠ '_' ∧ x ≠ '\\' :=
      fun x hx => hp x (List.mem_cons_of_mem _ hx)
    cases t with
    | nil =>
      rw [List.cons_append, likeMatch_plain_nil c _ hc]
      constructor
      · intro h
        exact absurd h (by simp)
      · intro h
        exact absurd (List.prefix_nil.1 h) (by simp)
    | cons d t =>
      rw [List.cons_append, likeMatch_plain_cons c d _ _ hc, Bool.and_eq_true, decide_eq_true_eq,
        ih hp1, List.cons_prefix_cons]

/-- A pattern of literal characters between two percent signs matches the
texts it occurs in. -/
theorem likeMatch_between (p : List Char) (hp : ∀ c ∈ p, c ≠ '%' ∧ c ≠ '_' ∧ c ≠ '\\')
    (s : List Char) : likeMatch ('%' :: (p ++ ['%'])) s = true ↔ p <:+: s := by
  rw [likeMatch_percent, anySuffix_iff, List.infix_iff_prefix_suffix]
  constructor
  · rintro ⟨t, ht, hm⟩
    exact ⟨t, (likeMatch_literals p hp t).1 hm, ht⟩
  · rintro ⟨t, hpre, ht⟩
    exact ⟨t, ht, (likeMatch_literals p hp t).2 hpre⟩

/-- Lower-casing gives one of the three special characters of LIKE only from
that character. -/
theorem toLower_special (c : Char) :
    (c.toLower = '%' ↔ c = '%') ∧ (c.toLower = '_' ↔ c = '_') ∧ (c.toLower = '\\' ↔ c = '\\') := by
  by_cases hr : 65 ≤ c.toNat ∧ c.toNat ≤ 90
  · have hc : c = Char.ofNat c.toNat := (Char.ofNat_toNat c).symm
    obtain ⟨h3, h4⟩ := hr
    generalize c.toNat = n at *
    subst hc
    interval_cases n <;> decide
  · have hu : c.toLower = c := by
      unfold Char.toLower
      exact if_neg hr
    rw [hu]
    exact ⟨Iff.rfl, Iff.rfl, Iff.rfl⟩

/-- ILIKE with a text free of special characters between two percent signs is
containment after lower-casing. -/
theorem ilike_contains (text sub : String)
    (hsub : ∀ c ∈ sub.data, c ≠ '%' ∧ c ≠ '_' ∧ c ≠ '\\') :
    ilike text ("%" ++ sub ++ "%") = true ↔
      sub.data.map Char.toLower <:+: text.data.map Char.toLower := by
  unfold ilike
  have hd : ("%" ++ sub ++ "%").data = '%' :: (sub.data ++ ['%']) := by
    simp [String.data_append]
  rw [hd, List.map_cons, List.map_append]
  have h1 : Char.toLower '%' = '%' := by decide
  rw [List.map_singleton, h1]
  apply likeMatch_between
  intro c hc
  obtain ⟨x, hx, rfl⟩ := List.mem_map.1 hc
  obtain ⟨a, b, d⟩ := toLower_special x
  obtain ⟨ha, hb, hd⟩ := hsub x hx
  exact ⟨fun h => ha (a.1 h), fun h => hb (b.1 h), fun h => hd (d.1 h)⟩

end like_lemmas

section claims_filters

open utils models storage repositories

/-- C24, as stated, fails for a free text with a wildcard of LIKE: for the free
text made of one underscore the book Dune, whose title and description have no
underscore, is among the selected rows. -/
theorem C24_counterexample_underscore :
    sample.bookA ∈ sample.world.tables.books.filter
        (evalWhere (listConditions sample.queryUnderscore).1
          (listConditions sample.queryUnderscore).2) ∧
      ¬ (sample.queryUnderscore.Text.data.map Char.toLower <:+:
            sample.bookA.Title.data.map Char.toLower ∨
          sample.queryUnderscore.Text.data.map Char.toLower <:+:
            sample.bookA.Description.data.map Char.toLower) := by
  constructor
  · decide
  · decide

/-- C24, amended: for a request with a status filter and a free text and no
other filter, where the free text has no percent sign, underscore or backslash,
a book is among the rows ListBooks counts and selects from exactly when it is in
the table, it is not deleted, its status is the one of the filter, and its
title or its description contains the free text, upper and lower case of the
ASCII letters taken as equal. -/
theorem C24_status_and_text_filter (req : ListBooksRequest) (w : World) (b : Book)
    (hisbn : req.ISBN = "") (htitle : req.Title = "") (hauthor : req.Author = "")
    (hstatus : req.Status ≠ "") (htext : req.Text ≠ "")
    (hplain : ∀ c ∈ req.Text.data, c ≠ '%' ∧ c ≠ '_' ∧ c ≠ '\\') :
    b ∈ w.tables.books.filter (evalWhere (listConditions req).1 (listConditions req).2) ↔
      b ∈ w.tables.books ∧ b.Deleted = false ∧ b.Status = req.Status ∧
        (req.Text.data.map Char.toLower <:+: b.Title.data.map Char.toLower ∨
          req.Text.data.map Char.toLower <:+: b.Description.data.map Char.toLower) := by
  have hc : listConditions req =
      ([Cond.statusEq, Cond.textILike, Cond.notDeleted],
        [req.Status, "%" ++ req.Text ++ "%", "%" ++ req.Text ++ "%"]) := by
    unfold listConditions
    simp [hisbn, htitle, hauthor, hstatus, htext]
  rw [hc, List.mem_filter]
  simp only [evalWhere, Cond.arity, Cond.eval, List.take, List.drop, Bool.and_true,
    Bool.and_eq_true, Bool.or_eq_true, decide_eq_true_eq, Bool.not_eq_true',
    ilike_contains _ _ hplain]
  tauto

/-- C24 at the sample store: the book Dune is selected for the free text dUN. -/
theorem C24_status_and_text_filter_witness :
    sample.bookA ∈ sample.world.tables.books.filter
      (evalWhere (listConditions sample.queryDun).1 (listConditions sample.queryDun).2) :=
  (C24_status_and_text_filter sample.queryDun sample.world sample.bookA rfl rfl rfl
    (by decide) (by decide) (by decide)).2 (by decide)

end claims_filters


/-! ## The history of a book -/

section history_lemmas

open utils models storage

/-- A row later than all the others comes first in descending order. -/
theorem insertionSort_append_latest (l : List StatusChangeRow) (a : StatusChangeRow)
    (h : ∀ x ∈ l, x.timestamp < a.timestamp) :
    (l ++ [a]).insertionSort (fun x y => y.timestamp ≤ x.timestamp) =
      a :: l.insertionSort (fun x y => y.timestamp ≤ x.timestamp) := by
  induction l with
  | nil => rfl
  | cons x l ih =>
    have hx := h x (List.mem_cons_self _ _)
    rw [List.cons_append, List.insertionSort, ih (fun y hy => h y (List.mem_cons_of_mem _ hy)),
      List.orderedInsert, if_neg (not_le_of_lt hx), List.insertionSort]

/-- What repository GetBookWithHistory returns for a book that is there, from an
engine that reports no error. -/
theorem repoGetBookWithHistory_ok (env : Env) (id : String) (w : World) (book : Book)
    (hid : env.parseUUID id = true)
    (h0 : env.fault w.calls.length = none) (h1 : env.fault (w.calls.length + 1) = none)
    (hrow : w.tables.books.find? (liveWithID id) = some book) :
    repositories.GetBookWithHistory env id w =
      ((some book,
        ((historyOf id w.tables.book_status_changes).insertionSort
          (fun x y => y.timestamp ≤ x.timestamp)).map (fun r =>
            { ID := "", BookID := "", Status := r.status, Timestamp := r.timestamp }),
        none),
       { w with calls := w.calls ++ [Call.SelectBookByID id, Call.SelectHistory id] }) := by
  unfold repositories.GetBookWithHistory
  simp [repositories.validateUUIDOrNotFound, hid, GetBookByID_found env id w book hid h0 hrow,
    issue, h1, historyOf]

/-- What service GetBookWithHistory returns for a book that is there, from an
engine that reports no error. -/
theorem GetBookWithHistory_ok (env : Env) (id : String) (w : World) (book : Book)
    (hid : env.parseUUID id = true)
    (h0 : env.fault w.calls.length = none) (h1 : env.fault (w.calls.length + 1) = none)
    (hrow : w.tables.books.find? (liveWithID id) = some book) :
    services.GetBookWithHistory env id w =
      ((some { Book := ToBookResponse book,
               History := ((historyOf id w.tables.book_status_changes).insertionSort
                 (fun x y => y.timestamp ≤ x.timestamp)).map (fun r =>
                   { Status := r.status, Timestamp := r.timestamp }) },
        none),
       { w with calls := w.calls ++ [Call.SelectBookByID id, Call.SelectHistory id] }) := by
  unfold services.GetBookWithHistory
  rw [repoGetBookWithHistory_ok env id w book hid h0 h1 hrow]
  simp [ToStatusChangeResponseList, ToStatusChangeResponse, Function.comp_def]

end history_lemmas

section history_scenario

open utils models storage

/-- The store after a checkout and a checkin of an available book, both
committed: two history rows were added, and the book is there, available. -/
theorem checkout_then_checkin (env : Env) (id : String) (w : World) (book : Book)
    (hid : env.parseUUID id = true)
    (hstorage : ∀ n, env.fault n = none) (hrows : ∀ n, env.rowsFault n = none)
    (hrow : w.tables.books.find? (liveWithID id) = some book)
    (havail : book.Status = BookStatusAvailable) :
    (services.CheckinBook env id (services.CheckoutBook env id w).2).2.tables.book_status_changes =
        w.tables.book_status_changes ++
          [{ id := w.serial + 1, book_id := id, status := BookStatusCheckedOut,
             timestamp := env.now (w.clockReads + 1) }] ++
          [{ id := w.serial + 2, book_id := id, status := BookStatusAvailable,
             timestamp := env.now (w.clockReads + 3) }] ∧
      (services.CheckinBook env id (services.CheckoutBook env id w).2).2.tables.books.find?
          (liveWithID id) =
        some { book with Status := BookStatusAvailable,
                         UpdatedAt := env.now (w.clockReads + 2) } := by
  have hne1 : book.Status ≠ BookStatusCheckedOut := by
    rw [havail]
    decide
  have h1 := changeBookStatus_commit env id BookStatusCheckedOut w book hid (hstorage _)
    (hstorage _) (hstorage _) (hrows _) (hstorage _) (hstorage _) hrow hne1
  have hrow1 := find_booksAfterStatus w.tables.books id book BookStatusCheckedOut
    (env.now w.clockReads) hrow
  unfold services.CheckoutBook services.CheckinBook
  rw [h1]
  dsimp only
  rw [changeBookStatus_commit env id BookStatusAvailable _
    { book with Status := BookStatusCheckedOut, UpdatedAt := env.now w.clockReads } hid
    (hstorage _) (hstorage _) (hstorage _) (hrows _) (hstorage _) (hstorage _) hrow1
    (show BookStatusCheckedOut ≠ BookStatusAvailable by decide)]
  dsimp only
  constructor
  · rfl
  · exact find_booksAfterStatus _ id
      { book with Status := BookStatusCheckedOut, UpdatedAt := env.now w.clockReads }
      BookStatusAvailable _ hrow1

end history_scenario

section claims_history

open utils models storage

/-- C25: the history GetBookWithHistory returns.  For a book that is there and
not deleted, and an engine that reports no error: the repository returns the
book and a history whose entries are, status and timestamp, all and only the
history rows of that book, each entry with a timestamp not before that of any
later entry; the service returns the history mapped entry by entry, with the
same length and in the same order.  If moreover the book is available, the clock
is strictly increasing and the store is one the service can reach, then after a
checkout followed by a checkin the history returned starts with the checkin
(available) and goes on with the checkout (checked_out), followed by the
history as it was returned before. -/
theorem C25_history_order (env : Env) (id : String) (w : World) (book : Book)
    (hid : env.parseUUID id = true)
    (hstorage : ∀ n, env.fault n = none) (hrows : ∀ n, env.rowsFault n = none)
    (hrow : w.tables.books.find? (liveWithID id) = some book) :
    ∃ (history : List BookStatusChange) (detail : BookDetailResponse),
      (repositories.GetBookWithHistory env id w).1 = (some book, history, none) ∧
      (history.map (fun h => (h.Status, h.Timestamp))).Perm
        ((historyOf id w.tables.book_status_changes).map (fun r => (r.status, r.timestamp))) ∧
      history.Sorted (fun a b => b.Timestamp ≤ a.Timestamp) ∧
      (services.GetBookWithHistory env id w).1 = (some detail, none) ∧
      detail.Book = ToBookResponse book ∧
      detail.History.length = history.length ∧
      (∀ i : Nat, detail.History[i]? = history[i]?.map ToStatusChangeResponse) ∧
      (book.Status = BookStatusAvailable → StrictMono env.now → services.Reachable env w →
        ∃ after : BookDetailResponse,
          (services.GetBookWithHistory env id
              (services.CheckinBook env id (services.CheckoutBook env id w).2).2).1 =
            (some after, none) ∧
          after.History =
            { Status := BookStatusAvailable, Timestamp := env.now (w.clockReads + 3) } ::
            { Status := BookStatusCheckedOut, Timestamp := env.now (w.clockReads + 1) } ::
            detail.History) := by
  refine ⟨_, _, by rw [repoGetBookWithHistory_ok env id w book hid (hstorage _) (hstorage _) hrow],
    ?_, ?_, by rw [GetBookWithHistory_ok env id w book hid (hstorage _) (hstorage _) hrow],
    rfl, ?_, ?_, ?_⟩
  · rw [List.map_map]
    exact (List.perm_insertionSort _ _).map _
  · haveI : IsTotal StatusChangeRow (fun x y => y.timestamp ≤ x.timestamp) :=
      ⟨fun x y => le_total y.timestamp x.timestamp⟩
    haveI : IsTrans StatusChangeRow (fun x y => y.timestamp ≤ x.timestamp) :=
      ⟨fun x y z h1 h2 => le_trans h2 h1⟩
    have hs := List.sorted_insertionSort (fun x y : StatusChangeRow => y.timestamp ≤ x.timestamp)
      (historyOf id w.tables.book_status_changes)
    rw [List.Sorted, List.pairwise_map]
    exact hs
  · simp only [List.length_map]
  · intro i
    simp only [List.getElem?_map, Option.map_map]
    rfl
  · intro havail hclock hreach
    obtain ⟨hchanges, hfind⟩ := checkout_then_checkin env id w book hid hstorage hrows hrow havail
    have htime := (TimeInv_reachable env hclock.monotone w hreach).1
    refine ⟨_, by rw [GetBookWithHistory_ok env id _ _ hid (hstorage _) (hstorage _) hfind], ?_⟩
    dsimp only
    rw [hchanges, historyOf_append_same id _ _ rfl, historyOf_append_same id _ _ rfl,
      insertionSort_append_latest, insertionSort_append_latest]
    · rfl
    · intro x hx
      obtain ⟨j, hj, hxj⟩ := htime x (List.mem_of_mem_filter hx)
      rw [hxj]
      exact hclock (by omega)
    · intro x hx
      rcases List.mem_append.1 hx with hx | hx
      · obtain ⟨j, hj, hxj⟩ := htime x (List.mem_of_mem_filter hx)
        rw [hxj]
        exact hclock (by omega)
      · rw [List.mem_singleton.1 hx]
        exact hclock (by omega)

/-- C25 on the store that holds the book Dune just created: after a checkout
and a checkin the history starts with the checkin and the checkout. -/
theorem C25_history_order_witness :
    ∃ after : BookDetailResponse,
      (services.GetBookWithHistory sample.env sample.idA
          (services.CheckinBook sample.env sample.idA
            (services.CheckoutBook sample.env sample.idA sample.created).2).2).1 =
        (some after, none) ∧
      after.History.take 2 =
        [{ Status := BookStatusAvailable, Timestamp := 104 },
         { Status := BookStatusCheckedOut, Timestamp := 102 }] := by
  obtain ⟨history, detail, -, -, -, -, -, -, -, hsc⟩ :=
    C25_history_order sample.env sample.idA sample.created
      { sample.bookA with CreatedAt := 100, UpdatedAt := 100 } rfl (fun _ => rfl) (fun _ => rfl)
      (by decide)
  obtain ⟨after, h1, h2⟩ := hsc rfl
    (fun a b h => by
      show 100 + a < 100 + b
      omega)
    ⟨sample.calls.take 1, rfl⟩
  exact ⟨after, h1, by rw [h2]; rfl⟩

end claims_history
